import Mathlib

/-!
# EstimatePro: cost aggregation, progress and report statistics

A shallow embedding of the computational core of the EstimatePro application
(Express/Mongoose backend, React frontend) and theorems about it.

Conventions of the embedding:

* a JavaScript number is a rational (`ℚ`); `NaN` and infinities are outside the
  model. The first sections compute with exact arithmetic, which agrees with
  the arithmetic of the machine where every intermediate result is a double
  (whole numbers below 2^53, for instance); the section on double-precision
  arithmetic models the rounding of `+`, `-`, `*` and `/` to the nearest double
  and gives the functions whose results depend on it with that rounding;
* a field that may be missing (`undefined`) is an `Option`;
* `x || d` on an optional number is `jsOr x d`: it yields `d` when `x` is
  missing or is `0`, and `x` otherwise;
* `Math.round` is `mathRound`: the nearest integer, a tie going up;
* a JavaScript string is a `String`, compared with `===` by equality;
* `Math.random` is an explicit stream of numbers, and the clock, the conversion
  of numbers to text and the spreadsheet library are parameters of the functions
  that use them.
-/

namespace EstimatePro

/-! ## JavaScript primitives -/

/-- The expression `x || d` for an optional number `x`: the falsy values of the
model are the missing value and `0`. -/
def jsOr (x : Option ℚ) (d : ℚ) : ℚ :=
  match x with
  | some v => if v = 0 then d else v
  | none => d

/-- The function `Math.round`: the integer nearest to `x`, a tie rounded towards
positive infinity. -/
def mathRound (x : ℚ) : ℤ := ⌊x + 1 / 2⌋

/-! ## Client-side cost breakdown (`CostBreakdown.jsx`, `CostEstimation.jsx`) -/

/-- A line item of the cost breakdown editor. Every field is optional: the editor
creates items with `quantity`/`unitCost`, stored items come back with all six
quantity-like and rate-like fields. -/
structure LineItem where
  id : Option Nat := none
  name : Option String := none
  hours : Option ℚ := none
  rate : Option ℚ := none
  quantity : Option ℚ := none
  unitCost : Option ℚ := none
  months : Option ℚ := none
  monthlyCost : Option ℚ := none
  total : Option ℚ := none

/-- A category of the cost breakdown held in the editor state. -/
structure Category where
  id : Option Nat := none
  category : Option String := none
  items : List LineItem := []

/-- The values computed by `calculateTotals` in `CostEstimation.jsx`: `totalCost`
and `finalCost` are the two state variables it sets, `contingencyAmount` is its
local constant of that name. -/
structure Totals where
  totalCost : ℚ
  contingencyAmount : ℚ
  finalCost : ℚ

/-- The function `getCategoryTotal` of `CostBreakdown.jsx`:
`category.items.reduce((sum, item) => sum + (item.total || 0), 0)`. -/
def getCategoryTotal (category : Category) : ℚ :=
  category.items.foldl (fun sum item => sum + jsOr item.total 0) 0

/-- The function `calculateTotals` of `CostEstimation.jsx`: two nested `forEach`
loops accumulate `item.total || 0` into `total`, then the contingency amount and
the final cost are derived. -/
def calculateTotals (costBreakdown : List Category) (contingency : ℚ) : Totals :=
  let total := costBreakdown.foldl
    (fun total category =>
      category.items.foldl (fun total item => total + jsOr item.total 0) total) 0
  let contingencyAmount := (total * contingency) / 100
  let final := total + contingencyAmount
  { totalCost := total, contingencyAmount := contingencyAmount, finalCost := final }

/-- The expression `x || d` for an optional string `x`: the falsy values are the
missing value and the empty string. -/
def jsOrStr (x : Option String) (d : String) : String :=
  match x with
  | some v => if v = "" then d else v
  | none => d

/-- The method `toLowerCase` on the ASCII letters; other characters are kept. -/
def toLowerCase (s : String) : String := ⟨s.data.map Char.toLower⟩

/-- A calendar date as far as the reports read it: `month` is the value of
`getMonth()`, from 0 for January to 11 for December. -/
structure JsDate where
  year : Int := 1970
  month : Fin 12 := 0
  day : Nat := 1

/-! ## The Estimation and Project documents (`models/Estimation.js`, `models/Project.js`) -/

/-- An entry of `costBreakdown` in the Estimation schema. -/
structure CostEntry where
  category : String := ""
  estimatedCost : Option ℚ := none
  actualCost : Option ℚ := some 0
  description : Option String := none

/-- An entry of `resources` in the Estimation schema. -/
structure ResourceEntry where
  name : String := ""
  type : String := "other"
  quantity : ℚ := 0
  unitCost : ℚ := 0
  totalCost : ℚ := 0

/-- A phase of the timeline; `status` defaults to planned as in the schema. -/
structure Phase where
  name : String := ""
  duration : ℚ := 0
  dependencies : List String := []
  status : String := "planned"

/-- The `timeline` sub-document. -/
structure Timeline where
  phases : Option (List Phase) := some []
  totalDuration : ℚ := 0

/-- An Estimation document. `totalCost` and `finalCost` are optional because the
readers of stored estimations guard them with `|| 0`. -/
structure Estimation where
  id : String := ""
  projectId : Option String := none
  userId : String := ""
  projectName : String := ""
  costBreakdown : List CostEntry := []
  resources : List ResourceEntry := []
  timeline : Option Timeline := some {}
  contingency : ℚ := 10
  totalCost : Option ℚ := some 0
  finalCost : Option ℚ := some 0
  progress : ℚ := 0
  status : String := "draft"
  riskLevel : String := "medium"
  teamSize : ℚ := 1
  duration : ℚ := 1
  notes : Option String := none
  createdBy : String := ""
  createdAt : JsDate := {}

/-- A Project document, with the fields the statistics and reports read. The
schema declares no `teamMembers` path, which the resources report reads; it is
optional here. -/
structure Project where
  id : String := ""
  userId : String := ""
  projectName : String := ""
  startDate : JsDate := {}
  endDate : JsDate := {}
  status : String := "planning"
  estimatedBudget : Option ℚ := some 0
  teamMembers : Option (List String) := none
  estimations : ℚ := 0

/-- The status values of the Project schema. -/
def projectStatusEnum : List String :=
  ["planning", "in_progress", "completed", "on_hold", "cancelled"]

/-- The status values of the Estimation schema. -/
def estimationStatusEnum : List String :=
  ["draft", "in_progress", "completed", "approved", "rejected"]

/-- The status values of a timeline phase. -/
def phaseStatusEnum : List String :=
  ["planned", "in_progress", "completed", "delayed"]

/-- The values of `riskLevel` in the Estimation schema. -/
def riskLevelEnum : List String := ["low", "medium", "high", "critical"]

/-- The values of a resource entry's `type`. -/
def resourceTypeEnum : List String := ["human", "equipment", "material", "other"]

/-- What Mongoose tells a save hook about the document being saved: whether it
is new and which paths it reports as modified. -/
structure SaveContext where
  isNew : Bool
  isModified : String → Bool

/-- The expression `this.timeline?.phases || []` of the save hook: the phases
of the document, the empty list when the timeline or its phase list is absent. -/
def timelinePhases (this : Estimation) : List Phase :=
  match this.timeline with
  | some t => t.phases.getD []
  | none => []

/-- The `pre('save')` hook of the Estimation schema. When `costBreakdown` or
`contingency` is modified it recomputes `totalCost` and `finalCost`; when the
timeline is modified or the document is new it recomputes `progress`. -/
def preSave (ctx : SaveContext) (this : Estimation) : Estimation :=
  let this1 : Estimation :=
    if ctx.isModified "costBreakdown" || ctx.isModified "contingency" then
      let subtotal := this.costBreakdown.foldl
        (fun sum item => sum + jsOr item.estimatedCost 0) 0
      let contingencyAmount := subtotal * (this.contingency / 100)
      { this with totalCost := some subtotal, finalCost := some (subtotal + contingencyAmount) }
    else this
  if ctx.isModified "timeline" || ctx.isNew then
    let phases : List Phase := timelinePhases this1
    if phases.length > 0 then
      let completedPhases := (phases.filter (fun phase => phase.status == "completed")).length
      let totalPhases := phases.length
      { this1 with
        progress := (mathRound (((completedPhases : ℚ) / (totalPhases : ℚ)) * 100) : ℤ) }
    else
      { this1 with progress := 0 }
  else this1

/-- The validators that the Estimation schema declares on the fields of the
model: required strings are non-empty, numbers respect `min` and `max`, and
enumerated strings belong to their list. Mongoose runs them before the save
hook. -/
def validateEstimation (e : Estimation) : Bool :=
  decide (e.projectName ≠ "")
  && e.costBreakdown.all (fun c =>
      decide (c.category ≠ "")
      && (match c.estimatedCost with
          | some v => decide (0 ≤ v)
          | none => false)
      && (match c.actualCost with
          | some v => decide (0 ≤ v)
          | none => true))
  && e.resources.all (fun r =>
      decide (r.name ≠ "") && decide (r.type ∈ resourceTypeEnum)
      && decide (0 ≤ r.quantity) && decide (0 ≤ r.unitCost) && decide (0 ≤ r.totalCost))
  && (match e.timeline with
      | some t => (t.phases.getD []).all (fun ph =>
          decide (ph.name ≠ "") && decide (0 ≤ ph.duration)
          && decide (ph.status ∈ phaseStatusEnum))
      | none => true)
  && decide (0 ≤ e.contingency) && decide (e.contingency ≤ 100)
  && (match e.totalCost with
      | some v => decide (0 ≤ v)
      | none => false)
  && (match e.finalCost with
      | some v => decide (0 ≤ v)
      | none => false)
  && decide (0 ≤ e.progress) && decide (e.progress ≤ 100)
  && decide (e.status ∈ estimationStatusEnum)
  && decide (e.riskLevel ∈ riskLevelEnum)
  && decide (1 ≤ e.teamSize) && decide (1 ≤ e.duration)
  && (match e.notes with
      | some n => decide (n.length ≤ 1000)
      | none => true)

/-! ## The estimation routes (`routes/estimationRoutes.js`) -/

/-- A category of the cost breakdown as it arrives in a request body: `items`
is missing when the body has no array there. -/
structure ReqCategory where
  category : Option String := none
  items : Option (List LineItem) := none

/-- A resource as it arrives in a request body. -/
structure ReqResource where
  name : Option String := none
  type : Option String := none
  quantity : Option ℚ := none
  unitCost : Option ℚ := none
  totalCost : Option ℚ := none

/-- The object `projectData` read by the update route. -/
structure ReqProjectData where
  projectName : Option String := none
  notes : Option String := none

/-- The fields that the create and update routes destructure from `req.body`. -/
structure EstimationBody where
  projectName : Option String := none
  client : Option String := none
  description : Option String := none
  projectData : Option ReqProjectData := none
  costBreakdown : Option (List ReqCategory) := none
  resources : Option (List ReqResource) := none
  timeline : Option Timeline := none
  contingency : Option ℚ := none
  totalCost : Option ℚ := none
  finalCost : Option ℚ := none
  status : Option String := none
  duration : Option ℚ := none
  teamSize : Option ℚ := none
  riskLevel : Option String := none

/-- The outcome of a route: the HTTP status with the data of a success or the
message of a failure. -/
inductive Response (α : Type) where
  | success (status : Nat) (data : α)
  | failure (status : Nat) (error : String)

/-- The block that fills `transformedCostBreakdown` in the create and update
routes: one stored entry per submitted item, in order; a category without an
`items` array contributes nothing. -/
def transformCostBreakdown (costBreakdown : Option (List ReqCategory)) : List CostEntry :=
  match costBreakdown with
  | none => []
  | some categories =>
    categories.foldl
      (fun acc category =>
        match category.items with
        | none => acc
        | some items =>
          items.foldl
            (fun acc item =>
              acc ++ [{ category := jsOrStr category.category "Uncategorized"
                        estimatedCost := some (jsOr item.total 0)
                        actualCost := some 0
                        description := some (jsOrStr item.name "") }])
            acc)
      []

/-- The block that fills `transformedResources` in the create and update routes. -/
def transformResources (resources : Option (List ReqResource)) : List ResourceEntry :=
  match resources with
  | none => []
  | some rs =>
    rs.foldl
      (fun acc resource =>
        acc ++ [{ name := jsOrStr resource.name "Unknown Resource"
                  type := jsOrStr resource.type "other"
                  quantity := jsOr resource.quantity 1
                  unitCost := jsOr resource.unitCost 0
                  totalCost := jsOr resource.totalCost
                    (jsOr resource.unitCost 0 * jsOr resource.quantity 1) }])
      []

/-- The paths that the create route passes to `new Estimation`; Mongoose reports
each of them as modified on the new document. -/
def constructorPaths : List String :=
  ["projectId", "userId", "projectName", "costBreakdown", "resources", "timeline",
   "contingency", "totalCost", "finalCost", "status", "duration", "teamSize",
   "riskLevel", "createdBy", "createdAt", "updatedAt"]

/-- The document that the create route hands to `new Estimation`. -/
def newEstimation (userId projectId projectName : String) (now : JsDate)
    (body : EstimationBody) : Estimation :=
  { projectId := some projectId
    userId := userId
    projectName := projectName
    costBreakdown := transformCostBreakdown body.costBreakdown
    resources := transformResources body.resources
    timeline := some (body.timeline.getD { phases := some [] })
    contingency := jsOr body.contingency 10
    totalCost := some (jsOr body.totalCost 0)
    finalCost := some (jsOr body.finalCost 0)
    status := jsOrStr body.status "draft"
    duration := jsOr body.duration 1
    teamSize := jsOr body.teamSize 1
    riskLevel := jsOrStr body.riskLevel "medium"
    createdBy := userId
    createdAt := now }

/-- The create route `router.post('/')`. The lookup or creation of the project
is done by the persistence layer: `project` is its outcome, the id of the project
or the message of the error it threw. The estimation is validated, passed through
the save hook as a new document and returned with status 201. -/
def postEstimation (userId : String) (project : Except String String) (now : JsDate)
    (body : EstimationBody) : Response Estimation :=
  match body.projectName with
  | none => .failure 400 "Project name is required"
  | some projectName =>
    if projectName = "" then .failure 400 "Project name is required"
    else
      match project with
      | .error message => .failure 400 message
      | .ok projectId =>
        let doc := newEstimation userId projectId projectName now body
        if validateEstimation doc then
          .success 201
            (preSave { isNew := true, isModified := fun path => path ∈ constructorPaths } doc)
        else .failure 400 "Estimation validation failed"

/-- The update route `router.put('/:id')`. `found` is the result of
`Estimation.findById`. The update is applied with `findByIdAndUpdate`, which
runs the validators (here on the whole updated document) and no save hook; the
updated document is returned with status 200. -/
def putEstimation (userId : String) (found : Option Estimation)
    (body : EstimationBody) : Response Estimation :=
  match found with
  | none => .failure 404 "Estimation not found"
  | some estimation =>
    if estimation.userId ≠ userId then .failure 403 "Access denied"
    else
      let updated : Estimation :=
        { estimation with
          projectName :=
            jsOrStr (body.projectData.bind (fun d => d.projectName)) estimation.projectName
          costBreakdown := transformCostBreakdown body.costBreakdown
          resources := transformResources body.resources
          timeline := match body.timeline with
            | some t => some t
            | none => estimation.timeline
          contingency := jsOr body.contingency estimation.contingency
          totalCost := match body.totalCost with
            | some v => if v = 0 then estimation.totalCost else some v
            | none => estimation.totalCost
          finalCost := match body.finalCost with
            | some v => if v = 0 then estimation.finalCost else some v
            | none => estimation.finalCost
          status := jsOrStr body.status estimation.status
          duration := jsOr body.duration estimation.duration
          teamSize := jsOr body.teamSize estimation.teamSize
          riskLevel := jsOrStr body.riskLevel estimation.riskLevel
          notes := match body.projectData.bind (fun d => d.notes) with
            | some n => if n = "" then estimation.notes else some n
            | none => estimation.notes }
      if validateEstimation updated then .success 200 updated
      else .failure 500 "Failed to update estimation"

/-! ## Dashboard statistics (`routes/dashboardRoutes.js`) -/

/-- The object `stats` built by `router.get('/stats')`. -/
structure DashboardStats where
  totalProjects : Nat
  totalEstimations : Nat
  totalValue : ℚ
  activeProjects : Nat
  completedProjects : Nat
  activeEstimations : Nat
  completedEstimations : Nat

/-- The statistics computed by `router.get('/stats')` from the projects and the
estimations of the user. -/
def getStats (projects : List Project) (estimations : List Estimation) : DashboardStats :=
  { totalProjects := projects.length
    totalEstimations := estimations.length
    totalValue := estimations.foldl (fun sum e => sum + jsOr e.finalCost 0) 0
    activeProjects :=
      (projects.filter (fun p => p.status == "planning" || p.status == "in_progress")).length
    completedProjects := (projects.filter (fun p => p.status == "completed")).length
    activeEstimations :=
      (estimations.filter (fun e => e.status == "draft" || e.status == "in_progress")).length
    completedEstimations := (estimations.filter (fun e => e.status == "completed")).length }

/-! ## Reports (`routes/reportRoutes.js`) -/

/-- An entry of `revenueBreakdown`. -/
structure RevenueEntry where
  period : String
  amount : ℚ
  projectCount : Nat

/-- An entry of `projectProfitability`. -/
structure ProfitabilityEntry where
  projectName : String
  revenue : ℚ
  cost : ℚ
  profit : ℚ
  margin : ℤ

/-- The value returned by `calculateFinancialReport`. -/
structure FinancialReport where
  revenueBreakdown : List RevenueEntry
  projectProfitability : List ProfitabilityEntry

/-- The array `months` of the overview and financial reports. -/
def reportMonths : List String := ["Jan", "Feb", "Mar", "Apr", "May", "Jun"]

/-- The function `calculateFinancialReport`: a revenue entry per listed month
(estimations whose `createdAt` has that month index) and a profitability entry
per estimation. The parameters `projects`, `startDate` and `endDate` are not
read by the source. -/
def calculateFinancialReport (_projects : List Project) (estimations : List Estimation)
    (_startDate _endDate : JsDate) : FinancialReport :=
  let revenueBreakdown : List RevenueEntry :=
    reportMonths.enum.map (fun (index, month) =>
      let monthEstimations := estimations.filter (fun e => e.createdAt.month.val == index)
      { period := month
        amount := monthEstimations.foldl (fun sum e => sum + jsOr e.finalCost 0) 0
        projectCount := monthEstimations.length })
  let projectProfitability : List ProfitabilityEntry :=
    estimations.map (fun estimation =>
      let revenue := jsOr estimation.finalCost 0
      let cost := jsOr estimation.totalCost 0
      let profit := revenue - cost
      let margin : ℚ := if revenue > 0 then (profit / revenue) * 100 else 0
      { projectName := estimation.projectName
        revenue := revenue
        cost := cost
        profit := profit
        margin := mathRound margin })
  { revenueBreakdown := revenueBreakdown, projectProfitability := projectProfitability }

/-- An entry of `projectStatus`. -/
structure StatusEntry where
  status : String
  count : Nat
  percentage : ℤ

/-- An entry of `recentProjects`. -/
structure RecentProject where
  name : String
  status : String
  budget : ℚ
  actual : ℚ
  startDate : JsDate
  endDate : JsDate

/-- The value returned by `calculateProjectsReport`. -/
structure ProjectsReport where
  projectStatus : List StatusEntry
  recentProjects : List RecentProject

/-- The body of the loop over the projects in `calculateProjectsReport`:
`projectStatus.find` selects the first entry whose label equals the status of
the project after both are lower-cased, and `count++` increments it; when no
entry matches nothing changes. -/
def countStatus (status : String) : List StatusEntry → List StatusEntry
  | [] => []
  | s :: rest =>
    if toLowerCase s.status == toLowerCase status then
      { s with count := s.count + 1 } :: rest
    else s :: countStatus status rest

/-- The function `calculateProjectsReport`. -/
def calculateProjectsReport (projects : List Project) (estimations : List Estimation) :
    ProjectsReport :=
  let projectStatus : List StatusEntry :=
    [ { status := "Completed", count := 0, percentage := 0 },
      { status := "In Progress", count := 0, percentage := 0 },
      { status := "Planning", count := 0, percentage := 0 } ]
  let projectStatus := projects.foldl (fun acc project => countStatus project.status acc)
    projectStatus
  let totalProjects : Nat := projectStatus.foldl (fun sum s => sum + s.count) 0
  let projectStatus := projectStatus.map (fun s =>
    { s with
      percentage :=
        if totalProjects > 0 then mathRound (((s.count : ℚ) / (totalProjects : ℚ)) * 100)
        else 0 })
  let recentProjects : List RecentProject :=
    (projects.drop (projects.length - 5)).map (fun project =>
      { name := project.projectName
        status := project.status
        budget := jsOr project.estimatedBudget 0
        actual := jsOr ((estimations.find? (fun e => e.projectId == some project.id)).bind
          (fun e => e.finalCost)) 0
        startDate := project.startDate
        endDate := project.endDate })
  { projectStatus := projectStatus, recentProjects := recentProjects }

/-- The data of a successful response, if any. -/
def Response.toOption {α : Type} : Response α → Option α
  | .success _ data => some data
  | .failure _ _ => none

/-! ## Overview and resources reports, report data (`routes/reportRoutes.js`) -/

/-- A TeamMember document, with the fields the reports read; `name` and `role`
are required by the schema. -/
structure TeamMember where
  id : String := ""
  name : String := ""
  role : String := "developer"

/-- An entry of `projectCostsOverTime`. -/
structure CostsOverTimeEntry where
  name : String
  costs : ℚ
  projects : Nat

/-- An entry of `resourceAllocation`. -/
structure AllocationEntry where
  name : String
  value : ℚ
  fill : String

/-- The value returned by `calculateOverviewReport`. -/
structure OverviewReport where
  totalRevenue : ℚ
  activeProjects : Nat
  teamMembers : Nat
  avgProjectValue : ℚ
  projectCostsOverTime : List CostsOverTimeEntry
  resourceAllocation : List AllocationEntry

/-- The function `calculateOverviewReport`. The parameters `startDate` and
`endDate` are not read by the source. -/
def calculateOverviewReport (projects : List Project) (estimations : List Estimation)
    (teamMembers : List TeamMember) (_startDate _endDate : JsDate) : OverviewReport :=
  let totalRevenue := estimations.foldl (fun sum e => sum + jsOr e.finalCost 0) 0
  let activeProjects :=
    (projects.filter (fun p => decide (p.status ∈ ["active", "in_progress"]))).length
  let avgProjectValue : ℚ :=
    if estimations.length > 0 then totalRevenue / (estimations.length : ℚ) else 0
  let projectCostsOverTime : List CostsOverTimeEntry :=
    reportMonths.enum.map (fun (index, month) =>
      let monthEstimations := estimations.filter (fun e => e.createdAt.month.val == index)
      { name := month
        costs := monthEstimations.foldl (fun sum e => sum + jsOr e.finalCost 0) 0
        projects := monthEstimations.length })
  let resourceAllocation : List AllocationEntry :=
    [ { name := "Development", value := 35, fill := "#3b82f6" },
      { name := "Design", value := 20, fill := "#8b5cf6" },
      { name := "Management", value := 25, fill := "#f59e0b" },
      { name := "Testing", value := 20, fill := "#10b981" } ]
  { totalRevenue := totalRevenue
    activeProjects := activeProjects
    teamMembers := teamMembers.length
    avgProjectValue := avgProjectValue
    projectCostsOverTime := projectCostsOverTime
    resourceAllocation := resourceAllocation }

/-- An entry of `teamPerformance`. -/
structure TeamPerformanceEntry where
  name : String
  projects : Nat
  hours : ℤ
  efficiency : ℤ
  role : String

/-- The value returned by `calculateResourcesReport`. -/
structure ResourcesReport where
  teamPerformance : List TeamPerformanceEntry
  resourceAllocation : List AllocationEntry

/-- The value `roleCounts[role]` after the first loop of
`calculateResourcesReport`: the number of members whose `role || 'Other'` is
`role`. -/
def roleCount (teamMembers : List TeamMember) (role : String) : Nat :=
  (teamMembers.filter (fun member => jsOrStr (some member.role) "Other" == role)).length

/-- The function `calculateResourcesReport`. The calls of `Math.random` are
answered by `random`: call number `n` (from 0) returns `random n`; the entry of
the member at position `k` makes the calls `2 * k` (hours) and `2 * k + 1`
(efficiency). The parameter `estimations` is not read by the source. -/
def calculateResourcesReport (random : Nat → ℚ) (teamMembers : List TeamMember)
    (projects : List Project) (_estimations : List Estimation) : ResourcesReport :=
  let resourceAllocation : List AllocationEntry :=
    (if roleCount teamMembers "analyst" > 0
      then [{ name := "Development", value := 35, fill := "#3b82f6" }] else [])
    ++ (if roleCount teamMembers "designer" > 0
      then [{ name := "Design", value := 20, fill := "#8b5cf6" }] else [])
    ++ (if roleCount teamMembers "manager" > 0
      then [{ name := "Management", value := 25, fill := "#f59e0b" }] else [])
    ++ [{ name := "Testing", value := 20, fill := "#10b981" }]
  let teamPerformance : List TeamPerformanceEntry :=
    teamMembers.enum.map (fun (k, member) =>
      let memberProjects :=
        (projects.filter (fun p =>
          match p.teamMembers with
          | some members => members.contains member.id
          | none => false)).length
      { name := member.name
        projects := memberProjects
        hours := ⌊random (2 * k) * 800⌋ + 200
        efficiency := ⌊random (2 * k + 1) * 20⌋ + 80
        role := member.role })
  { teamPerformance := teamPerformance, resourceAllocation := resourceAllocation }

/-- The report data returned by `calculateReportData`: one of the four report
objects. -/
inductive ReportData where
  | overview (report : OverviewReport)
  | financial (report : FinancialReport)
  | resources (report : ResourcesReport)
  | projects (report : ProjectsReport)

/-- The function `calculateReportData`: the report selected by `reportType`, the
overview report for an unknown type. `random` answers the calls of `Math.random`
made by the resources report. -/
def calculateReportData (random : Nat → ℚ) (reportType : String) (startDate endDate : JsDate)
    (projects : List Project) (estimations : List Estimation)
    (teamMembers : List TeamMember) : ReportData :=
  if reportType = "overview" then
    .overview (calculateOverviewReport projects estimations teamMembers startDate endDate)
  else if reportType = "financial" then
    .financial (calculateFinancialReport projects estimations startDate endDate)
  else if reportType = "resources" then
    .resources (calculateResourcesReport random teamMembers projects estimations)
  else if reportType = "projects" then
    .projects (calculateProjectsReport projects estimations)
  else
    .overview (calculateOverviewReport projects estimations teamMembers startDate endDate)

/-! ## Report export (`routes/reportRoutes.js`) -/

/-- A piece of a template literal: literal text or an interpolated number, whose
conversion to text is left to the renderer. An interpolated string is text. -/
inductive Piece where
  | text (s : String)
  | number (x : ℚ)

/-- A cell of the array of rows handed to the spreadsheet library: a string
(written as the template that builds it), a number, or an undefined value. -/
inductive Cell where
  | str (template : List Piece)
  | num (x : ℚ)
  | undefined

/-- The text of a worksheet cell, as a template. -/
def Cell.template : Cell → List Piece
  | .str t => t
  | .num x => [.number x]
  | .undefined => []

/-- The property `data.totalRevenue`. -/
def ReportData.totalRevenue? : ReportData → Option ℚ
  | .overview r => some r.totalRevenue
  | _ => none

/-- The property `data.activeProjects`. -/
def ReportData.activeProjects? : ReportData → Option ℚ
  | .overview r => some (r.activeProjects : ℚ)
  | _ => none

/-- The property `data.teamMembers`. -/
def ReportData.teamMembers? : ReportData → Option ℚ
  | .overview r => some (r.teamMembers : ℚ)
  | _ => none

/-- The property `data.avgProjectValue`. -/
def ReportData.avgProjectValue? : ReportData → Option ℚ
  | .overview r => some r.avgProjectValue
  | _ => none

/-- The property `data.projectCostsOverTime`. -/
def ReportData.projectCostsOverTime? : ReportData → Option (List CostsOverTimeEntry)
  | .overview r => some r.projectCostsOverTime
  | _ => none

/-- The property `data.revenueBreakdown`. -/
def ReportData.revenueBreakdown? : ReportData → Option (List RevenueEntry)
  | .financial r => some r.revenueBreakdown
  | _ => none

/-- The property `data.teamPerformance`. -/
def ReportData.teamPerformance? : ReportData → Option (List TeamPerformanceEntry)
  | .resources r => some r.teamPerformance
  | _ => none

/-- The property `data.resourceAllocation`. -/
def ReportData.resourceAllocation? : ReportData → Option (List AllocationEntry)
  | .overview r => some r.resourceAllocation
  | .resources r => some r.resourceAllocation
  | _ => none

/-- The property `data.projectStatus`. -/
def ReportData.projectStatus? : ReportData → Option (List StatusEntry)
  | .projects r => some r.projectStatus
  | _ => none

/-- The entries of `Object.entries(data)` whose value is not an object, in the
order of the properties. -/
def ReportData.scalarEntries : ReportData → List (String × ℚ)
  | .overview r =>
    [ ("totalRevenue", r.totalRevenue), ("activeProjects", (r.activeProjects : ℚ)),
      ("teamMembers", (r.teamMembers : ℚ)), ("avgProjectValue", r.avgProjectValue) ]
  | _ => []

/-- The rows of `generateCSVReport`: each line of `csvContent` as the list of its
comma-separated templates, an empty line as the empty row. `now` is the value of
`new Date().toLocaleString()`. -/
def csvRows (now reportType dateRange : String) (data : ReportData) :
    List (List (List Piece)) :=
  let heading (title : String) : List (List (List Piece)) :=
    [ [[.text title]],
      [[.text "Generated"], [.text now]],
      [[.text "Report Type"], [.text reportType]],
      [[.text "Date Range"], [.text dateRange]],
      [] ]
  if reportType = "overview" then
    heading "Overview Report"
    ++ [ [[.text "Metric"], [.text "Value"]],
         [[.text "Total Revenue"], [.text "$", .number (jsOr data.totalRevenue? 0)]],
         [[.text "Active Projects"], [.number (jsOr data.activeProjects? 0)]],
         [[.text "Team Members"], [.number (jsOr data.teamMembers? 0)]],
         [[.text "Avg Project Value"],
          [.text "$", .number (mathRound (jsOr data.avgProjectValue? 0) : ℤ)]] ]
  else if reportType = "financial" then
    heading "Financial Report"
    ++ (match data.revenueBreakdown? with
        | some revenueBreakdown =>
          [ [[.text "Revenue Breakdown"]],
            [[.text "Period"], [.text "Amount"], [.text "Project Count"]] ]
          ++ revenueBreakdown.map (fun item =>
            [ [.text item.period],
              [.text "$", .number (jsOr (some item.amount) 0)],
              [.number (jsOr (some (item.projectCount : ℚ)) 0)] ])
        | none => [])
  else if reportType = "resources" then
    heading "Resources Report"
    ++ (match data.teamPerformance? with
        | some teamPerformance =>
          [ [[.text "Team Performance"]],
            [[.text "Name"], [.text "Role"], [.text "Projects"], [.text "Hours"],
             [.text "Efficiency"]] ]
          ++ teamPerformance.map (fun member =>
            [ [.text member.name],
              [.text member.role],
              [.number (jsOr (some (member.projects : ℚ)) 0)],
              [.number (jsOr (some (member.hours : ℚ)) 0)],
              [.number (jsOr (some (member.efficiency : ℚ)) 0), .text "%"] ])
        | none => [])
  else if reportType = "projects" then
    heading "Projects Report"
    ++ (match data.projectStatus? with
        | some projectStatus =>
          [ [[.text "Project Status"]],
            [[.text "Status"], [.text "Count"], [.text "Percentage"]] ]
          ++ projectStatus.map (fun status =>
            [ [.text status.status],
              [.number (jsOr (some (status.count : ℚ)) 0)],
              [.number (jsOr (some (status.percentage : ℚ)) 0), .text "%"] ])
        | none => [])
  else []

/-- The text of a template, numbers being converted by `numStr`. -/
def renderTemplate (numStr : ℚ → String) (template : List Piece) : String :=
  String.join (template.map (fun piece =>
    match piece with
    | .text s => s
    | .number x => numStr x))

/-- The function `generateCSVReport`: the rows of `csvRows`, each joined by
commas and ended by a newline. `numStr` is the conversion of a number to text
made by a template literal. -/
def generateCSVReport (numStr : ℚ → String) (now reportType dateRange : String)
    (data : ReportData) : String :=
  String.join ((csvRows now reportType dateRange data).map (fun row =>
    ",".intercalate (row.map (renderTemplate numStr)) ++ "\n"))

/-- The array `worksheetData` built by `generateExcelReport`. -/
def excelRows (now reportType dateRange : String) (data : ReportData) : List (List Cell) :=
  let text (s : String) : Cell := .str [.text s]
  let header : List (List Cell) :=
    [ [text "Report Type", text reportType],
      [text "Date Range", text dateRange],
      [text "Generated", text now],
      [] ]
  let body : List (List Cell) :=
    if reportType = "overview" then
      [ [text "OVERVIEW REPORT"],
        [text "Metric", text "Value"],
        [text "Total Revenue", .num (jsOr data.totalRevenue? 0)],
        [text "Active Projects", .num (jsOr data.activeProjects? 0)],
        [text "Team Members", .num (jsOr data.teamMembers? 0)],
        [text "Avg Project Value", .num (jsOr data.avgProjectValue? 0)] ]
      ++ (match data.projectCostsOverTime? with
          | some projectCostsOverTime =>
            if projectCostsOverTime.length > 0 then
              [ [], [text "PROJECT COSTS OVER TIME"],
                [text "Period", text "Amount", text "Project Count"] ]
              ++ projectCostsOverTime.map (fun _item =>
                [.undefined, .num (jsOr none 0), .num (jsOr none 0)])
            else []
          | none => [])
    else if reportType = "financial" then
      [ [text "FINANCIAL REPORT"],
        [text "Metric", text "Value"],
        [text "Total Revenue", .num (jsOr data.totalRevenue? 0)],
        [text "Total Costs", .num (jsOr none 0)],
        [text "Net Profit", .num (jsOr none 0)],
        [text "Profit Margin", .str [.number (jsOr none 0), .text "%"]] ]
      ++ (match data.revenueBreakdown? with
          | some revenueBreakdown =>
            if revenueBreakdown.length > 0 then
              [ [], [text "REVENUE BREAKDOWN"],
                [text "Period", text "Amount", text "Project Count"] ]
              ++ revenueBreakdown.map (fun item =>
                [ text item.period,
                  .num (jsOr (some item.amount) 0),
                  .num (jsOr (some (item.projectCount : ℚ)) 0) ])
            else []
          | none => [])
    else if reportType = "resources" then
      [ [text "RESOURCES REPORT"],
        [text "Team Performance"],
        [text "Name", text "Role", text "Projects", text "Hours", text "Efficiency"] ]
      ++ (match data.teamPerformance? with
          | some teamPerformance =>
            if teamPerformance.length > 0 then
              teamPerformance.map (fun member =>
                [ text (jsOrStr (some member.name) ""),
                  text (jsOrStr (some member.role) ""),
                  .num (jsOr (some (member.projects : ℚ)) 0),
                  .num (jsOr (some (member.hours : ℚ)) 0),
                  .str [.number (jsOr (some (member.efficiency : ℚ)) 0), .text "%"] ])
            else []
          | none => [])
    else if reportType = "projects" then
      [ [text "PROJECTS REPORT"],
        [text "Project Status"],
        [text "Status", text "Count", text "Percentage"] ]
      ++ (match data.projectStatus? with
          | some projectStatus =>
            if projectStatus.length > 0 then
              projectStatus.map (fun status =>
                [ text (jsOrStr (some status.status) ""),
                  .num (jsOr (some (status.count : ℚ)) 0),
                  .str [.number (jsOr (some (status.percentage : ℚ)) 0), .text "%"] ])
            else []
          | none => [])
    else
      [ [text "Report Data"], [text "Key", text "Value"] ]
      ++ data.scalarEntries.map (fun (key, value) => [text key, .num value])
  header ++ body

/-- What a renderer returns: text, or a binary buffer. -/
inductive ReportContent where
  | text (s : String)
  | buffer (bytes : List UInt8)

/-- The spreadsheet library as the renderer uses it: the calls `aoa_to_sheet`,
`book_new`, `book_append_sheet` and `write` on the rows, which return the bytes
of the workbook or throw. -/
abbrev XlsxWriter := List (List Cell) → Except String (List UInt8)

/-- The function `generateExcelReport`. `xlsx` is the module variable `XLSX`,
absent when the library failed to load. When the library is absent or throws,
the CSV text is returned. -/
def generateExcelReport (xlsx : Option XlsxWriter) (numStr : ℚ → String)
    (now reportType dateRange : String) (data : ReportData) : ReportContent :=
  match xlsx with
  | none => .text (generateCSVReport numStr now reportType dateRange data)
  | some write =>
    match write (excelRows now reportType dateRange data) with
    | .ok excelBuffer => .buffer excelBuffer
    | .error _ => .text (generateCSVReport numStr now reportType dateRange data)

/-- The surroundings of the export route: the clock (`now` for
`toLocaleString()`, `today` for the date put in file names), the conversion of
numbers to text, the spreadsheet library, and the text and PDF renderers, whose
results are taken as given (the PDF renderer may throw or return nothing). -/
structure ExportEnv where
  now : String
  today : String
  numStr : ℚ → String
  xlsx : Option XlsxWriter
  textReport : String → String → ReportData → String
  pdfReport : String → String → ReportData → Except String (Option (List UInt8))

/-- The response of the export route: the report data as JSON, a file with its
content type, file name and body, or a failure. -/
inductive ExportResponse where
  | json (data : ReportData)
  | file (contentType : String) (fileName : String) (body : ReportContent)
  | failure (status : Nat) (error : String)

/-- The call `Buffer.isBuffer(c) ? c : Buffer.from(c)`: a buffer is kept, text
becomes its UTF-8 bytes. -/
def toBuffer : ReportContent → List UInt8
  | .buffer bytes => bytes
  | .text s => s.toUTF8.toList

/-- The route `router.post('/data')` from the computed report data on: the JSON
answer for the format txt without `exportOnly`, otherwise the rendering in the
requested format with its content type and file name. An exception in a
renderer, outside the spreadsheet fallback, gives status 500. -/
def exportReport (env : ExportEnv) (format : Option String) (exportOnly : Bool)
    (reportType dateRange : String) (reportData : ReportData) : ExportResponse :=
  let format := format.getD "txt"
  if format = "txt" && !exportOnly then .json reportData
  else
    let base := "report-" ++ reportType ++ "-" ++ env.today
    if format = "csv" then
      .file "text/csv" (base ++ ".csv")
        (.text (generateCSVReport env.numStr env.now reportType dateRange reportData))
    else if format = "excel" then
      .file "application/vnd.openxmlformats-officedocument.spreadsheetml.sheet"
        (base ++ ".xlsx")
        (.buffer (toBuffer
          (generateExcelReport env.xlsx env.numStr env.now reportType dateRange reportData)))
    else if format = "pdf" then
      match env.pdfReport reportType dateRange reportData with
      | .error _ => .failure 500 "Failed to generate report data"
      | .ok none => .failure 500 "Failed to generate PDF content"
      | .ok (some bytes) => .file "application/pdf" (base ++ ".pdf") (.buffer bytes)
    else
      .file "text/plain" (base ++ ".txt") (.text (env.textReport reportType dateRange reportData))

/-! ## Editing and loading line items (`CostBreakdown.jsx`, `CostEstimation.jsx`) -/

/-- An edit `[field]: value` passed to `updateItem`: one of the fields of a line
item with its new value, or a field outside the model. -/
inductive ItemEdit where
  | name (value : Option String)
  | hours (value : Option ℚ)
  | rate (value : Option ℚ)
  | quantity (value : Option ℚ)
  | unitCost (value : Option ℚ)
  | months (value : Option ℚ)
  | monthlyCost (value : Option ℚ)
  | total (value : Option ℚ)
  | other

/-- The object `{ ...item, [field]: value }`. -/
def applyEdit (item : LineItem) : ItemEdit → LineItem
  | .name value => { item with name := value }
  | .hours value => { item with hours := value }
  | .rate value => { item with rate := value }
  | .quantity value => { item with quantity := value }
  | .unitCost value => { item with unitCost := value }
  | .months value => { item with months := value }
  | .monthlyCost value => { item with monthlyCost := value }
  | .total value => { item with total := value }
  | .other => item

/-- The item returned by `updateItem` for the item that is edited: the edit is
applied, then the total is recomputed by the first branch whose field is defined
on the item before the edit. -/
def updatedItem (item : LineItem) (edit : ItemEdit) : LineItem :=
  let updatedItem := applyEdit item edit
  if item.hours.isSome then
    { updatedItem with total := some (jsOr updatedItem.hours 0 * jsOr updatedItem.rate 0) }
  else if item.quantity.isSome then
    { updatedItem with total := some (jsOr updatedItem.quantity 0 * jsOr updatedItem.unitCost 0) }
  else if item.months.isSome then
    { updatedItem with total := some (jsOr updatedItem.months 0 * jsOr updatedItem.monthlyCost 0) }
  else updatedItem

/-- The function `updateItem` of `CostBreakdown.jsx`, as the new value of the
cost breakdown: in the categories whose id is `categoryId`, the items whose id is
`itemId` are edited. -/
def updateItem (costBreakdown : List Category) (categoryId itemId : Option Nat)
    (edit : ItemEdit) : List Category :=
  costBreakdown.map (fun cat =>
    if cat.id = categoryId then
      { cat with
        items := cat.items.map (fun item =>
          if item.id = itemId then updatedItem item edit else item) }
    else cat)

/-- The names that a plain object inherits from `Object.prototype`. -/
def objectPrototypeKeys : List String :=
  ["constructor", "__proto__", "hasOwnProperty", "isPrototypeOf", "propertyIsEnumerable",
   "toLocaleString", "toString", "valueOf", "__defineGetter__", "__defineSetter__",
   "__lookupGetter__", "__lookupSetter__"]

/-- The line item that `loadEstimation` pushes for a stored cost entry. The
stored entry has none of the six quantity-like and rate-like fields, so each of
them is `undefined || 0`. -/
def loadedItem (item : CostEntry) : LineItem :=
  { name := some (jsOrStr item.description item.category)
    hours := some (jsOr none 0)
    rate := some (jsOr none 0)
    total := some (jsOr item.estimatedCost 0)
    quantity := some (jsOr none 0)
    unitCost := some (jsOr none 0)
    months := some (jsOr none 0)
    monthlyCost := some (jsOr none 0) }

/-- The loop of `loadEstimation` over the stored cost entries: `groups` is the
object `groupedByCategory` as the list of its own properties in insertion order.
A category whose name is inherited from `Object.prototype` finds a value without
`items` and the loop throws. -/
def groupByCategory : List CostEntry → List (String × Category) →
    Except String (List (String × Category))
  | [], groups => .ok groups
  | item :: rest, groups =>
    if item.category ∈ objectPrototypeKeys then
      .error "TypeError: Cannot read properties of undefined"
    else
      let groups :=
        if groups.any (fun g => g.1 == item.category) then groups
        else
          groups ++ [(item.category,
            { id := some (groups.length + 1), category := some item.category, items := [] })]
      let groups := groups.map (fun g =>
        if g.1 == item.category then
          (g.1, { g.2 with items := g.2.items ++ [loadedItem item] })
        else g)
      groupByCategory rest groups

/-- The number written by a string of decimal digits. -/
def decimalValue (key : String) : Nat :=
  key.data.foldl (fun n c => 10 * n + (c.toNat - 48)) 0

/-- Whether a property name is an array index: the canonical decimal text (digits
only, no leading zero) of a number below 2^32 - 1. -/
def isArrayIndex (key : String) : Bool :=
  key.data.all Char.isDigit
    && !key.data.isEmpty
    && (key.data == ['0'] || key.data.head? != some '0')
    && decide (decimalValue key < 4294967295)

/-- The call `Object.values(groupedByCategory)`: the values of the array-index
keys in ascending numeric order, then those of the other keys in insertion
order. -/
def objectValues (groups : List (String × Category)) : List Category :=
  (((groups.filter (fun g => isArrayIndex g.1)).insertionSort
      (fun a b => decimalValue a.1 ≤ decimalValue b.1))
    ++ groups.filter (fun g => !isArrayIndex g.1)).map (fun g => g.2)

/-- The cost breakdown that `loadEstimation` hands to the editor for the stored
cost entries of an estimation (absent entries give the empty breakdown); an
exception leaves the editor without the estimation. -/
def loadCostBreakdown (costBreakdown : Option (List CostEntry)) :
    Except String (List Category) :=
  match costBreakdown with
  | none => .ok []
  | some entries =>
    match groupByCategory entries [] with
    | .ok groups => .ok (objectValues groups)
    | .error message => .error message

/-! ## Critical path (`TimelineEstimation.jsx`) -/

/-- The loop of `calculateCriticalPath`: while there is a current phase, its name
is pushed and the first phase whose dependencies include that name becomes the
current phase. `fuel` bounds the number of iterations; the result is `none` when
the loop is still running after `fuel` iterations. -/
def criticalPathLoop : Nat → List Phase → Option Phase → List String → Option (List String)
  | _, _, none, path => some path
  | 0, _, some _, _ => none
  | fuel + 1, phases, some currentPhase, path =>
    criticalPathLoop fuel phases
      (phases.find? (fun phase => phase.dependencies.contains currentPhase.name))
      (path ++ [currentPhase.name])

/-- The function `calculateCriticalPath` on the phases of the timeline: the loop
starts at the first phase without dependencies and the path it builds becomes
the state `criticalPath`. -/
def calculateCriticalPath (fuel : Nat) (phases : List Phase) : Option (List String) :=
  criticalPathLoop fuel phases (phases.find? (fun phase => phase.dependencies.length == 0)) []

/-- The total shown under the critical path: for each name of the path the
duration of the first phase of that name, 0 when there is none. -/
def criticalPathDuration (phases : List Phase) (criticalPath : List String) : ℚ :=
  criticalPath.foldl
    (fun sum phaseName =>
      sum + jsOr ((phases.find? (fun p => p.name == phaseName)).map (fun p => p.duration)) 0)
    0

/-! ## Deleting a category (`CostBreakdown.jsx`) -/

/-- The state of the cost breakdown editor that `deleteCategory` reads and sets:
the breakdown and the id of the active category (`none` is `null`). -/
structure EditorState where
  costBreakdown : List Category
  activeCategory : Option (Option Nat)

/-- The function `deleteCategory`: when the breakdown holds more than one
category, the categories whose id is `categoryId` are filtered out, and when the
active category is `categoryId` the active category is set to the id of the first
category of the breakdown as it was before the deletion. -/
def deleteCategory (state : EditorState) (categoryId : Option Nat) : EditorState :=
  if state.costBreakdown.length > 1 then
    { costBreakdown := state.costBreakdown.filter (fun cat => cat.id != categoryId)
      activeCategory :=
        if state.activeCategory = some categoryId then
          state.costBreakdown.head?.map (fun cat => cat.id)
        else state.activeCategory }
  else state

/-- The value `activeCategoryData`: the first category whose id is the active
category, nothing when the active category is null, undefined or 0. -/
def activeCategoryData (state : EditorState) : Option Category :=
  match state.activeCategory with
  | some (some id) =>
    if id = 0 then none else state.costBreakdown.find? (fun cat => cat.id == some id)
  | _ => none

/-! ## The estimation routes on the stored collections -/

/-- The stored projects and estimations. -/
structure Db where
  projects : List Project
  estimations : List Estimation

/-- The call `Estimation.findById(id)`. -/
def findById (db : Db) (id : String) : Option Estimation :=
  db.estimations.find? (fun e => e.id == id)

/-- The `post('save')` hook of the Estimation schema: the `estimations` counter of
the project of the saved document is incremented by 1. -/
def postSave (doc : Estimation) (projects : List Project) : List Project :=
  projects.map (fun p =>
    if some p.id == doc.projectId then { p with estimations := p.estimations + 1 } else p)

/-- The `post('deleteOne')` document hook of the Estimation schema: the
`estimations` counter of the project of the deleted document is decremented by
1. It runs for `doc.deleteOne()`; no route calls it. -/
def postDeleteOne (doc : Estimation) (projects : List Project) : List Project :=
  projects.map (fun p =>
    if some p.id == doc.projectId then { p with estimations := p.estimations - 1 } else p)

/-- The route `router.put('/:id')` on the stored collections: on success the
stored estimation of that id is replaced by the updated one. -/
def putEstimationRoute (db : Db) (userId id : String) (body : EstimationBody) :
    Response Estimation × Db :=
  match putEstimation userId (findById db id) body with
  | .success status updated =>
    (.success status updated,
      { db with estimations := db.estimations.map (fun e => if e.id == id then updated else e) })
  | .failure status error => (.failure status error, db)

/-- The route `router.delete('/:id')` on the stored collections: the owner's
estimation is removed with `findByIdAndDelete`, which runs no document hook. -/
def deleteEstimationRoute (db : Db) (userId id : String) : Response String × Db :=
  match findById db id with
  | none => (.failure 404 "Estimation not found", db)
  | some estimation =>
    if estimation.userId ≠ userId then (.failure 403 "Access denied", db)
    else
      (.success 200 "Estimation deleted successfully",
        { db with estimations := db.estimations.filter (fun e => e.id != id) })

/-- The route `router.post('/')` on the stored collections. `resolved` is the
outcome of the lookup or creation of the project: its id and the projects as
they are stored after that step, or the error thrown. `newId` is the id given
to the new estimation. On success the estimation is stored and the
`post('save')` hook runs. -/
def postEstimationRoute (db : Db) (userId : String)
    (resolved : Except String (String × List Project)) (newId : String) (now : JsDate)
    (body : EstimationBody) : Response Estimation × Db :=
  if jsOrStr body.projectName "" = "" then (.failure 400 "Project name is required", db)
  else
    match resolved with
    | .error message => (.failure 400 message, db)
    | .ok (projectId, projects) =>
      match postEstimation userId (.ok projectId) now body with
      | .success status saved =>
        let saved := { saved with id := newId }
        (.success status saved,
          { projects := postSave saved projects, estimations := db.estimations ++ [saved] })
      | .failure status error => (.failure status error, { db with projects := projects })

/-! ## Double-precision arithmetic

The definitions above add, multiply and divide exactly. The numbers of the
program are IEEE 754 doubles: the result of every `+`, `-`, `*` and `/` is
rounded to the nearest double, a tie going to the double whose last bit is 0.
This section models that rounding on the rationals and gives, with the
arithmetic of the machine, the functions whose results depend on it. Results
beyond the largest finite double, which the machine turns into an infinity,
are not modelled; the statements about these functions bound their inputs. -/

/-- The integer nearest to `x`, a tie going to the even integer. -/
def roundHalfEven (x : ℚ) : ℤ :=
  if x - ⌊x⌋ < 1 / 2 then ⌊x⌋
  else if 1 / 2 < x - ⌊x⌋ then ⌊x⌋ + 1
  else if ⌊x⌋ % 2 = 0 then ⌊x⌋
  else ⌊x⌋ + 1

/-- The exponent of the spacing of the doubles around `x`: 52 below the binary
exponent of `x`, which is at least -1022 (the exponent of the subnormal range). -/
def ulpExponent (x : ℚ) : ℤ := max (Int.log 2 |x|) (-1022) - 52

/-- The double nearest to `x`: `x` rounded to a multiple of the spacing around
it, a tie going to the even multiple. -/
def toDouble (x : ℚ) : ℚ :=
  (roundHalfEven (x / 2 ^ ulpExponent x) : ℚ) * 2 ^ ulpExponent x

/-- The operator `+` on doubles. -/
def fadd (a b : ℚ) : ℚ := toDouble (a + b)

/-- The operator `-` on doubles. -/
def fsub (a b : ℚ) : ℚ := toDouble (a - b)

/-- The operator `*` on doubles. -/
def fmul (a b : ℚ) : ℚ := toDouble (a * b)

/-- The operator `/` on doubles, for a divisor other than 0. -/
def fdiv (a b : ℚ) : ℚ := toDouble (a / b)

/-- The function `getCategoryTotal` of `CostBreakdown.jsx` with the additions of
the machine: `category.items.reduce((sum, item) => sum + (item.total || 0), 0)`. -/
def getCategoryTotalDouble (category : Category) : ℚ :=
  category.items.foldl (fun sum item => fadd sum (jsOr item.total 0)) 0

/-- The function `calculateTotals` of `CostEstimation.jsx` with the arithmetic
of the machine: the two nested loops add `item.total || 0` to `total` in the
order of the items, then `(total * contingency) / 100` and the final cost are
computed. -/
def calculateTotalsDouble (costBreakdown : List Category) (contingency : ℚ) : Totals :=
  let total := costBreakdown.foldl
    (fun total category =>
      category.items.foldl (fun total item => fadd total (jsOr item.total 0)) total) 0
  let contingencyAmount := fdiv (fmul total contingency) 100
  let final := fadd total contingencyAmount
  { totalCost := total, contingencyAmount := contingencyAmount, finalCost := final }

/-- The `pre('save')` hook of the Estimation schema with the arithmetic of the
machine: `subtotal * (this.contingency / 100)` is a division followed by a
multiplication, and the progress is `Math.round((completed / total) * 100)`. -/
def preSaveDouble (ctx : SaveContext) (this : Estimation) : Estimation :=
  let this1 : Estimation :=
    if ctx.isModified "costBreakdown" || ctx.isModified "contingency" then
      let subtotal := this.costBreakdown.foldl
        (fun sum item => fadd sum (jsOr item.estimatedCost 0)) 0
      let contingencyAmount := fmul subtotal (fdiv this.contingency 100)
      { this with totalCost := some subtotal, finalCost := some (fadd subtotal contingencyAmount) }
    else this
  if ctx.isModified "timeline" || ctx.isNew then
    let phases : List Phase := timelinePhases this1
    if phases.length > 0 then
      let completedPhases := (phases.filter (fun phase => phase.status == "completed")).length
      let totalPhases := phases.length
      { this1 with
        progress := (mathRound (fmul (fdiv (completedPhases : ℚ) (totalPhases : ℚ)) 100) : ℤ) }
    else
      { this1 with progress := 0 }
  else this1

/-- The function `calculateFinancialReport` with the arithmetic of the machine:
the monthly amounts are added in the order of the estimations, the profit is a
subtraction and the margin is `Math.round((profit / revenue) * 100)` for a
positive revenue. -/
def calculateFinancialReportDouble (_projects : List Project) (estimations : List Estimation)
    (_startDate _endDate : JsDate) : FinancialReport :=
  let revenueBreakdown : List RevenueEntry :=
    reportMonths.enum.map (fun (index, month) =>
      let monthEstimations := estimations.filter (fun e => e.createdAt.month.val == index)
      { period := month
        amount := monthEstimations.foldl (fun sum e => fadd sum (jsOr e.finalCost 0)) 0
        projectCount := monthEstimations.length })
  let projectProfitability : List ProfitabilityEntry :=
    estimations.map (fun estimation =>
      let revenue := jsOr estimation.finalCost 0
      let cost := jsOr estimation.totalCost 0
      let profit := fsub revenue cost
      let margin : ℚ := if revenue > 0 then fmul (fdiv profit revenue) 100 else 0
      { projectName := estimation.projectName
        revenue := revenue
        cost := cost
        profit := profit
        margin := mathRound margin })
  { revenueBreakdown := revenueBreakdown, projectProfitability := projectProfitability }

/-- The function `calculateProjectsReport` with the arithmetic of the machine:
the percentage of an entry is `Math.round((s.count / totalProjects) * 100)`.
`projectIdText` gives the text `e.projectId?.toString()` of an estimation: its
project id when the field holds an id, the printed document when the field has
been populated (as the report route does), nothing when the field is null. -/
def calculateProjectsReportDouble (projectIdText : Estimation → Option String)
    (projects : List Project) (estimations : List Estimation) : ProjectsReport :=
  let projectStatus : List StatusEntry :=
    [ { status := "Completed", count := 0, percentage := 0 },
      { status := "In Progress", count := 0, percentage := 0 },
      { status := "Planning", count := 0, percentage := 0 } ]
  let projectStatus := projects.foldl (fun acc project => countStatus project.status acc)
    projectStatus
  let totalProjects : Nat := projectStatus.foldl (fun sum s => sum + s.count) 0
  let projectStatus := projectStatus.map (fun s =>
    { s with
      percentage :=
        if totalProjects > 0 then
          mathRound (fmul (fdiv (s.count : ℚ) (totalProjects : ℚ)) 100)
        else 0 })
  let recentProjects : List RecentProject :=
    (projects.drop (projects.length - 5)).map (fun project =>
      { name := project.projectName
        status := project.status
        budget := jsOr project.estimatedBudget 0
        actual := jsOr ((estimations.find? (fun e => projectIdText e == some project.id)).bind
          (fun e => e.finalCost)) 0
        startDate := project.startDate
        endDate := project.endDate })
  { projectStatus := projectStatus, recentProjects := recentProjects }

/-! ## Items that the editor can hold (`CostBreakdown.jsx`) -/

/-- The item that `addItem` creates; `now` is the value of `Date.now()`. -/
def newItem (now : Nat) : LineItem :=
  { id := some now, name := some "New Item", quantity := some 1, unitCost := some 0,
    total := some 0 }

/-- The function `addItem` of `CostBreakdown.jsx`, as the new value of the cost
breakdown: the new item is appended to the categories whose id is `categoryId`. -/
def addItem (costBreakdown : List Category) (categoryId : Option Nat) (now : Nat) :
    List Category :=
  costBreakdown.map (fun cat =>
    if cat.id = categoryId then { cat with items := cat.items ++ [newItem now] } else cat)

/-- The edits that the inputs of the editor make on an item: the name input sends
a text; the inputs of hours and rate exist when `item.hours` is defined, those of
quantity and unit cost when `item.quantity` is defined, those of months and
monthly cost when `item.months` is defined, and each sends the number
`parseFloat(e.target.value) || 0`. -/
def inputEdit (item : LineItem) : ItemEdit → Bool
  | .name (some _) => true
  | .hours (some _) => item.hours.isSome
  | .rate (some _) => item.hours.isSome
  | .quantity (some _) => item.quantity.isSome
  | .unitCost (some _) => item.quantity.isSome
  | .months (some _) => item.months.isSome
  | .monthlyCost (some _) => item.months.isSome
  | _ => false

/-- The items that the editor can hold: the items created by `addItem`, the items
that `loadEstimation` builds from stored entries, and the items that `updateItem`
returns for an edit made by an input on such an item. -/
inductive EditorItem : LineItem → Prop
  | added (now : Nat) : EditorItem (newItem now)
  | loaded (entry : CostEntry) : EditorItem (loadedItem entry)
  | edited (item : LineItem) (edit : ItemEdit) :
      EditorItem item → inputEdit item edit = true → EditorItem (updatedItem item edit)

/-! ## The estimation routes from the request on -/

/-- The value of `s.length`: the number of UTF-16 code units of the text. -/
def utf16Length (s : String) : Nat :=
  (s.data.map (fun c => if c.val.toNat < 65536 then 1 else 2)).sum

/-- The test that Mongoose makes before `Estimation.findById(id)` queries the
collection: the text of the id is cast to an ObjectId, which succeeds for 24
hexadecimal digits and fails for a text whose length is neither 12 nor 24. The
outcome for the other texts depends on the version of the driver and is the
parameter `castsOther`. -/
def castsToObjectId (castsOther : String → Bool) (id : String) : Bool :=
  if utf16Length id = 24
      && id.data.all (fun c => c.isDigit || ('a' ≤ c && c ≤ 'f') || ('A' ≤ c && c ≤ 'F')) then
    true
  else if utf16Length id = 12 || utf16Length id = 24 then castsOther id
  else false

/-- The route `router.get('/:id')` from the request on. When the id cannot be
cast, `findById` throws and the handler of the exception answers 500. The
estimation found has its user populated: `userExists` tells whether the user
document of an id is stored; when it is not, `estimation.userId` is null and
reading `estimation.userId._id` throws. -/
def getEstimationRequest (castsOther userExists : String → Bool) (db : Db)
    (userId id : String) : Response Estimation × Db :=
  if castsToObjectId castsOther id then
    match findById db id with
    | none => (.failure 404 "Estimation not found", db)
    | some estimation =>
      if userExists estimation.userId then
        if estimation.userId ≠ userId then (.failure 403 "Access denied", db)
        else (.success 200 estimation, db)
      else (.failure 500 "Failed to fetch estimation", db)
  else (.failure 500 "Failed to fetch estimation", db)

/-- The route `router.put('/:id')` from the request on: when the id cannot be
cast, `findById` throws and the handler of the exception answers 500. -/
def putEstimationRequest (castsOther : String → Bool) (db : Db) (userId id : String)
    (body : EstimationBody) : Response Estimation × Db :=
  if castsToObjectId castsOther id then putEstimationRoute db userId id body
  else (.failure 500 "Failed to update estimation", db)

/-- The route `router.delete('/:id')` from the request on: when the id cannot be
cast, `findById` throws and the handler of the exception answers 500. -/
def deleteEstimationRequest (castsOther : String → Bool) (db : Db) (userId id : String) :
    Response String × Db :=
  if castsToObjectId castsOther id then deleteEstimationRoute db userId id
  else (.failure 500 "Failed to delete estimation", db)

/-- The create route `router.post('/')` with the save hook computing in double
precision: the document is validated, then passed through the save hook as a new
document and returned with status 201; a validation error is answered by the
handler of the exception with status 400. -/
def postEstimationDouble (userId : String) (project : Except String String) (now : JsDate)
    (body : EstimationBody) : Response Estimation :=
  match body.projectName with
  | none => .failure 400 "Project name is required"
  | some projectName =>
    if projectName = "" then .failure 400 "Project name is required"
    else
      match project with
      | .error message => .failure 400 message
      | .ok projectId =>
        let doc := newEstimation userId projectId projectName now body
        if validateEstimation doc then
          .success 201
            (preSaveDouble { isNew := true, isModified := fun path => path ∈ constructorPaths }
              doc)
        else .failure 400 "Estimation validation failed"

/-! ## Concrete inputs used by the scenarios -/

/-- The breakdown of scenario A: one category holding one labor item of 10 hours
at rate 50 with total 500. -/
def scenarioA : List Category :=
  [{ items := [{ hours := some 10, rate := some 50, total := some 500 }] }]

/-- The save context of a document built by the create route: it is new and the
paths passed to its constructor are modified. -/
def newDocContext : SaveContext :=
  { isNew := true, isModified := fun path => path ∈ constructorPaths }

/-- The save context of a stored document that is saved again with no change. -/
def unchangedDocContext : SaveContext :=
  { isNew := false, isModified := fun _ => false }

/-- A stored form of scenario A: one cost entry of 500 with contingency 10. -/
def storedScenarioA : Estimation :=
  { projectName := "Site"
    costBreakdown := [{ category := "Labor", estimatedCost := some 500 }]
    contingency := 10 }

/-- The phases of scenario B: completed, planned, completed. -/
def scenarioB : List Phase :=
  [{ name := "Design", status := "completed" },
   { name := "Build", status := "planned" },
   { name := "Test", status := "completed" }]

/-- An estimation whose timeline holds the phases of scenario B. -/
def estimationScenarioB : Estimation :=
  { projectName := "Site", timeline := some { phases := some scenarioB } }

/-- An estimation with a single completed phase and a stored progress of 50. -/
def completedPhaseEstimation : Estimation :=
  { projectName := "Site"
    timeline := some { phases := some [{ name := "Design", status := "completed" }] }
    progress := 50 }

/-- A date used where the routes read the clock. -/
def sampleDate : JsDate := { year := 2024, month := 2, day := 14 }

/-- A create request as the editor sends it for one labor item of total 500 and
a contingency of 0 percent: the editor has computed total 500 and final 500. -/
def createBodyZeroContingency : EstimationBody :=
  { projectName := some "Site"
    costBreakdown := some
      [{ category := some "Labor"
         items := some
           [{ name := some "Dev", hours := some 10, rate := some 50, total := some 500 }] }]
    contingency := some 0
    totalCost := some 500
    finalCost := some 500 }

/-- A stored estimation of user u1: one cost entry of 500, contingency 10, total
500 and final cost 550. -/
def storedEstimation : Estimation :=
  { id := "e1"
    projectId := some "p1"
    userId := "u1"
    projectName := "Site"
    costBreakdown := [{ category := "Labor", estimatedCost := some 500,
                        description := some "Dev" }]
    contingency := 10
    totalCost := some 500
    finalCost := some 550
    createdBy := "u1" }

/-- An update request as the editor sends it after the only item was deleted:
the category is empty and the editor has computed total 0 and final 0. -/
def updateBodyItemsRemoved : EstimationBody :=
  { projectName := some "Site"
    costBreakdown := some [{ category := some "Labor", items := some [] }]
    contingency := some 10
    totalCost := some 0
    finalCost := some 0 }

/-- An update request whose item total is 800 while the totals it carries are 1
and 2. -/
def updateBodyForeignTotals : EstimationBody :=
  { projectName := some "Site"
    costBreakdown := some
      [{ category := some "Labor", items := some [{ name := some "Dev", total := some 800 }] }]
    contingency := some 10
    totalCost := some 1
    finalCost := some 2 }

/-- The estimation of scenario D: final cost 1000 and total cost 800. -/
def scenarioD : Estimation :=
  { projectName := "Site", totalCost := some 800, finalCost := some 1000 }

/-- A single project whose status is in_progress. -/
def oneProjectInProgress : List Project :=
  [{ id := "p1", projectName := "Site", status := "in_progress" }]

/-- Two projects: one completed and one on hold. -/
def completedAndOnHold : List Project :=
  [{ id := "p1", projectName := "Site", status := "completed" },
   { id := "p2", projectName := "Depot", status := "on_hold" }]

/-- A single project whose status is on_hold. -/
def oneProjectOnHold : List Project :=
  [{ id := "p1", projectName := "Depot", status := "on_hold" }]

/-- Three completed projects, two in planning and one on hold. -/
def sixProjects : List Project :=
  [{ id := "p1", projectName := "A", status := "completed" },
   { id := "p2", projectName := "B", status := "completed" },
   { id := "p3", projectName := "C", status := "completed" },
   { id := "p4", projectName := "D", status := "planning" },
   { id := "p5", projectName := "E", status := "planning" },
   { id := "p6", projectName := "F", status := "on_hold" }]

/-- An estimation created in July 2024 with final cost 100. -/
def julyEstimation : Estimation :=
  { projectName := "Site", totalCost := some 100, finalCost := some 100
    createdAt := { year := 2024, month := 6, day := 1 } }

/-- Two estimations created in March, of 2023 and of 2024, with final costs 100
and 200. -/
def marchEstimations : List Estimation :=
  [{ projectName := "Site", totalCost := some 100, finalCost := some 100
     createdAt := { year := 2023, month := 2, day := 10 } },
   { projectName := "Depot", totalCost := some 200, finalCost := some 200
     createdAt := { year := 2024, month := 2, day := 20 } }]

/-- A source of random numbers that always answers 0. -/
def randomZero : Nat → ℚ := fun _ => 0

/-- A source of random numbers that always answers one half. -/
def randomHalf : Nat → ℚ := fun _ => 1 / 2

/-- A team of one developer. -/
def oneTeamMember : List TeamMember :=
  [{ id := "t1", name := "Ada", role := "developer" }]

/-- An export environment whose spreadsheet library throws on every call; numbers
are rendered by their integer part. -/
def failingXlsxEnv : ExportEnv :=
  { now := "1/2/2024, 10:00:00 AM"
    today := "2024-01-02"
    numStr := fun x => toString x.floor
    xlsx := some (fun _ => .error "write failed")
    textReport := fun _ _ _ => ""
    pdfReport := fun _ _ _ => .ok none }

/-- The projects report of the six sample projects, as report data. -/
def sampleProjectsData : ReportData :=
  .projects (calculateProjectsReport sixProjects [])

/-- The overview report of empty collections, as report data. -/
def emptyOverviewData : ReportData :=
  .overview (calculateOverviewReport [] [] [] sampleDate sampleDate)

/-- A line item as the editor holds it after a stored entry of 500 was loaded and
its unit cost was set to 5: all six fields are defined. -/
def loadedItemWithUnitCost : LineItem :=
  { name := some "Dev", hours := some 0, rate := some 0, quantity := some 0,
    unitCost := some 5, months := some 0, monthlyCost := some 0, total := some 0 }

/-- A labor item of 10 hours at rate 50. -/
def laborItem : LineItem :=
  { id := some 1, name := some "Dev", hours := some 10, rate := some 50, total := some 500 }

/-- The cost breakdown that the editor holds after loading the stored estimation:
one category with one item whose six fields are 0 and whose total is 500. -/
def loadedStoredCategories : List Category :=
  [{ id := some 1
     category := some "Labor"
     items :=
       [{ name := some "Dev", hours := some 0, rate := some 0, quantity := some 0,
          unitCost := some 0, months := some 0, monthlyCost := some 0, total := some 500 }] }]

/-- The phases of scenario B with the status of the planned phase replaced by a
string outside the enumeration. -/
def scenarioBUnknownStatus : List Phase :=
  [{ name := "Design", status := "completed" },
   { name := "Build", status := "on ice" },
   { name := "Test", status := "completed" }]

/-- The project p1 of user u1 with an `estimations` counter of 0. -/
def sampleProject : Project :=
  { id := "p1", userId := "u1", projectName := "Site", status := "planning", estimations := 0 }

/-- Stored collections holding the project p1 and the estimation e1 of user u1. -/
def sampleDb : Db :=
  { projects := [sampleProject], estimations := [storedEstimation] }

/-- Stored collections holding the project p1 and no estimation. -/
def emptyDb : Db :=
  { projects := [sampleProject], estimations := [] }

/-- A create request for the project Site with one item of total 500 and a
contingency of 10 percent. -/
def createBodySite : EstimationBody :=
  { projectName := some "Site"
    costBreakdown := some
      [{ category := some "Labor"
         items := some
           [{ name := some "Dev", hours := some 10, rate := some 50, total := some 500 }] }]
    contingency := some 10
    totalCost := some 500
    finalCost := some 550 }

/-- Three phases: A of 1 week without dependencies, B of 1 week and C of 10
weeks, both depending on A. -/
def forkPhases : List Phase :=
  [{ name := "A", duration := 1, dependencies := [] },
   { name := "B", duration := 1, dependencies := ["A"] },
   { name := "C", duration := 10, dependencies := ["A"] }]

/-- Two phases with the default name, the second depending on the first. -/
def twoNewPhases : List Phase :=
  [{ name := "New Phase", duration := 1, dependencies := [] },
   { name := "New Phase", duration := 1, dependencies := ["New Phase"] }]

/-- A single project whose status is planning. -/
def oneProjectPlanning : List Project :=
  [{ id := "p1", projectName := "Site", status := "planning" }]

/-- An export environment in which the spreadsheet library failed to load. -/
def missingXlsxEnv : ExportEnv :=
  { now := "1/2/2024, 10:00:00 AM"
    today := "2024-01-02"
    numStr := fun x => toString x.floor
    xlsx := none
    textReport := fun _ _ _ => ""
    pdfReport := fun _ _ _ => .ok none }

/-- An editor state with the categories 1 (Labor) and 2 (Materials), the first
being active. -/
def twoCategoriesFirstActive : EditorState :=
  { costBreakdown :=
      [{ id := some 1, category := some "Labor", items := [] },
       { id := some 2, category := some "Materials", items := [] }]
    activeCategory := some (some 1) }

/-- A submitted breakdown with a category whose name is empty (total 5) and a
category named Uncategorized (total 7). -/
def unnamedAndUncategorized : List ReqCategory :=
  [{ category := some "", items := some [{ name := some "Misc", total := some 5 }] },
   { category := some "Uncategorized",
     items := some [{ name := some "Other", total := some 7 }] }]

/-- Two categories whose item totals are the numbers written 0.1, then 0.2 and
0.3. -/
def decimalTotals : List Category :=
  [{ id := some 1, category := some "Labor", items := [{ total := some (toDouble (1 / 10)) }] },
   { id := some 2, category := some "Materials"
     items := [{ total := some (toDouble (2 / 10)) }, { total := some (toDouble (3 / 10)) }] }]

/-- A breakdown with a single item of total 3. -/
def singleItemOfThree : List Category :=
  [{ id := some 1, category := some "Labor", items := [{ name := some "Dev", total := some 3 }] }]

/-- A stored estimation with one cost entry of 3 and a contingency of 19 percent. -/
def storedThreeAtNineteen : Estimation :=
  { projectName := "Site"
    costBreakdown := [{ category := "Labor", estimatedCost := some 3 }]
    contingency := 19 }

/-- Forty phases, of which the first 23 are completed and the other 17 planned. -/
def twentyThreeOfForty : List Phase :=
  List.replicate 23 { name := "Done", status := "completed" }
    ++ List.replicate 17 { name := "Open", status := "planned" }

/-- An estimation with final cost 200 and total cost 171. -/
def marginAtTie : Estimation :=
  { projectName := "Depot", totalCost := some 171, finalCost := some 200 }

/-- The text of `e.projectId?.toString()` on an estimation whose project has been
populated, as the report route does: the printed project document, which is not
the id of the project. -/
def populatedProjectIdText (e : Estimation) : Option String :=
  e.projectId.map (fun id => "document " ++ id)

/-- Forty projects, of which the first 23 are completed and the other 17 in
planning. -/
def twentyThreeOfFortyProjects : List Project :=
  List.replicate 23 { projectName := "Done", status := "completed" }
    ++ List.replicate 17 { projectName := "Open", status := "planning" }

/-- A driver that casts no text other than 24 hexadecimal digits. -/
def castsNothingElse : String → Bool := fun _ => false

/-- A stored estimation of user u1 whose id is 24 hexadecimal digits. -/
def storedEstimationHexId : Estimation :=
  { storedEstimation with id := "64b7f0c2a1d3e4f5a6b7c8d9" }

/-- Stored collections holding the project p1 and the estimation with the
hexadecimal id. -/
def hexIdDb : Db :=
  { projects := [sampleProject], estimations := [storedEstimationHexId] }

/-- A create request for the project Site whose timeline holds the phases of
scenario B with the status of the planned phase replaced by a string outside the
enumeration. -/
def createBodyUnknownStatus : EstimationBody :=
  { createBodySite with timeline := some { phases := some scenarioBUnknownStatus } }

/-- A create request for the project Site whose timeline holds the phases of
scenario B. -/
def createBodyScenarioB : EstimationBody :=
  { createBodySite with timeline := some { phases := some scenarioB } }

/-- The phases of scenario B with the status of the planned phase replaced by
delayed. -/
def scenarioBDelayed : List Phase :=
  [{ name := "Design", status := "completed" },
   { name := "Build", status := "delayed" },
   { name := "Test", status := "completed" }]

/-! ## Auxiliary facts -/

theorem jsOr_zero (x : Option ℚ) : jsOr x 0 = x.getD 0 := by
  cases x with
  | none => rfl
  | some v =>
    by_cases h : v = 0
    · simp [jsOr, h]
    · simp [jsOr, h]

theorem foldl_add_eq_sum {α : Type} (f : α → ℚ) (l : List α) (a : ℚ) :
    l.foldl (fun sum x => sum + f x) a = a + (l.map f).sum := by
  induction l generalizing a with
  | nil => simp
  | cons x xs ih => simp [ih, add_assoc]

theorem getCategoryTotal_eq_sum (category : Category) :
    getCategoryTotal category = (category.items.map (fun item => item.total.getD 0)).sum := by
  unfold getCategoryTotal
  rw [foldl_add_eq_sum (fun item : LineItem => jsOr item.total 0)]
  simp [jsOr_zero]

theorem calculateTotals_totalCost (costBreakdown : List Category) (contingency : ℚ) :
    (calculateTotals costBreakdown contingency).totalCost
      = (costBreakdown.map getCategoryTotal).sum := by
  have key : ∀ (l : List Category) (a : ℚ),
      l.foldl (fun total category =>
        category.items.foldl (fun total item => total + jsOr item.total 0) total) a
        = a + (l.map getCategoryTotal).sum := by
    intro l
    induction l with
    | nil => intro a; simp
    | cons c cs ih =>
      intro a
      simp only [List.foldl_cons, List.map_cons, List.sum_cons]
      rw [ih, foldl_add_eq_sum (fun item : LineItem => jsOr item.total 0)]
      unfold getCategoryTotal
      rw [foldl_add_eq_sum (fun item : LineItem => jsOr item.total 0) c.items 0]
      ring
  simp only [calculateTotals]
  rw [key]
  simp

theorem mathRound_spec (x : ℚ) :
    ((mathRound x : ℤ) : ℚ) - 1 / 2 ≤ x ∧ x < ((mathRound x : ℤ) : ℚ) + 1 / 2 := by
  unfold mathRound
  have h1 := Int.floor_le (x + 1 / 2)
  have h2 := Int.lt_floor_add_one (x + 1 / 2)
  constructor <;> linarith

theorem mathRound_bounds (x : ℚ) (h0 : 0 ≤ x) (h1 : x ≤ 100) :
    0 ≤ mathRound x ∧ mathRound x ≤ 100 := by
  unfold mathRound
  constructor
  · apply Int.floor_nonneg.mpr
    linarith
  · have h : ⌊x + 1 / 2⌋ < 101 := by
      apply Int.floor_lt.mpr
      push_cast
      linarith
    omega

theorem preSave_progress (ctx : SaveContext) (this : Estimation)
    (hguard : ctx.isModified "timeline" = true ∨ ctx.isNew = true) :
    (preSave ctx this).progress
      = if (timelinePhases this).length = 0 then 0
        else ((mathRound
          ((((timelinePhases this).filter (fun phase => phase.status == "completed")).length : ℚ)
            / ((timelinePhases this).length : ℚ) * 100) : ℤ) : ℚ) := by
  have hg : (ctx.isModified "timeline" || ctx.isNew) = true := by
    rcases hguard with h | h <;> simp [h]
  unfold preSave
  simp only [hg, if_true]
  by_cases hm : (ctx.isModified "costBreakdown" || ctx.isModified "contingency") = true
  · by_cases hl : (timelinePhases this).length = 0
    · simp [hm, hl, timelinePhases] at *
      simp [hl]
    · have hpos : 0 < (timelinePhases this).length := Nat.pos_of_ne_zero hl
      simp [hm, hl, timelinePhases] at *
      simp [hl, hpos]
  · by_cases hl : (timelinePhases this).length = 0
    · simp [hm, hl, timelinePhases] at *
      simp [hl]
    · have hpos : 0 < (timelinePhases this).length := Nat.pos_of_ne_zero hl
      simp [hm, hl, timelinePhases] at *
      simp [hl, hpos]

theorem countStatus_three (status : String) (x y z : Nat) (px py pz : ℤ) :
    countStatus status
        [ { status := "Completed", count := x, percentage := px },
          { status := "In Progress", count := y, percentage := py },
          { status := "Planning", count := z, percentage := pz } ]
      = [ { status := "Completed"
            count := x + (if toLowerCase status = "completed" then 1 else 0)
            percentage := px },
          { status := "In Progress"
            count := y + (if toLowerCase status = "in progress" then 1 else 0)
            percentage := py },
          { status := "Planning"
            count := z + (if toLowerCase status = "planning" then 1 else 0)
            percentage := pz } ] := by
  have hc : toLowerCase "Completed" = "completed" := by decide
  have hi : toLowerCase "In Progress" = "in progress" := by decide
  have hp : toLowerCase "Planning" = "planning" := by decide
  have hci : ("completed" : String) ≠ "in progress" := by decide
  have hcp : ("completed" : String) ≠ "planning" := by decide
  have hip : ("in progress" : String) ≠ "planning" := by decide
  simp only [countStatus, hc, hi, hp, beq_iff_eq]
  by_cases h1 : toLowerCase status = "completed"
  · simp [h1, hci, hcp]
  · by_cases h2 : toLowerCase status = "in progress"
    · simp [h2, hci, hip, hci.symm]
    · by_cases h3 : toLowerCase status = "planning"
      · simp [h3, hcp.symm, hip.symm]
      · have h1b : ¬ ("completed" : String) = toLowerCase status := fun h => h1 h.symm
        have h2b : ¬ ("in progress" : String) = toLowerCase status := fun h => h2 h.symm
        have h3b : ¬ ("planning" : String) = toLowerCase status := fun h => h3 h.symm
        simp [h1, h2, h3, h1b, h2b, h3b]

theorem foldl_countStatus_three (projects : List Project) (x y z : Nat) :
    projects.foldl (fun acc project => countStatus project.status acc)
        [ { status := "Completed", count := x, percentage := 0 },
          { status := "In Progress", count := y, percentage := 0 },
          { status := "Planning", count := z, percentage := 0 } ]
      = [ { status := "Completed"
            count := x + projects.countP (fun p => decide (toLowerCase p.status = "completed"))
            percentage := 0 },
          { status := "In Progress"
            count := y + projects.countP (fun p => decide (toLowerCase p.status = "in progress"))
            percentage := 0 },
          { status := "Planning"
            count := z + projects.countP (fun p => decide (toLowerCase p.status = "planning"))
            percentage := 0 } ] := by
  induction projects generalizing x y z with
  | nil => simp
  | cons p ps ih =>
    simp only [List.foldl_cons, countStatus_three, ih, List.countP_cons]
    simp only [decide_eq_true_eq, Nat.add_assoc, Nat.add_comm (List.countP _ ps)]

theorem foldl_append_singleton {α β : Type} (g : α → β) (items : List α) (acc : List β) :
    items.foldl (fun acc item => acc ++ [g item]) acc = acc ++ items.map g := by
  induction items generalizing acc with
  | nil => simp
  | cons x xs ih => simp [ih]

theorem transformCostBreakdown_costs (costBreakdown : Option (List ReqCategory)) :
    ((transformCostBreakdown costBreakdown).map (fun c => c.estimatedCost.getD 0)).sum
      = ((costBreakdown.getD []).map (fun category =>
          ((category.items.getD []).map (fun item => item.total.getD 0)).sum)).sum := by
  cases costBreakdown with
  | none => simp [transformCostBreakdown]
  | some categories =>
    have key : ∀ (l : List ReqCategory) (acc : List CostEntry),
        ((l.foldl
            (fun acc category =>
              match category.items with
              | none => acc
              | some items =>
                items.foldl
                  (fun acc item =>
                    acc ++ [{ category := jsOrStr category.category "Uncategorized"
                              estimatedCost := some (jsOr item.total 0)
                              actualCost := some 0
                              description := some (jsOrStr item.name "") }])
                  acc)
            acc).map (fun c => c.estimatedCost.getD 0)).sum
          = (acc.map (fun c => c.estimatedCost.getD 0)).sum
            + (l.map (fun category =>
                ((category.items.getD []).map (fun item => item.total.getD 0)).sum)).sum := by
      intro l
      induction l with
      | nil => intro acc; simp
      | cons c cs ih =>
        intro acc
        simp only [List.foldl_cons, List.map_cons, List.sum_cons]
        rw [ih]
        cases hitems : c.items with
        | none => simp
        | some items =>
          simp only [Option.getD_some]
          rw [foldl_append_singleton (fun item : LineItem =>
            ({ category := jsOrStr c.category "Uncategorized"
               estimatedCost := some (jsOr item.total 0)
               actualCost := some 0
               description := some (jsOrStr item.name "") } : CostEntry))]
          simp only [List.map_append, List.sum_append, List.map_map]
          have hmap : (items.map ((fun c : CostEntry => c.estimatedCost.getD 0) ∘
              (fun item : LineItem =>
                ({ category := jsOrStr c.category "Uncategorized"
                   estimatedCost := some (jsOr item.total 0)
                   actualCost := some 0
                   description := some (jsOrStr item.name "") } : CostEntry))))
              = items.map (fun item => item.total.getD 0) := by
            apply List.map_congr_left
            intro item _
            simp [jsOr_zero]
          rw [hmap]
          ring
    simp only [transformCostBreakdown, Option.getD_some]
    rw [key]
    simp

theorem preSave_unchanged (this : Estimation) : preSave unchangedDocContext this = this := by
  simp [preSave, unchangedDocContext]

theorem preSave_totals (ctx : SaveContext) (this : Estimation)
    (hmod : ctx.isModified "costBreakdown" = true ∨ ctx.isModified "contingency" = true) :
    (preSave ctx this).totalCost
        = some (this.costBreakdown.map (fun item => item.estimatedCost.getD 0)).sum
      ∧ (preSave ctx this).finalCost
        = some ((this.costBreakdown.map (fun item => item.estimatedCost.getD 0)).sum
            + (this.costBreakdown.map (fun item => item.estimatedCost.getD 0)).sum
              * this.contingency / 100)
      ∧ (preSave ctx this).contingency = this.contingency := by
  have hsub : this.costBreakdown.foldl (fun sum item => sum + jsOr item.estimatedCost 0) 0
      = (this.costBreakdown.map (fun item => item.estimatedCost.getD 0)).sum := by
    rw [foldl_add_eq_sum (fun item : CostEntry => jsOr item.estimatedCost 0)]
    simp [jsOr_zero]
  have hg : (ctx.isModified "costBreakdown" || ctx.isModified "contingency") = true := by
    rcases hmod with h | h <;> simp [h]
  refine ⟨?_, ?_, ?_⟩
  · unfold preSave
    simp only [hg, if_true]
    split_ifs <;> simp [hsub]
  · unfold preSave
    simp only [hg, if_true]
    split_ifs <;> simp [hsub] <;> ring
  · unfold preSave
    simp only [hg, if_true]
    split_ifs <;> simp

theorem postEstimation_saved (userId : String) (project : Except String String)
    (now : JsDate) (body : EstimationBody) (status : Nat) (e : Estimation)
    (h : postEstimation userId project now body = .success status e) :
    e.contingency = jsOr body.contingency 10
      ∧ e.totalCost
        = some ((body.costBreakdown.getD []).map (fun category =>
            ((category.items.getD []).map (fun item => item.total.getD 0)).sum)).sum
      ∧ e.finalCost
        = some (((body.costBreakdown.getD []).map (fun category =>
              ((category.items.getD []).map (fun item => item.total.getD 0)).sum)).sum
            * (1 + e.contingency / 100)) := by
  have hmod : newDocContext.isModified "costBreakdown" = true
      ∨ newDocContext.isModified "contingency" = true := by
    left
    simp [newDocContext, constructorPaths]
  unfold postEstimation at h
  cases hname : body.projectName with
  | none => simp [hname] at h
  | some projectName =>
    simp only [hname] at h
    by_cases hempty : projectName = ""
    · simp [hempty] at h
    · simp only [hempty, if_false] at h
      cases project with
      | error message => simp at h
      | ok projectId =>
        simp only at h
        by_cases hvalid : validateEstimation (newEstimation userId projectId projectName now body)
            = true
        · simp only [hvalid, if_true] at h
          have he : e = preSave newDocContext
              (newEstimation userId projectId projectName now body) := by
            injection h with _ h2
            exact h2.symm
          have ht := preSave_totals newDocContext
            (newEstimation userId projectId projectName now body) hmod
          have hcost : (newEstimation userId projectId projectName now body).costBreakdown
              = transformCostBreakdown body.costBreakdown := rfl
          have hcont : (newEstimation userId projectId projectName now body).contingency
              = jsOr body.contingency 10 := rfl
          rw [hcost, transformCostBreakdown_costs, hcont] at ht
          rw [he]
          refine ⟨ht.2.2, ht.1, ?_⟩
          rw [ht.2.1, ht.2.2]
          congr 1
          ring
        · simp [hvalid] at h

/-! ## Progress -/

/-- C6: the progress that the save hook computes (the document is new or its
timeline is modified) is an integer between 0 and 100; it is 0 for the empty
phase list and 100 for a non-empty list whose phases are all completed. -/
theorem preSave_progress_range (ctx : SaveContext) (this : Estimation)
    (hguard : ctx.isModified "timeline" = true ∨ ctx.isNew = true) :
    (∃ n : ℤ, (preSave ctx this).progress = (n : ℚ) ∧ 0 ≤ n ∧ n ≤ 100)
      ∧ (timelinePhases this = [] → (preSave ctx this).progress = 0)
      ∧ (timelinePhases this ≠ []
          → (∀ phase ∈ timelinePhases this, phase.status = "completed")
          → (preSave ctx this).progress = 100) := by
  refine ⟨?_, ?_, ?_⟩
  · rw [preSave_progress ctx this hguard]
    by_cases hl : (timelinePhases this).length = 0
    · exact ⟨0, by simp [hl], le_refl _, by norm_num⟩
    · have hpos : (0 : ℚ) < ((timelinePhases this).length : ℚ) := by
        exact_mod_cast Nat.pos_of_ne_zero hl
      have hle : (((timelinePhases this).filter
          (fun phase => phase.status == "completed")).length : ℚ)
          ≤ ((timelinePhases this).length : ℚ) := by
        exact_mod_cast List.length_filter_le _ _
      have hnn : (0 : ℚ) ≤ (((timelinePhases this).filter
          (fun phase => phase.status == "completed")).length : ℚ) := by
        exact_mod_cast Nat.zero_le _
      have hb := mathRound_bounds
        ((((timelinePhases this).filter (fun phase => phase.status == "completed")).length : ℚ)
          / ((timelinePhases this).length : ℚ) * 100)
        (by positivity)
        (by
          have : (((timelinePhases this).filter
              (fun phase => phase.status == "completed")).length : ℚ)
              / ((timelinePhases this).length : ℚ) ≤ 1 := by
            rw [div_le_one hpos]
            exact hle
          linarith)
      exact ⟨_, by simp [hl], hb.1, hb.2⟩
  · intro hnil
    rw [preSave_progress ctx this hguard]
    simp [hnil]
  · intro hne hall
    rw [preSave_progress ctx this hguard]
    have hl : (timelinePhases this).length ≠ 0 := by
      simpa [List.length_eq_zero] using hne
    have hfilter : (timelinePhases this).filter (fun phase => phase.status == "completed")
        = timelinePhases this := by
      rw [List.filter_eq_self]
      intro phase hmem
      simp [hall phase hmem]
    have hpos : ((timelinePhases this).length : ℚ) ≠ 0 := by
      exact_mod_cast hl
    simp only [hl, if_false, hfilter, div_self hpos]
    norm_num [mathRound]

/-- Witness for C6: a new document whose single phase is completed has progress
100, an integer between 0 and 100. -/
theorem preSave_progress_range_witness :
    (newDocContext.isModified "timeline" = true ∨ newDocContext.isNew = true)
      ∧ timelinePhases completedPhaseEstimation ≠ []
      ∧ (∀ phase ∈ timelinePhases completedPhaseEstimation, phase.status = "completed")
      ∧ (preSave newDocContext completedPhaseEstimation).progress = 100 := by
  have hguard : newDocContext.isModified "timeline" = true ∨ newDocContext.isNew = true :=
    Or.inr rfl
  have hne : timelinePhases completedPhaseEstimation ≠ [] := by
    simp [timelinePhases, completedPhaseEstimation]
  have hall : ∀ phase ∈ timelinePhases completedPhaseEstimation, phase.status = "completed" := by
    simp [timelinePhases, completedPhaseEstimation]
  exact ⟨hguard, hne, hall,
    (preSave_progress_range newDocContext completedPhaseEstimation hguard).2.2 hne hall⟩

/-! ## Creating and updating estimations -/

/-- C3: a create request with one item of total 500 and a contingency of 0
percent is saved with contingency 10 and final cost 550, not with contingency 0
and final cost 500. -/
theorem postEstimation_zero_contingency_stored_as_ten :
    (postEstimation "u1" (.ok "p1") sampleDate createBodyZeroContingency).toOption.map
        (fun e => (e.contingency, e.totalCost, e.finalCost))
      = some (10, some 500, some 550) := by
  simp +decide [postEstimation, newEstimation, validateEstimation, preSave,
    transformCostBreakdown, transformResources, jsOr, jsOrStr, constructorPaths,
    Response.toOption, timelinePhases, estimationStatusEnum, riskLevelEnum,
    createBodyZeroContingency]
  norm_num

/-- C4: the update route keeps the stored total 500 and final cost 550 when the
request removes every item and carries totals 0, and it stores the totals 1 and 2
of a request whose item total is 800; in both cases the stored totals differ from
the sum of the stored cost entries. -/
theorem putEstimation_does_not_recompute_totals :
    (putEstimation "u1" (some storedEstimation) updateBodyItemsRemoved).toOption.map
        (fun e => (e.costBreakdown.map (fun c => c.estimatedCost), e.contingency,
          e.totalCost, e.finalCost))
      = some ([], 10, some 500, some 550)
    ∧ (putEstimation "u1" (some storedEstimation) updateBodyForeignTotals).toOption.map
        (fun e => (e.costBreakdown.map (fun c => c.estimatedCost), e.contingency,
          e.totalCost, e.finalCost))
      = some ([some 800], 10, some 1, some 2) := by
  constructor
  · simp +decide [putEstimation, validateEstimation, transformCostBreakdown, transformResources,
      jsOr, jsOrStr, Response.toOption, estimationStatusEnum, riskLevelEnum,
      storedEstimation, updateBodyItemsRemoved]
  · simp +decide [putEstimation, validateEstimation, transformCostBreakdown, transformResources,
      jsOr, jsOrStr, Response.toOption, estimationStatusEnum, riskLevelEnum,
      storedEstimation, updateBodyForeignTotals]

/-! ## Dashboard statistics -/

/-- C7: the dashboard statistics are the number of projects, the number of
estimations, the sum of the final costs with a missing one counted as 0, the
numbers of projects that are planning or in progress and that are completed, the
numbers of estimations that are draft or in progress and that are completed; on
empty collections all seven values are 0. -/
theorem getStats_values (projects : List Project) (estimations : List Estimation) :
    ((getStats projects estimations).totalProjects = projects.length
      ∧ (getStats projects estimations).totalEstimations = estimations.length
      ∧ (getStats projects estimations).totalValue
          = (estimations.map (fun e => e.finalCost.getD 0)).sum
      ∧ (getStats projects estimations).activeProjects
          = projects.countP (fun p => decide (p.status = "planning" ∨ p.status = "in_progress"))
      ∧ (getStats projects estimations).completedProjects
          = projects.countP (fun p => decide (p.status = "completed"))
      ∧ (getStats projects estimations).activeEstimations
          = estimations.countP (fun e => decide (e.status = "draft" ∨ e.status = "in_progress"))
      ∧ (getStats projects estimations).completedEstimations
          = estimations.countP (fun e => decide (e.status = "completed")))
    ∧ ((getStats [] []).totalProjects = 0
      ∧ (getStats [] []).totalEstimations = 0
      ∧ (getStats [] []).totalValue = 0
      ∧ (getStats [] []).activeProjects = 0
      ∧ (getStats [] []).completedProjects = 0
      ∧ (getStats [] []).activeEstimations = 0
      ∧ (getStats [] []).completedEstimations = 0) := by
  refine ⟨⟨rfl, rfl, ?_, ?_, ?_, ?_, ?_⟩, ?_⟩
  · simp only [getStats]
    rw [foldl_add_eq_sum (fun e : Estimation => jsOr e.finalCost 0)]
    simp [jsOr_zero]
  · simp only [getStats, List.countP_eq_length_filter]
    congr 2
    funext p
    rw [Bool.decide_or]
    rfl
  · simp only [getStats, List.countP_eq_length_filter]
    congr 2
  · simp only [getStats, List.countP_eq_length_filter]
    congr 2
    funext e
    rw [Bool.decide_or]
    rfl
  · simp only [getStats, List.countP_eq_length_filter]
    congr 2
  · simp [getStats]

/-! ## Reports -/

/-- The counts of the three status entries for an arbitrary list of projects: an
entry counts the projects whose lower-cased status equals its lower-cased label,
which for the label In Progress is the string with a space. -/
theorem calculateProjectsReport_counts (projects : List Project)
    (estimations : List Estimation) :
    (calculateProjectsReport projects estimations).projectStatus.map
        (fun s => (s.status, s.count))
      = [ ("Completed", projects.countP (fun p => decide (toLowerCase p.status = "completed"))),
          ("In Progress",
            projects.countP (fun p => decide (toLowerCase p.status = "in progress"))),
          ("Planning", projects.countP (fun p => decide (toLowerCase p.status = "planning"))) ] := by
  simp only [calculateProjectsReport, foldl_countStatus_three]
  simp

/-- C9: for a single project whose status is in_progress the report counts 0
projects under In Progress (and 0 under the two other labels), whereas one
project has that status. -/
theorem calculateProjectsReport_in_progress_not_counted :
    (calculateProjectsReport oneProjectInProgress []).projectStatus.map
        (fun s => (s.status, s.count))
      = [("Completed", 0), ("In Progress", 0), ("Planning", 0)]
    ∧ oneProjectInProgress.countP (fun p => decide (p.status = "in_progress")) = 1 := by
  constructor
  · rw [calculateProjectsReport_counts]
    decide
  · decide

/-- The status entries of the projects report, written out: the three labels with
their counts and the percentages computed from the sum of the counts. -/
theorem calculateProjectsReport_projectStatus (projects : List Project)
    (estimations : List Estimation) :
    (calculateProjectsReport projects estimations).projectStatus
      = [ { status := "Completed"
            count := projects.countP (fun p => decide (toLowerCase p.status = "completed"))
            percentage :=
              if projects.countP (fun p => decide (toLowerCase p.status = "completed"))
                  + projects.countP (fun p => decide (toLowerCase p.status = "in progress"))
                  + projects.countP (fun p => decide (toLowerCase p.status = "planning")) > 0
              then mathRound
                (((projects.countP (fun p => decide (toLowerCase p.status = "completed")) : ℕ) : ℚ)
                  / ((projects.countP (fun p => decide (toLowerCase p.status = "completed"))
                    + projects.countP (fun p => decide (toLowerCase p.status = "in progress"))
                    + projects.countP (fun p => decide (toLowerCase p.status = "planning")) : ℕ) : ℚ)
                  * 100)
              else 0 },
          { status := "In Progress"
            count := projects.countP (fun p => decide (toLowerCase p.status = "in progress"))
            percentage :=
              if projects.countP (fun p => decide (toLowerCase p.status = "completed"))
                  + projects.countP (fun p => decide (toLowerCase p.status = "in progress"))
                  + projects.countP (fun p => decide (toLowerCase p.status = "planning")) > 0
              then mathRound
                (((projects.countP (fun p => decide (toLowerCase p.status = "in progress")) : ℕ) : ℚ)
                  / ((projects.countP (fun p => decide (toLowerCase p.status = "completed"))
                    + projects.countP (fun p => decide (toLowerCase p.status = "in progress"))
                    + projects.countP (fun p => decide (toLowerCase p.status = "planning")) : ℕ) : ℚ)
                  * 100)
              else 0 },
          { status := "Planning"
            count := projects.countP (fun p => decide (toLowerCase p.status = "planning"))
            percentage :=
              if projects.countP (fun p => decide (toLowerCase p.status = "completed"))
                  + projects.countP (fun p => decide (toLowerCase p.status = "in progress"))
                  + projects.countP (fun p => decide (toLowerCase p.status = "planning")) > 0
              then mathRound
                (((projects.countP (fun p => decide (toLowerCase p.status = "planning")) : ℕ) : ℚ)
                  / ((projects.countP (fun p => decide (toLowerCase p.status = "completed"))
                    + projects.countP (fun p => decide (toLowerCase p.status = "in progress"))
                    + projects.countP (fun p => decide (toLowerCase p.status = "planning")) : ℕ) : ℚ)
                  * 100)
              else 0 } ] := by
  simp only [calculateProjectsReport, foldl_countStatus_three]
  simp only [List.map_cons, List.map_nil, List.foldl_cons, List.foldl_nil, Nat.zero_add,
    Nat.add_zero]

theorem mathRound_sum_three (x y z : ℚ) (hsum : x + y + z = 100) :
    99 ≤ mathRound x + mathRound y + mathRound z
      ∧ mathRound x + mathRound y + mathRound z ≤ 101 := by
  have hx := mathRound_spec x
  have hy := mathRound_spec y
  have hz := mathRound_spec z
  constructor
  · have h1 : ((98 : ℤ) : ℚ) < ((mathRound x + mathRound y + mathRound z : ℤ) : ℚ) := by
      push_cast
      linarith [hx.2, hy.2, hz.2]
    have h2 := Int.cast_lt.mp h1
    omega
  · have h1 : ((mathRound x + mathRound y + mathRound z : ℤ) : ℚ) < ((102 : ℤ) : ℚ) := by
      push_cast
      linarith [hx.1, hy.1, hz.1]
    have h2 := Int.cast_lt.mp h1
    omega

theorem three_rounds_sum (a b c : ℕ) (h : 0 < a + b + c) :
    99 ≤ mathRound ((a : ℚ) / ((a + b + c : ℕ) : ℚ) * 100)
          + mathRound ((b : ℚ) / ((a + b + c : ℕ) : ℚ) * 100)
          + mathRound ((c : ℚ) / ((a + b + c : ℕ) : ℚ) * 100)
      ∧ mathRound ((a : ℚ) / ((a + b + c : ℕ) : ℚ) * 100)
          + mathRound ((b : ℚ) / ((a + b + c : ℕ) : ℚ) * 100)
          + mathRound ((c : ℚ) / ((a + b + c : ℕ) : ℚ) * 100) ≤ 101 := by
  apply mathRound_sum_three
  have hT : (0 : ℚ) < ((a + b + c : ℕ) : ℚ) := by exact_mod_cast h
  have hne : ((a + b + c : ℕ) : ℚ) ≠ 0 := ne_of_gt hT
  have hcast : ((a + b + c : ℕ) : ℚ) = (a : ℚ) + b + c := by push_cast; ring
  rw [← add_mul, ← add_mul, ← add_div, ← add_div, ← hcast, div_self hne]
  norm_num

/-- C11 fails as stated: for a single project on hold the three percentages are 0,
so their sum is 0 and not between 99 and 101, although the list holds a
project. -/
theorem calculateProjectsReport_percentage_sum_counterexample :
    oneProjectOnHold.length = 1
      ∧ (calculateProjectsReport oneProjectOnHold []).projectStatus.map (fun s => s.percentage)
        = [0, 0, 0]
      ∧ ¬ (99 ≤ ((calculateProjectsReport oneProjectOnHold []).projectStatus.map
              (fun s => s.percentage)).sum
          ∧ ((calculateProjectsReport oneProjectOnHold []).projectStatus.map
              (fun s => s.percentage)).sum ≤ 101) := by
  have heval : (calculateProjectsReport oneProjectOnHold []).projectStatus.map
      (fun s => s.percentage) = [0, 0, 0] := by
    simp [calculateProjectsReport, oneProjectOnHold, countStatus, toLowerCase]
  refine ⟨rfl, heval, ?_⟩
  rw [heval]
  decide

/-- C11 as amended: when at least one project is counted under one of the three
status entries, the three percentages sum to an integer between 99 and 101; when
none is counted, all three percentages are 0, in particular for the empty list of
projects. -/
theorem calculateProjectsReport_percentage_sum (projects : List Project)
    (estimations : List Estimation) :
    (0 < ((calculateProjectsReport projects estimations).projectStatus.map
          (fun s => s.count)).sum
        → 99 ≤ ((calculateProjectsReport projects estimations).projectStatus.map
              (fun s => s.percentage)).sum
          ∧ ((calculateProjectsReport projects estimations).projectStatus.map
              (fun s => s.percentage)).sum ≤ 101)
      ∧ (((calculateProjectsReport projects estimations).projectStatus.map
            (fun s => s.count)).sum = 0
        → (calculateProjectsReport projects estimations).projectStatus.map
            (fun s => s.percentage) = [0, 0, 0])
      ∧ (calculateProjectsReport [] estimations).projectStatus.map (fun s => s.percentage)
        = [0, 0, 0] := by
  refine ⟨?_, ?_, ?_⟩
  · rw [calculateProjectsReport_projectStatus]
    simp only [List.map_cons, List.map_nil, List.sum_cons, List.sum_nil, Nat.add_zero,
      add_zero]
    intro hpos
    have hpos2 : 0 < projects.countP (fun p => decide (toLowerCase p.status = "completed"))
        + projects.countP (fun p => decide (toLowerCase p.status = "in progress"))
        + projects.countP (fun p => decide (toLowerCase p.status = "planning")) := by
      omega
    simp only [gt_iff_lt, hpos2, if_true]
    have h3 := three_rounds_sum
      (projects.countP (fun p => decide (toLowerCase p.status = "completed")))
      (projects.countP (fun p => decide (toLowerCase p.status = "in progress")))
      (projects.countP (fun p => decide (toLowerCase p.status = "planning"))) hpos2
    constructor
    · linarith [h3.1]
    · linarith [h3.2]
  · rw [calculateProjectsReport_projectStatus]
    simp only [List.map_cons, List.map_nil, List.sum_cons, List.sum_nil, Nat.add_zero]
    intro hzero
    have hzero2 : ¬ (0 < projects.countP (fun p => decide (toLowerCase p.status = "completed"))
        + projects.countP (fun p => decide (toLowerCase p.status = "in progress"))
        + projects.countP (fun p => decide (toLowerCase p.status = "planning"))) := by
      omega
    simp only [gt_iff_lt, hzero2, if_false]
  · simp [calculateProjectsReport]

/-- Witness for C11 as amended: of six projects, three completed and two in
planning are counted, and the percentages 60, 0 and 40 sum to 100. -/
theorem calculateProjectsReport_percentage_sum_witness :
    0 < ((calculateProjectsReport sixProjects []).projectStatus.map (fun s => s.count)).sum
      ∧ 99 ≤ ((calculateProjectsReport sixProjects []).projectStatus.map
            (fun s => s.percentage)).sum
      ∧ ((calculateProjectsReport sixProjects []).projectStatus.map
            (fun s => s.percentage)).sum ≤ 101 := by
  have hpos : 0 < ((calculateProjectsReport sixProjects []).projectStatus.map
      (fun s => s.count)).sum := by
    rw [calculateProjectsReport_projectStatus]
    decide
  exact ⟨hpos, (calculateProjectsReport_percentage_sum sixProjects []).1 hpos⟩

/-! ## Month buckets -/

theorem month_buckets_sum (f : Estimation → ℚ) (l : List Estimation) :
    (([0, 1, 2, 3, 4, 5] : List Nat).map (fun i =>
        ((l.filter (fun e => e.createdAt.month.val == i)).map f).sum)).sum
      = ((l.filter (fun e => decide (e.createdAt.month.val < 6))).map f).sum := by
  induction l with
  | nil => simp
  | cons e es ih =>
    simp only [List.map_cons, List.map_nil, List.sum_cons, List.sum_nil, add_zero] at ih ⊢
    rcases hmv : e.createdAt.month with ⟨m, hm⟩
    simp only [List.filter_cons, hmv]
    interval_cases m <;> simp <;> linarith [ih]

theorem month_buckets_count (l : List Estimation) :
    (([0, 1, 2, 3, 4, 5] : List Nat).map (fun i =>
        (l.filter (fun e => e.createdAt.month.val == i)).length)).sum
      = (l.filter (fun e => decide (e.createdAt.month.val < 6))).length := by
  induction l with
  | nil => simp
  | cons e es ih =>
    simp only [List.map_cons, List.map_nil, List.sum_cons, List.sum_nil, add_zero] at ih ⊢
    rcases hmv : e.createdAt.month with ⟨m, hm⟩
    simp only [List.filter_cons, hmv]
    interval_cases m <;> simp <;> omega

theorem reportMonths_enum :
    reportMonths.enum
      = [(0, "Jan"), (1, "Feb"), (2, "Mar"), (3, "Apr"), (4, "May"), (5, "Jun")] := by
  rfl

theorem foldl_finalCost (l : List Estimation) :
    l.foldl (fun sum e => sum + jsOr e.finalCost 0) 0
      = (l.map (fun e => e.finalCost.getD 0)).sum := by
  rw [foldl_add_eq_sum (fun e : Estimation => jsOr e.finalCost 0)]
  simp [jsOr_zero]

theorem revenueBreakdown_eq (projects : List Project) (estimations : List Estimation)
    (startDate endDate : JsDate) :
    (calculateFinancialReport projects estimations startDate endDate).revenueBreakdown
      = ([(0, "Jan"), (1, "Feb"), (2, "Mar"), (3, "Apr"), (4, "May"), (5, "Jun")] :
          List (Nat × String)).map (fun b =>
            { period := b.2
              amount := ((estimations.filter (fun e => e.createdAt.month.val == b.1)).map
                (fun e => e.finalCost.getD 0)).sum
              projectCount :=
                (estimations.filter (fun e => e.createdAt.month.val == b.1)).length }) := by
  simp only [calculateFinancialReport, reportMonths_enum, List.map_cons, List.map_nil,
    foldl_finalCost]

theorem projectCostsOverTime_eq (projects : List Project) (estimations : List Estimation)
    (teamMembers : List TeamMember) (startDate endDate : JsDate) :
    (calculateOverviewReport projects estimations teamMembers startDate
        endDate).projectCostsOverTime
      = ([(0, "Jan"), (1, "Feb"), (2, "Mar"), (3, "Apr"), (4, "May"), (5, "Jun")] :
          List (Nat × String)).map (fun b =>
            { name := b.2
              costs := ((estimations.filter (fun e => e.createdAt.month.val == b.1)).map
                (fun e => e.finalCost.getD 0)).sum
              projects :=
                (estimations.filter (fun e => e.createdAt.month.val == b.1)).length }) := by
  simp only [calculateOverviewReport, reportMonths_enum, List.map_cons, List.map_nil,
    foldl_finalCost]

/-- C12 fails as stated: an estimation created in July with final cost 100 is
counted in no bucket of either report, so the bucket counts sum to 0 and the
bucket amounts to 0, while there is one estimation of total final cost 100. -/
theorem month_buckets_partition_counterexample :
    [julyEstimation].length = 1
      ∧ ([julyEstimation].map (fun e => e.finalCost.getD 0)).sum = 100
      ∧ ((calculateFinancialReport [] [julyEstimation] sampleDate sampleDate).revenueBreakdown.map
          (fun b => (b.amount, b.projectCount)))
        = [(0, 0), (0, 0), (0, 0), (0, 0), (0, 0), (0, 0)]
      ∧ ((calculateOverviewReport [] [julyEstimation] [] sampleDate
            sampleDate).projectCostsOverTime.map (fun b => (b.costs, b.projects)))
        = [(0, 0), (0, 0), (0, 0), (0, 0), (0, 0), (0, 0)] := by
  refine ⟨rfl, ?_, ?_, ?_⟩
  · simp [julyEstimation]
  · rw [revenueBreakdown_eq]
    simp +decide [julyEstimation]
  · rw [projectCostsOverTime_eq]
    simp +decide [julyEstimation]

/-- C12 as amended: in both reports an estimation is counted in the bucket of its
month when it was created from January to June and in no bucket otherwise, so it
is counted at most once; the bucket counts sum to the number of estimations
created from January to June and the bucket amounts to their total final
cost. -/
theorem month_buckets_cover_first_half (projects : List Project)
    (estimations : List Estimation) (teamMembers : List TeamMember)
    (startDate endDate : JsDate) :
    (∀ e : Estimation,
        (reportMonths.enum.filter (fun b => e.createdAt.month.val == b.1)).length
          = if e.createdAt.month.val < 6 then 1 else 0)
      ∧ ((calculateFinancialReport projects estimations startDate endDate).revenueBreakdown.map
            (fun b => b.projectCount)).sum
          = estimations.countP (fun e => decide (e.createdAt.month.val < 6))
      ∧ ((calculateFinancialReport projects estimations startDate endDate).revenueBreakdown.map
            (fun b => b.amount)).sum
          = ((estimations.filter (fun e => decide (e.createdAt.month.val < 6))).map
              (fun e => e.finalCost.getD 0)).sum
      ∧ ((calculateOverviewReport projects estimations teamMembers startDate
            endDate).projectCostsOverTime.map (fun b => b.projects)).sum
          = estimations.countP (fun e => decide (e.createdAt.month.val < 6))
      ∧ ((calculateOverviewReport projects estimations teamMembers startDate
            endDate).projectCostsOverTime.map (fun b => b.costs)).sum
          = ((estimations.filter (fun e => decide (e.createdAt.month.val < 6))).map
              (fun e => e.finalCost.getD 0)).sum := by
  refine ⟨?_, ?_, ?_, ?_, ?_⟩
  · intro e
    rw [reportMonths_enum]
    rcases e.createdAt.month with ⟨m, hm⟩
    interval_cases m <;> simp +decide
  · rw [revenueBreakdown_eq, List.countP_eq_length_filter, ← month_buckets_count]
    simp
  · rw [revenueBreakdown_eq, ← month_buckets_sum]
    simp
  · rw [projectCostsOverTime_eq, List.countP_eq_length_filter, ← month_buckets_count]
    simp
  · rw [projectCostsOverTime_eq, ← month_buckets_sum]
    simp

/-- C13: each month bucket of the financial and of the overview report holds the
sum of the final costs (a missing one counted as 0) and the number of exactly
the estimations whose `createdAt` has the month index of the bucket; the year is
not read, so changing the years leaves the buckets unchanged, and two
estimations created in March 2023 and March 2024 with final costs 100 and 200
make the March bucket 300 with count 2. -/
theorem month_bucket_contents (projects : List Project) (estimations : List Estimation)
    (teamMembers : List TeamMember) (startDate endDate : JsDate) :
    ((calculateFinancialReport projects estimations startDate endDate).revenueBreakdown
        = reportMonths.enum.map (fun (b : Nat × String) =>
            { period := b.2
              amount := ((estimations.filter (fun e => e.createdAt.month.val == b.1)).map
                (fun e => e.finalCost.getD 0)).sum
              projectCount := estimations.countP (fun e => e.createdAt.month.val == b.1) })
      ∧ (calculateOverviewReport projects estimations teamMembers startDate
            endDate).projectCostsOverTime
        = reportMonths.enum.map (fun (b : Nat × String) =>
            { name := b.2
              costs := ((estimations.filter (fun e => e.createdAt.month.val == b.1)).map
                (fun e => e.finalCost.getD 0)).sum
              projects := estimations.countP (fun e => e.createdAt.month.val == b.1) }))
    ∧ (∀ year : Estimation → Int,
        (calculateFinancialReport projects
            (estimations.map (fun e =>
              { e with createdAt := { e.createdAt with year := year e } }))
            startDate endDate).revenueBreakdown
          = (calculateFinancialReport projects estimations startDate endDate).revenueBreakdown
        ∧ (calculateOverviewReport projects
            (estimations.map (fun e =>
              { e with createdAt := { e.createdAt with year := year e } }))
            teamMembers startDate endDate).projectCostsOverTime
          = (calculateOverviewReport projects estimations teamMembers startDate
              endDate).projectCostsOverTime)
    ∧ ((calculateFinancialReport projects marchEstimations startDate endDate).revenueBreakdown.map
          (fun b => (b.period, b.amount, b.projectCount))
        = [("Jan", 0, 0), ("Feb", 0, 0), ("Mar", 300, 2), ("Apr", 0, 0), ("May", 0, 0),
           ("Jun", 0, 0)]) := by
  refine ⟨⟨?_, ?_⟩, ?_, ?_⟩
  · rw [revenueBreakdown_eq, reportMonths_enum]
    simp only [List.countP_eq_length_filter]
  · rw [projectCostsOverTime_eq, reportMonths_enum]
    simp only [List.countP_eq_length_filter]
  · intro year
    constructor
    · rw [revenueBreakdown_eq, revenueBreakdown_eq]
      simp [List.filter_map, Function.comp_def]
    · rw [projectCostsOverTime_eq, projectCostsOverTime_eq]
      simp [List.filter_map, Function.comp_def]
  · rw [revenueBreakdown_eq]
    simp +decide [marchEstimations]
    norm_num

/-! ## Report data on empty collections, determinism -/

/-- C14 fails as stated: on empty collections the overview report carries the
resource allocation values 35, 20, 25 and 20, and the resources report the value
20, which are numeric values of the report data and are not 0. -/
theorem calculateReportData_empty_counterexample :
    (calculateReportData randomZero "overview" sampleDate sampleDate [] [] []).resourceAllocation?.map
        (fun entries => entries.map (fun entry => (entry.name, entry.value)))
      = some [("Development", 35), ("Design", 20), ("Management", 25), ("Testing", 20)]
    ∧ (calculateReportData randomZero "resources" sampleDate sampleDate [] [] []).resourceAllocation?.map
        (fun entries => entries.map (fun entry => (entry.name, entry.value)))
      = some [("Testing", 20)] := by
  constructor
  · simp [calculateReportData, calculateOverviewReport, ReportData.resourceAllocation?]
  · simp +decide [calculateReportData, calculateResourcesReport, roleCount,
      ReportData.resourceAllocation?]

/-- C14 as amended: on empty collections every value that the report data
computes from the collections is 0 and every list of per-record entries is
empty, for each of the four report types: the overview totals, average and six
buckets, the six revenue buckets, the three status counts and percentages; the
resource allocation entries are the fixed constants 35, 20, 25, 20 of the
overview report and Testing 20 of the resources report. -/
theorem calculateReportData_empty (random : Nat → ℚ) (startDate endDate : JsDate) :
    calculateReportData random "overview" startDate endDate [] [] []
        = .overview
          { totalRevenue := 0
            activeProjects := 0
            teamMembers := 0
            avgProjectValue := 0
            projectCostsOverTime :=
              [ { name := "Jan", costs := 0, projects := 0 },
                { name := "Feb", costs := 0, projects := 0 },
                { name := "Mar", costs := 0, projects := 0 },
                { name := "Apr", costs := 0, projects := 0 },
                { name := "May", costs := 0, projects := 0 },
                { name := "Jun", costs := 0, projects := 0 } ]
            resourceAllocation :=
              [ { name := "Development", value := 35, fill := "#3b82f6" },
                { name := "Design", value := 20, fill := "#8b5cf6" },
                { name := "Management", value := 25, fill := "#f59e0b" },
                { name := "Testing", value := 20, fill := "#10b981" } ] }
      ∧ calculateReportData random "financial" startDate endDate [] [] []
        = .financial
          { revenueBreakdown :=
              [ { period := "Jan", amount := 0, projectCount := 0 },
                { period := "Feb", amount := 0, projectCount := 0 },
                { period := "Mar", amount := 0, projectCount := 0 },
                { period := "Apr", amount := 0, projectCount := 0 },
                { period := "May", amount := 0, projectCount := 0 },
                { period := "Jun", amount := 0, projectCount := 0 } ]
            projectProfitability := [] }
      ∧ calculateReportData random "resources" startDate endDate [] [] []
        = .resources
          { teamPerformance := []
            resourceAllocation := [ { name := "Testing", value := 20, fill := "#10b981" } ] }
      ∧ calculateReportData random "projects" startDate endDate [] [] []
        = .projects
          { projectStatus :=
              [ { status := "Completed", count := 0, percentage := 0 },
                { status := "In Progress", count := 0, percentage := 0 },
                { status := "Planning", count := 0, percentage := 0 } ]
            recentProjects := [] } := by
  refine ⟨?_, ?_, ?_, ?_⟩
  · simp [calculateReportData, calculateOverviewReport, reportMonths_enum]
  · simp +decide [calculateReportData, calculateFinancialReport, reportMonths_enum]
  · simp +decide [calculateReportData, calculateResourcesReport, roleCount]
  · simp +decide [calculateReportData, calculateProjectsReport]

/-- C17 fails as stated: for one team member the resources report computed with
two sources of random numbers has hours 200 and efficiency 80 in one call and
hours 600 and efficiency 90 in the other, so two calls on the same collections
return different report data. -/
theorem calculateReportData_not_deterministic :
    (calculateReportData randomZero "resources" sampleDate sampleDate [] []
          oneTeamMember).teamPerformance?.map
        (fun entries => entries.map (fun entry => (entry.hours, entry.efficiency)))
      = some [(200, 80)]
    ∧ (calculateReportData randomHalf "resources" sampleDate sampleDate [] []
          oneTeamMember).teamPerformance?.map
        (fun entries => entries.map (fun entry => (entry.hours, entry.efficiency)))
      = some [(600, 90)]
    ∧ calculateReportData randomZero "resources" sampleDate sampleDate [] [] oneTeamMember
      ≠ calculateReportData randomHalf "resources" sampleDate sampleDate [] [] oneTeamMember := by
  have h0 : (calculateReportData randomZero "resources" sampleDate sampleDate [] []
        oneTeamMember).teamPerformance?.map
      (fun entries => entries.map (fun entry => (entry.hours, entry.efficiency)))
      = some [(200, 80)] := by
    simp +decide [calculateReportData, calculateResourcesReport, ReportData.teamPerformance?,
      oneTeamMember, randomZero, List.enum, List.enumFrom]
  have h1 : (calculateReportData randomHalf "resources" sampleDate sampleDate [] []
        oneTeamMember).teamPerformance?.map
      (fun entries => entries.map (fun entry => (entry.hours, entry.efficiency)))
      = some [(600, 90)] := by
    simp +decide [calculateReportData, calculateResourcesReport, ReportData.teamPerformance?,
      oneTeamMember, randomHalf, List.enum, List.enumFrom]
    norm_num [Int.floor_eq_iff]
  refine ⟨h0, h1, ?_⟩
  intro heq
  rw [heq, h1] at h0
  simp at h0

/-- C17 as amended: for the report types overview, financial and projects the
report data does not depend on the random source, so two calls on the same
collections return identical data; for resources two calls return the same
resource allocation and, in every team performance entry, the same name, number
of projects and role, while hours and efficiency are drawn at random. -/
theorem calculateReportData_deterministic_parts (random1 random2 : Nat → ℚ)
    (startDate endDate : JsDate) (projects : List Project) (estimations : List Estimation)
    (teamMembers : List TeamMember) :
    calculateReportData random1 "overview" startDate endDate projects estimations teamMembers
        = calculateReportData random2 "overview" startDate endDate projects estimations
            teamMembers
      ∧ calculateReportData random1 "financial" startDate endDate projects estimations
          teamMembers
        = calculateReportData random2 "financial" startDate endDate projects estimations
            teamMembers
      ∧ calculateReportData random1 "projects" startDate endDate projects estimations
          teamMembers
        = calculateReportData random2 "projects" startDate endDate projects estimations
            teamMembers
      ∧ (calculateReportData random1 "resources" startDate endDate projects estimations
          teamMembers).resourceAllocation?
        = (calculateReportData random2 "resources" startDate endDate projects estimations
            teamMembers).resourceAllocation?
      ∧ (calculateReportData random1 "resources" startDate endDate projects estimations
          teamMembers).teamPerformance?.map
            (fun entries => entries.map (fun entry => (entry.name, entry.projects, entry.role)))
        = (calculateReportData random2 "resources" startDate endDate projects estimations
            teamMembers).teamPerformance?.map
            (fun entries => entries.map (fun entry => (entry.name, entry.projects, entry.role))) := by
  refine ⟨?_, ?_, ?_, ?_, ?_⟩
  · simp [calculateReportData]
  · simp +decide [calculateReportData]
  · simp +decide [calculateReportData]
  · simp +decide [calculateReportData, calculateResourcesReport, ReportData.resourceAllocation?]
  · simp +decide [calculateReportData, calculateResourcesReport, ReportData.teamPerformance?]

/-! ## Report export -/

theorem jsOrStr_some_empty (s : String) : jsOrStr (some s) "" = s := by
  by_cases h : s = ""
  · simp [jsOrStr, h]
  · simp [jsOrStr, h]

/-- C15: when the spreadsheet library throws while an excel export is handled,
the export route answers with a file whose body is the CSV rendering of the same
report data, as the bytes of that text. -/
theorem exportReport_excel_fallback (env : ExportEnv) (write : XlsxWriter)
    (exportOnly : Bool) (reportType dateRange : String) (reportData : ReportData)
    (message : String)
    (hxlsx : env.xlsx = some write)
    (hthrow : write (excelRows env.now reportType dateRange reportData) = .error message) :
    generateExcelReport env.xlsx env.numStr env.now reportType dateRange reportData
        = .text (generateCSVReport env.numStr env.now reportType dateRange reportData)
      ∧ exportReport env (some "excel") exportOnly reportType dateRange reportData
        = .file "application/vnd.openxmlformats-officedocument.spreadsheetml.sheet"
            ("report-" ++ reportType ++ "-" ++ env.today ++ ".xlsx")
            (.buffer
              (generateCSVReport env.numStr env.now reportType dateRange reportData).toUTF8.toList) := by
  have hgen : generateExcelReport env.xlsx env.numStr env.now reportType dateRange reportData
      = .text (generateCSVReport env.numStr env.now reportType dateRange reportData) := by
    simp [generateExcelReport, hxlsx, hthrow]
  refine ⟨hgen, ?_⟩
  simp +decide [exportReport, hgen, toBuffer]

/-- Witness for C15: an environment whose spreadsheet library throws, exporting
the projects report of six projects. -/
theorem exportReport_excel_fallback_witness :
    failingXlsxEnv.xlsx = some (fun _ => .error "write failed")
      ∧ (fun _ => .error "write failed" : XlsxWriter)
          (excelRows failingXlsxEnv.now "projects" "30days" sampleProjectsData)
        = .error "write failed"
      ∧ exportReport failingXlsxEnv (some "excel") true "projects" "30days" sampleProjectsData
        = .file "application/vnd.openxmlformats-officedocument.spreadsheetml.sheet"
            ("report-" ++ "projects" ++ "-" ++ failingXlsxEnv.today ++ ".xlsx")
            (.buffer
              (generateCSVReport failingXlsxEnv.numStr failingXlsxEnv.now "projects" "30days"
                sampleProjectsData).toUTF8.toList) :=
  ⟨rfl, rfl,
    (exportReport_excel_fallback failingXlsxEnv (fun _ => .error "write failed") true
      "projects" "30days" sampleProjectsData "write failed" rfl rfl).2⟩

/-! ## Editing and loading line items -/

/-- C18 fails as stated: on an item whose six fields are all defined, as the
loaded items are, setting the quantity to 2 with unit cost 5 leaves the total at
hours times rate, 0, although quantity is defined and quantity times unit cost
is 10. -/
theorem updatedItem_total_counterexample :
    loadedItemWithUnitCost.quantity.isSome = true
      ∧ (updatedItem loadedItemWithUnitCost (.quantity (some 2))).total = some 0
      ∧ jsOr (updatedItem loadedItemWithUnitCost (.quantity (some 2))).quantity 0
          * jsOr (updatedItem loadedItemWithUnitCost (.quantity (some 2))).unitCost 0 = 10 := by
  refine ⟨rfl, ?_, ?_⟩
  · simp [updatedItem, applyEdit, loadedItemWithUnitCost, jsOr]
  · simp [updatedItem, applyEdit, loadedItemWithUnitCost, jsOr]
    norm_num

/-- C18 as amended: after an edit the total of the item is hours times rate when
hours was defined on the item before the edit; otherwise quantity times unit
cost when quantity was defined; otherwise months times monthly cost when months
was defined; each product is taken from the field values after the edit, a
missing value counted as 0. -/
theorem updatedItem_total (item : LineItem) (edit : ItemEdit) :
    (item.hours.isSome = true
        → (updatedItem item edit).total
          = some ((applyEdit item edit).hours.getD 0 * (applyEdit item edit).rate.getD 0))
      ∧ (item.hours = none → item.quantity.isSome = true
        → (updatedItem item edit).total
          = some ((applyEdit item edit).quantity.getD 0
              * (applyEdit item edit).unitCost.getD 0))
      ∧ (item.hours = none → item.quantity = none → item.months.isSome = true
        → (updatedItem item edit).total
          = some ((applyEdit item edit).months.getD 0
              * (applyEdit item edit).monthlyCost.getD 0)) := by
  refine ⟨?_, ?_, ?_⟩
  · intro hh
    simp [updatedItem, hh, jsOr_zero]
  · intro hh hq
    simp [updatedItem, hh, hq, jsOr_zero]
  · intro hh hq hm
    simp [updatedItem, hh, hq, hm, jsOr_zero]

/-- Witness for C18 as amended: a labor item of 10 hours at rate 50 whose hours
are set to 12 has total 600. -/
theorem updatedItem_total_witness :
    laborItem.hours.isSome = true
      ∧ (updatedItem laborItem (.hours (some 12))).total = some 600 := by
  refine ⟨rfl, ?_⟩
  rw [(updatedItem_total laborItem (.hours (some 12))).1 rfl]
  norm_num [applyEdit, laborItem]

theorem groupByCategory_items (P : LineItem → Prop) (entries : List CostEntry)
    (hentries : ∀ e ∈ entries, P (loadedItem e)) :
    ∀ (groups result : List (String × Category)),
      (∀ g ∈ groups, ∀ item ∈ g.2.items, P item)
      → groupByCategory entries groups = .ok result
      → ∀ g ∈ result, ∀ item ∈ g.2.items, P item := by
  induction entries with
  | nil =>
    intro groups result hgroups hrun
    simp only [groupByCategory] at hrun
    injection hrun with hrun
    rw [← hrun]
    exact hgroups
  | cons e es ih =>
    intro groups result hgroups hrun
    simp only [groupByCategory] at hrun
    by_cases hproto : e.category ∈ objectPrototypeKeys
    · simp [hproto] at hrun
    · simp only [hproto, if_false] at hrun
      refine ih (fun x hx => hentries x (List.mem_cons_of_mem _ hx)) _ result ?_ hrun
      intro g hg item hitem
      rw [List.mem_map] at hg
      obtain ⟨g0, hg0, hgeq⟩ := hg
      have hg0P : ∀ item ∈ g0.2.items, P item := by
        by_cases hany : groups.any (fun g => g.1 == e.category) = true
        · rw [if_pos hany] at hg0
          exact hgroups g0 hg0
        · rw [if_neg hany] at hg0
          rw [List.mem_append] at hg0
          rcases hg0 with hold | hnew
          · exact hgroups g0 hold
          · rw [List.mem_singleton] at hnew
            rw [hnew]
            intro item hitem
            simp at hitem
      by_cases hkey : (g0.1 == e.category) = true
      · rw [if_pos hkey] at hgeq
        rw [← hgeq] at hitem
        simp only [List.mem_append, List.mem_singleton] at hitem
        rcases hitem with hold | hnew
        · exact hg0P item hold
        · rw [hnew]
          exact hentries e (List.mem_cons_self _ _)
      · rw [if_neg hkey] at hgeq
        rw [← hgeq] at hitem
        exact hg0P item hitem

theorem objectValues_mem (groups : List (String × Category)) (c : Category)
    (hc : c ∈ objectValues groups) : ∃ g ∈ groups, g.2 = c := by
  unfold objectValues at hc
  rw [List.mem_map] at hc
  obtain ⟨g, hg, hgc⟩ := hc
  refine ⟨g, ?_, hgc⟩
  rw [List.mem_append] at hg
  rcases hg with hsorted | hrest
  · have hperm := List.perm_insertionSort
      (fun a b : String × Category => decimalValue a.1 ≤ decimalValue b.1)
      (groups.filter (fun g => isArrayIndex g.1))
    exact (List.mem_filter.mp (hperm.mem_iff.mp hsorted)).1
  · exact (List.mem_filter.mp hrest).1

theorem loadCostBreakdown_items (entries : List CostEntry) (categories : List Category)
    (hload : loadCostBreakdown (some entries) = .ok categories) :
    ∀ category ∈ categories, ∀ item ∈ category.items,
      ∃ e ∈ entries, item = loadedItem e := by
  unfold loadCostBreakdown at hload
  cases hrun : groupByCategory entries [] with
  | error message => simp [hrun] at hload
  | ok groups =>
    simp only [hrun] at hload
    injection hload with hload
    intro category hcategory item hitem
    rw [← hload] at hcategory
    obtain ⟨g, hg, hgc⟩ := objectValues_mem groups category hcategory
    have hinv := groupByCategory_items (fun i => ∃ e ∈ entries, i = loadedItem e) entries
      (fun e he => ⟨e, he, rfl⟩) [] groups (by intro g hg; cases hg) hrun g hg
    rw [hgc] at hinv
    exact hinv item hitem

theorem groupByCategory_ok (entries : List CostEntry)
    (hkeys : ∀ e ∈ entries, e.category ∉ objectPrototypeKeys) :
    ∀ groups : List (String × Category), ∃ result, groupByCategory entries groups = .ok result := by
  induction entries with
  | nil =>
    intro groups
    exact ⟨groups, rfl⟩
  | cons e es ih =>
    intro groups
    have hproto : e.category ∉ objectPrototypeKeys := hkeys e (List.mem_cons_self _ _)
    simp only [groupByCategory, hproto, if_false]
    exact ih (fun x hx => hkeys x (List.mem_cons_of_mem _ hx)) _

theorem loadCostBreakdown_ok (entries : List CostEntry)
    (hkeys : ∀ e ∈ entries, e.category ∉ objectPrototypeKeys) :
    ∃ categories, loadCostBreakdown (some entries) = .ok categories := by
  obtain ⟨groups, hgroups⟩ := groupByCategory_ok entries hkeys []
  exact ⟨objectValues groups, by simp [loadCostBreakdown, hgroups]⟩

theorem loadCostBreakdown_storedEstimation :
    loadCostBreakdown (some storedEstimation.costBreakdown) = .ok loadedStoredCategories := by
  simp +decide [loadCostBreakdown, groupByCategory, objectValues, storedEstimation, loadedItem,
    jsOr, jsOrStr, objectPrototypeKeys, loadedStoredCategories, isArrayIndex]

/-- C20 fails as stated: the item built for a stored entry of 500 has hours,
rate, quantity, unit cost, months and monthly cost all defined with value 0, so
all three pairs are present and not exactly one, and its total 500 is the
product of none of them. -/
theorem loadCostBreakdown_invariant_counterexample :
    loadCostBreakdown (some storedEstimation.costBreakdown) = .ok loadedStoredCategories
      ∧ loadedStoredCategories.map (fun category =>
          category.items.map (fun item =>
            ((item.hours, item.rate), (item.quantity, item.unitCost),
              (item.months, item.monthlyCost), item.total)))
        = [[((some 0, some 0), (some 0, some 0), (some 0, some 0), some 500)]]
      ∧ (500 : ℚ) ≠ 0 * 0 := by
  refine ⟨loadCostBreakdown_storedEstimation, ?_, by norm_num⟩
  simp [loadedStoredCategories]

/-- C20 as amended: every line item that the editor builds when it loads a stored
estimation has all six fields hours, rate, quantity, unit cost, months and
monthly cost defined with value 0, and takes its total from the stored estimated
cost (0 when missing) and its name from the stored description, or the category
when there is none. -/
theorem loadCostBreakdown_item_shape (entries : List CostEntry) (categories : List Category)
    (hload : loadCostBreakdown (some entries) = .ok categories) :
    ∀ category ∈ categories, ∀ item ∈ category.items,
      item.hours = some 0 ∧ item.rate = some 0
        ∧ item.quantity = some 0 ∧ item.unitCost = some 0
        ∧ item.months = some 0 ∧ item.monthlyCost = some 0
        ∧ ∃ e ∈ entries,
            item.total = some (e.estimatedCost.getD 0)
              ∧ item.name = some (jsOrStr e.description e.category) := by
  intro category hcategory item hitem
  obtain ⟨e, he, hitemEq⟩ := loadCostBreakdown_items entries categories hload category
    hcategory item hitem
  rw [hitemEq]
  refine ⟨?_, ?_, ?_, ?_, ?_, ?_, e, he, ?_, rfl⟩
  all_goals simp [loadedItem, jsOr, jsOr_zero]
  · cases h : e.estimatedCost with
    | none => simp
    | some v =>
      by_cases hv : v = 0
      · simp [hv]
      · simp [hv]

/-- Witness for C20 as amended: loading the stored estimation succeeds and its one
item has hours 0 and total 500. -/
theorem loadCostBreakdown_item_shape_witness :
    loadCostBreakdown (some storedEstimation.costBreakdown) = .ok loadedStoredCategories
      ∧ ∀ category ∈ loadedStoredCategories, ∀ item ∈ category.items,
          item.hours = some 0 ∧ item.rate = some 0
            ∧ item.quantity = some 0 ∧ item.unitCost = some 0
            ∧ item.months = some 0 ∧ item.monthlyCost = some 0
            ∧ ∃ e ∈ storedEstimation.costBreakdown,
                item.total = some (e.estimatedCost.getD 0)
                  ∧ item.name = some (jsOrStr e.description e.category) :=
  ⟨loadCostBreakdown_storedEstimation,
    loadCostBreakdown_item_shape storedEstimation.costBreakdown loadedStoredCategories
      loadCostBreakdown_storedEstimation⟩

/-! ## Counting completed phases -/

theorem filter_completed_length (ps qs : List Phase)
    (hrel : List.Forall₂
      (fun p q : Phase => (p.status = "completed" ↔ q.status = "completed")) ps qs) :
    (ps.filter (fun phase => phase.status == "completed")).length
        = (qs.filter (fun phase => phase.status == "completed")).length
      ∧ ps.length = qs.length := by
  induction hrel with
  | nil => simp
  | @cons p q ps1 qs1 hpq _ ih =>
    refine ⟨?_, by simp [ih.2]⟩
    by_cases hp : p.status = "completed"
    · have hq : q.status = "completed" := hpq.mp hp
      simp [List.filter_cons, hp, hq, ih.1]
    · have hq : ¬ q.status = "completed" := fun h => hp (hpq.mpr h)
      simp [List.filter_cons, hp, hq, ih.1]

/-! ## Ownership checks and the estimations counter -/

theorem putEstimation_cases (userId : String) (found : Option Estimation)
    (body : EstimationBody) :
    (found = none → putEstimation userId found body = .failure 404 "Estimation not found")
      ∧ (∀ e, found = some e → e.userId ≠ userId
          → putEstimation userId found body = .failure 403 "Access denied")
      ∧ (∀ status data, putEstimation userId found body = .success status data
          → ∃ e, found = some e ∧ e.userId = userId) := by
  refine ⟨?_, ?_, ?_⟩
  · intro h
    simp [putEstimation, h]
  · intro e h hne
    simp [putEstimation, h, hne]
  · intro status data h
    cases found with
    | none => simp [putEstimation] at h
    | some e =>
      by_cases hown : e.userId = userId
      · exact ⟨e, rfl, hown⟩
      · simp [putEstimation, hown] at h

/-- C23: an estimation of project p1 is created through the create route, which
sets the counter of p1 to 1, and is then deleted through the delete route, which
leaves the counter at 1 although no estimation of p1 is stored any more. -/
theorem estimations_counter_not_decremented :
    ((postEstimationRoute emptyDb "u1" (.ok ("p1", emptyDb.projects)) "e1" sampleDate
          createBodySite).2.projects.map (fun p => (p.id, p.estimations))
        = [("p1", 1)]
      ∧ (postEstimationRoute emptyDb "u1" (.ok ("p1", emptyDb.projects)) "e1" sampleDate
          createBodySite).2.estimations.map (fun e => (e.id, e.projectId))
        = [("e1", some "p1")])
    ∧ ((deleteEstimationRoute
          (postEstimationRoute emptyDb "u1" (.ok ("p1", emptyDb.projects)) "e1" sampleDate
            createBodySite).2 "u1" "e1").2.projects.map (fun p => (p.id, p.estimations))
        = [("p1", 1)]
      ∧ (deleteEstimationRoute
          (postEstimationRoute emptyDb "u1" (.ok ("p1", emptyDb.projects)) "e1" sampleDate
            createBodySite).2 "u1" "e1").2.estimations.map (fun e => (e.id, e.projectId))
        = []) := by
  have hpost : postEstimation "u1" (.ok "p1") sampleDate createBodySite
      = .success 201
          (preSave { isNew := true, isModified := fun path => path ∈ constructorPaths }
            (newEstimation "u1" "p1" "Site" sampleDate createBodySite)) := by
    simp +decide [postEstimation, createBodySite, validateEstimation, newEstimation,
      transformCostBreakdown, transformResources, jsOr, jsOrStr, estimationStatusEnum,
      riskLevelEnum]
  have hname : jsOrStr createBodySite.projectName "" ≠ "" := by
    simp +decide [jsOrStr, createBodySite]
  simp only [postEstimationRoute, hname, if_false, hpost]
  refine ⟨⟨?_, ?_⟩, ?_, ?_⟩
  · simp +decide [postSave, emptyDb, sampleProject, preSave, newEstimation]
  · simp +decide [emptyDb, preSave, newEstimation]
  · simp +decide [deleteEstimationRoute, findById, postSave, emptyDb, sampleProject, preSave,
      newEstimation]
  · simp +decide [deleteEstimationRoute, findById, postSave, emptyDb, sampleProject, preSave,
      newEstimation]

/-! ## Critical path -/

/-- C24: for the phases A (1 week), B (1 week, after A) and C (10 weeks, after A),
whose dependencies are acyclic, the computed path is A, B with a summed duration
of 2, while the dependency chain A, C has a summed duration of 11. -/
theorem calculateCriticalPath_not_longest :
    calculateCriticalPath 10 forkPhases = some ["A", "B"]
      ∧ criticalPathDuration forkPhases ["A", "B"] = 2
      ∧ (forkPhases.map (fun phase => (phase.name, phase.dependencies)))
        = [("A", []), ("B", ["A"]), ("C", ["A"])]
      ∧ criticalPathDuration forkPhases ["A", "C"] = 11 := by
  refine ⟨?_, ?_, ?_, ?_⟩
  · simp +decide [calculateCriticalPath, criticalPathLoop, forkPhases]
  · simp +decide [criticalPathDuration, forkPhases, jsOr]
    norm_num
  · simp [forkPhases]
  · simp +decide [criticalPathDuration, forkPhases, jsOr]
    norm_num

theorem criticalPathLoop_twoNewPhases (fuel : Nat) (path : List String) :
    criticalPathLoop fuel twoNewPhases
        (some { name := "New Phase", duration := 1, dependencies := ["New Phase"] }) path
      = none := by
  induction fuel generalizing path with
  | zero => rfl
  | succ n ih =>
    have hnext : twoNewPhases.find?
        (fun phase => phase.dependencies.contains
          ({ name := "New Phase", duration := 1, dependencies := ["New Phase"] } : Phase).name)
        = some { name := "New Phase", duration := 1, dependencies := ["New Phase"] } := by
      simp +decide [twoNewPhases]
    simp only [criticalPathLoop, hnext]
    exact ih _

/-- C25: for two phases with the default name New Phase, the second depending on
the first, the loop of `calculateCriticalPath` is still running after any number
of iterations: the second phase is found again each time, and its name is pushed
onto the path each time. -/
theorem calculateCriticalPath_diverges (fuel : Nat) :
    calculateCriticalPath fuel twoNewPhases = none := by
  have hfirst : twoNewPhases.find? (fun phase => phase.dependencies.length == 0)
      = some { name := "New Phase", duration := 1, dependencies := [] } := by
    simp +decide [twoNewPhases]
  have hnext : twoNewPhases.find?
      (fun phase => phase.dependencies.contains
        ({ name := "New Phase", duration := 1, dependencies := [] } : Phase).name)
      = some { name := "New Phase", duration := 1, dependencies := ["New Phase"] } := by
    simp +decide [twoNewPhases]
  unfold calculateCriticalPath
  rw [hfirst]
  cases fuel with
  | zero => rfl
  | succ n =>
    simp only [criticalPathLoop, hnext]
    exact criticalPathLoop_twoNewPhases n _

theorem criticalPathLoop_more_fuel (fuel : Nat) (phases : List Phase)
    (currentPhase : Option Phase) (path result : List String)
    (h : criticalPathLoop fuel phases currentPhase path = some result) :
    criticalPathLoop (fuel + 1) phases currentPhase path = some result := by
  induction fuel generalizing currentPhase path with
  | zero =>
    cases currentPhase with
    | none => simpa [criticalPathLoop] using h
    | some c => simp [criticalPathLoop] at h
  | succ n ih =>
    cases currentPhase with
    | none => simpa [criticalPathLoop] using h
    | some c =>
      simp only [criticalPathLoop] at h ⊢
      exact ih _ _ h

/-! ## Frame of an edit, active projects, export headers, deleting a category -/

/-- C26: in the breakdown loaded from the stored estimation, whose one item has a
total of 500, editing the name of the item sets its total to 0, so that the
category total and the subtotal go from 500 to 0. -/
theorem updateItem_name_changes_total :
    loadedStoredCategories.map (fun category => category.items.map (fun item => item.total))
        = [[some 500]]
      ∧ (updateItem loadedStoredCategories (some 1) none (.name (some "Design"))).map
          (fun category => category.items.map (fun item => (item.name, item.total)))
        = [[(some "Design", some 0)]]
      ∧ loadedStoredCategories.map getCategoryTotal = [500]
      ∧ (updateItem loadedStoredCategories (some 1) none (.name (some "Design"))).map
          getCategoryTotal = [0]
      ∧ (calculateTotals loadedStoredCategories 10).totalCost = 500
      ∧ (calculateTotals
          (updateItem loadedStoredCategories (some 1) none (.name (some "Design"))) 10).totalCost
        = 0 := by
  refine ⟨?_, ?_, ?_, ?_, ?_, ?_⟩
  · simp [loadedStoredCategories]
  · simp [updateItem, updatedItem, applyEdit, loadedStoredCategories, jsOr]
  · simp [loadedStoredCategories, getCategoryTotal, jsOr]
  · simp [updateItem, updatedItem, applyEdit, loadedStoredCategories, getCategoryTotal, jsOr]
  · simp [calculateTotals, loadedStoredCategories, jsOr]
  · simp [calculateTotals, updateItem, updatedItem, applyEdit, loadedStoredCategories, jsOr]

/-- C28: for a single project whose status is planning the dashboard statistics
count one active project and the overview report counts none. -/
theorem activeProjects_differ :
    (getStats oneProjectPlanning []).activeProjects = 1
      ∧ (calculateOverviewReport oneProjectPlanning [] [] sampleDate sampleDate).activeProjects
        = 0 := by
  constructor
  · simp +decide [getStats, oneProjectPlanning]
  · simp +decide [calculateOverviewReport, oneProjectPlanning]

/-- C29: when the spreadsheet library throws, and likewise when it failed to
load, the export route answers an excel request with the spreadsheet content
type and a file name ending in .xlsx while the body is the bytes of the CSV
text. -/
theorem exportReport_excel_fallback_headers :
    exportReport failingXlsxEnv (some "excel") true "projects" "30days" sampleProjectsData
        = .file "application/vnd.openxmlformats-officedocument.spreadsheetml.sheet"
            "report-projects-2024-01-02.xlsx"
            (.buffer
              (generateCSVReport failingXlsxEnv.numStr failingXlsxEnv.now "projects" "30days"
                sampleProjectsData).toUTF8.toList)
      ∧ exportReport missingXlsxEnv (some "excel") true "projects" "30days" sampleProjectsData
        = .file "application/vnd.openxmlformats-officedocument.spreadsheetml.sheet"
            "report-projects-2024-01-02.xlsx"
            (.buffer
              (generateCSVReport missingXlsxEnv.numStr missingXlsxEnv.now "projects" "30days"
                sampleProjectsData).toUTF8.toList) := by
  constructor
  · simp +decide [exportReport, generateExcelReport, failingXlsxEnv, toBuffer]
  · simp +decide [exportReport, generateExcelReport, missingXlsxEnv, toBuffer]

/-- C30: with the categories 1 and 2 and category 1 active, deleting category 1
leaves the breakdown with category 2 only while the active category is still 1,
which no category of the breakdown has, so that no active category is found. -/
theorem deleteCategory_active_dangling :
    (deleteCategory twoCategoriesFirstActive (some 1)).costBreakdown.map (fun cat => cat.id)
        = [some 2]
      ∧ (deleteCategory twoCategoriesFirstActive (some 1)).activeCategory = some (some 1)
      ∧ (activeCategoryData (deleteCategory twoCategoriesFirstActive (some 1))).isNone = true := by
  refine ⟨?_, ?_, ?_⟩
  · simp +decide [deleteCategory, twoCategoriesFirstActive]
  · simp +decide [deleteCategory, twoCategoriesFirstActive]
  · simp +decide [deleteCategory, activeCategoryData, twoCategoriesFirstActive]

/-! ## Round trip of the cost breakdown -/

theorem sum_map_filter {α : Type} (p : α → Bool) (f : α → ℚ) (l : List α) :
    ((l.filter p).map f).sum = (l.map (fun x => if p x then f x else 0)).sum := by
  induction l with
  | nil => simp
  | cons x xs ih =>
    by_cases hp : p x = true
    · simp [List.filter_cons, hp, ih]
    · simp [List.filter_cons, hp, ih]

theorem objectValues_perm (groups : List (String × Category)) :
    ∃ l : List (String × Category), l.Perm groups ∧ objectValues groups = l.map (fun g => g.2) := by
  refine ⟨(groups.filter (fun g => isArrayIndex g.1)).insertionSort
      (fun a b => decimalValue a.1 ≤ decimalValue b.1)
    ++ groups.filter (fun g => !isArrayIndex g.1), ?_, rfl⟩
  have h1 := List.perm_insertionSort
    (fun a b : String × Category => decimalValue a.1 ≤ decimalValue b.1)
    (groups.filter (fun g => isArrayIndex g.1))
  have h2 := List.filter_append_perm (fun g : String × Category => isArrayIndex g.1) groups
  exact (h1.append_right _).trans h2

theorem objectValues_sum (groups : List (String × Category)) (h : Category → ℚ) :
    ((objectValues groups).map h).sum = (groups.map (fun g => h g.2)).sum := by
  obtain ⟨l, hperm, hl⟩ := objectValues_perm groups
  rw [hl, List.map_map]
  exact (hperm.map _).sum_eq

theorem transformCostBreakdown_eq_bind (cb : List ReqCategory) :
    transformCostBreakdown (some cb)
      = cb.flatMap (fun category =>
          (category.items.getD []).map (fun item =>
            ({ category := jsOrStr category.category "Uncategorized"
               estimatedCost := some (jsOr item.total 0)
               actualCost := some 0
               description := some (jsOrStr item.name "") } : CostEntry))) := by
  have key : ∀ (l : List ReqCategory) (acc : List CostEntry),
      l.foldl
          (fun acc category =>
            match category.items with
            | none => acc
            | some items =>
              items.foldl
                (fun acc item =>
                  acc ++ [{ category := jsOrStr category.category "Uncategorized"
                            estimatedCost := some (jsOr item.total 0)
                            actualCost := some 0
                            description := some (jsOrStr item.name "") }])
                acc)
          acc
        = acc ++ l.flatMap (fun category =>
            (category.items.getD []).map (fun item =>
              ({ category := jsOrStr category.category "Uncategorized"
                 estimatedCost := some (jsOr item.total 0)
                 actualCost := some 0
                 description := some (jsOrStr item.name "") } : CostEntry))) := by
    intro l
    induction l with
    | nil => intro acc; simp
    | cons c cs ih =>
      intro acc
      simp only [List.foldl_cons, List.flatMap_cons]
      rw [ih]
      cases hitems : c.items with
      | none => simp [hitems]
      | some items =>
        simp only [hitems, Option.getD_some]
        rw [foldl_append_singleton (fun item : LineItem =>
          ({ category := jsOrStr c.category "Uncategorized"
             estimatedCost := some (jsOr item.total 0)
             actualCost := some 0
             description := some (jsOrStr item.name "") } : CostEntry))]
        simp
  simp only [transformCostBreakdown]
  rw [key]
  simp

theorem flattened_sum_by_name (cb : List ReqCategory) (name : String) :
    (((transformCostBreakdown (some cb)).filter (fun e => e.category == name)).map
        (fun e => e.estimatedCost.getD 0)).sum
      = ((cb.filter (fun c => jsOrStr c.category "Uncategorized" == name)).map
          (fun c => ((c.items.getD []).map (fun item => item.total.getD 0)).sum)).sum := by
  rw [transformCostBreakdown_eq_bind]
  induction cb with
  | nil => simp
  | cons c cs ih =>
    simp only [List.flatMap_cons, List.filter_append, List.map_append, List.sum_append, ih]
    by_cases hname : (jsOrStr c.category "Uncategorized" == name) = true
    · simp [List.filter_cons, hname, List.filter_map, Function.comp_def, jsOr_zero]
    · simp [List.filter_cons, hname, List.filter_map, Function.comp_def]

theorem getCategoryTotal_push (c : Category) (item : LineItem) :
    getCategoryTotal { c with items := c.items ++ [item] }
      = getCategoryTotal c + item.total.getD 0 := by
  simp [getCategoryTotal_eq_sum]

theorem map_push_filter_sum (gs : List (String × Category)) (cat : String) (item : LineItem)
    (p : String → Bool) :
    (((gs.map (fun g =>
          if g.1 == cat then (g.1, { g.2 with items := g.2.items ++ [item] }) else g)).filter
        (fun g => p g.1)).map (fun g => getCategoryTotal g.2)).sum
      = ((gs.filter (fun g => p g.1)).map (fun g => getCategoryTotal g.2)).sum
        + (if p cat then ((gs.filter (fun g => g.1 == cat)).length : ℚ) * item.total.getD 0
           else 0) := by
  induction gs with
  | nil => simp
  | cons g rest ih =>
    simp only [List.map_cons, List.filter_cons, beq_iff_eq] at ih ⊢
    by_cases hcat : g.1 = cat
    · by_cases hp : p cat = true
      · have hpg : p g.1 = true := by rw [hcat]; exact hp
        simp only [hp, if_true] at ih
        simp only [hcat, hp, if_true, List.map_cons, List.sum_cons, List.length_cons,
          getCategoryTotal_push]
        push_cast
        linarith [ih]
      · simp only [hp] at ih
        simp only [hcat, hp, if_true]
        simpa using ih
    · by_cases hp : p cat = true
      · simp only [hp, if_true] at ih
        simp only [hcat, hp, if_true, if_false]
        by_cases hpg : p g.1 = true
        · simp only [hpg, if_true, List.map_cons, List.sum_cons]
          linarith [ih]
        · simp only [hpg]
          simpa using ih
      · simp only [hp] at ih
        simp only [hcat, hp, if_false]
        by_cases hpg : p g.1 = true
        · simp only [hpg, if_true, List.map_cons, List.sum_cons]
          simp at ih
          simp [ih]
        · simp only [hpg]
          simpa using ih

theorem map_push_filter_length (gs : List (String × Category)) (cat : String) (item : LineItem)
    (k : String) :
    ((gs.map (fun g =>
          if g.1 == cat then (g.1, { g.2 with items := g.2.items ++ [item] }) else g)).filter
        (fun g => g.1 == k)).length
      = (gs.filter (fun g => g.1 == k)).length := by
  rw [← List.countP_eq_length_filter, ← List.countP_eq_length_filter, List.countP_map]
  congr 1
  funext g
  simp only [Function.comp]
  split <;> rfl

theorem map_push_category (gs : List (String × Category)) (cat : String) (item : LineItem)
    (hkeys : ∀ g ∈ gs, g.2.category = some g.1) :
    ∀ g ∈ gs.map (fun g =>
        if g.1 == cat then (g.1, { g.2 with items := g.2.items ++ [item] }) else g),
      g.2.category = some g.1 := by
  intro g hg
  rw [List.mem_map] at hg
  obtain ⟨g0, hg0, hgeq⟩ := hg
  by_cases hcat : (g0.1 == cat) = true
  · rw [if_pos hcat] at hgeq
    rw [← hgeq]
    exact hkeys g0 hg0
  · rw [if_neg hcat] at hgeq
    rw [← hgeq]
    exact hkeys g0 hg0

theorem ensure_group (gs : List (String × Category)) (cat : String) (id : Option Nat)
    (hkeys : ∀ g ∈ gs, g.2.category = some g.1)
    (hcount : ∀ k, (gs.filter (fun g => g.1 == k)).length ≤ 1) :
    (∀ g ∈ (if gs.any (fun g => g.1 == cat) then gs
          else gs ++ [(cat, { id := id, category := some cat, items := [] })]),
        g.2.category = some g.1)
      ∧ (∀ k, ((if gs.any (fun g => g.1 == cat) then gs
          else gs ++ [(cat, { id := id, category := some cat, items := [] })]).filter
            (fun g => g.1 == k)).length ≤ 1)
      ∧ ((if gs.any (fun g => g.1 == cat) then gs
          else gs ++ [(cat, { id := id, category := some cat, items := [] })]).filter
            (fun g => g.1 == cat)).length = 1
      ∧ (∀ p : String → Bool, (((if gs.any (fun g => g.1 == cat) then gs
          else gs ++ [(cat, { id := id, category := some cat, items := [] })]).filter
            (fun g => p g.1)).map (fun g => getCategoryTotal g.2)).sum
          = ((gs.filter (fun g => p g.1)).map (fun g => getCategoryTotal g.2)).sum) := by
  by_cases hany : gs.any (fun g => g.1 == cat) = true
  · simp only [hany, if_true]
    refine ⟨hkeys, hcount, ?_, fun _ => trivial⟩
    have hle := hcount cat
    have hpos : 0 < (gs.filter (fun g => g.1 == cat)).length := by
      rw [List.length_pos]
      rw [List.any_eq_true] at hany
      obtain ⟨g, hg, hgc⟩ := hany
      exact List.ne_nil_of_mem (List.mem_filter.mpr ⟨hg, hgc⟩)
    omega
  · simp only [hany]
    have hnone : gs.filter (fun g => g.1 == cat) = [] := by
      rw [List.filter_eq_nil_iff]
      intro g hg hgc
      exact hany (List.any_eq_true.mpr ⟨g, hg, hgc⟩)
    refine ⟨?_, ?_, ?_, ?_⟩
    · intro g hg
      simp only [Bool.false_eq_true, if_false, List.mem_append, List.mem_singleton] at hg
      rcases hg with hold | hnew
      · exact hkeys g hold
      · rw [hnew]
    · intro k
      simp only [Bool.false_eq_true, if_false, List.filter_append, List.length_append]
      by_cases hk : cat = k
      · rw [← hk, hnone]
        simp
      · have hne : ¬ ((cat == k) = true) := by simpa using hk
        simp only [List.filter_cons, hne, if_false, List.filter_nil, List.length_nil, add_zero]
        exact hcount k
    · simp [List.filter_append, hnone]
    · intro p
      simp only [Bool.false_eq_true, if_false, List.filter_append, List.map_append,
        List.sum_append]
      by_cases hp : p cat = true
      · simp [List.filter_cons, hp, getCategoryTotal]
      · simp [List.filter_cons, hp]

theorem groupByCategory_sums (entries : List CostEntry) :
    ∀ (groups result : List (String × Category)),
      (∀ g ∈ groups, g.2.category = some g.1)
      → (∀ k, (groups.filter (fun g => g.1 == k)).length ≤ 1)
      → groupByCategory entries groups = .ok result
      → (∀ g ∈ result, g.2.category = some g.1)
        ∧ (∀ k, (result.filter (fun g => g.1 == k)).length ≤ 1)
        ∧ (∀ p : String → Bool,
            ((result.filter (fun g => p g.1)).map (fun g => getCategoryTotal g.2)).sum
              = ((groups.filter (fun g => p g.1)).map (fun g => getCategoryTotal g.2)).sum
                + ((entries.filter (fun e => p e.category)).map
                    (fun e => e.estimatedCost.getD 0)).sum) := by
  induction entries with
  | nil =>
    intro groups result hkeys hcount hrun
    simp only [groupByCategory] at hrun
    injection hrun with hrun
    rw [← hrun]
    exact ⟨hkeys, hcount, by simp⟩
  | cons e es ih =>
    intro groups result hkeys hcount hrun
    simp only [groupByCategory] at hrun
    by_cases hproto : e.category ∈ objectPrototypeKeys
    · simp [hproto] at hrun
    · simp only [hproto, if_false] at hrun
      have hens := ensure_group groups e.category (some (groups.length + 1)) hkeys hcount
      have hres := ih _ result
        (map_push_category _ e.category (loadedItem e) hens.1)
        (fun k => by
          rw [map_push_filter_length]
          exact hens.2.1 k)
        hrun
      refine ⟨hres.1, hres.2.1, ?_⟩
      intro p
      rw [hres.2.2 p, map_push_filter_sum, hens.2.2.2 p, hens.2.2.1]
      have hv : (loadedItem e).total.getD 0 = e.estimatedCost.getD 0 := by
        simp [loadedItem, jsOr_zero]
      by_cases hp : p e.category = true
      · simp only [hp, if_true, List.filter_cons, List.map_cons, List.sum_cons, hv]
        push_cast
        ring
      · simp only [hp, List.filter_cons]
        simp

theorem deleteCategory_single (state : EditorState) (categoryId : Option Nat)
    (h : state.costBreakdown.length ≤ 1) : deleteCategory state categoryId = state := by
  have hnot : ¬ state.costBreakdown.length > 1 := by omega
  simp [deleteCategory, hnot]

/-- C27 fails as stated: a submitted category with an empty name (total 5) and a
category named Uncategorized (total 7) are stored under the same name, so the
regrouped category Uncategorized has total 12 while the submitted categories of
that name have total 7. -/
theorem roundTrip_per_name_counterexample :
    (loadCostBreakdown (some (transformCostBreakdown (some unnamedAndUncategorized)))).toOption.map
        (fun categories =>
          categories.map (fun category => (category.category, getCategoryTotal category)))
      = some [(some "Uncategorized", 12)]
    ∧ ((unnamedAndUncategorized.filter (fun c => c.category == some "Uncategorized")).map
        (fun c => ((c.items.getD []).map (fun item => item.total.getD 0)).sum)).sum = 7 := by
  constructor
  · simp +decide [loadCostBreakdown, transformCostBreakdown, unnamedAndUncategorized,
      groupByCategory, objectValues, loadedItem, jsOr, jsOrStr, objectPrototypeKeys,
      isArrayIndex, Except.toOption, getCategoryTotal]
    norm_num
  · simp +decide [unnamedAndUncategorized]

theorem transformCostBreakdown_category (submitted : List ReqCategory) :
    ∀ e ∈ transformCostBreakdown (some submitted),
      ∃ c ∈ submitted, e.category = jsOrStr c.category "Uncategorized" := by
  intro e he
  rw [transformCostBreakdown_eq_bind, List.mem_flatMap] at he
  obtain ⟨c, hc, hmem⟩ := he
  rw [List.mem_map] at hmem
  obtain ⟨item, _, hitem⟩ := hmem
  exact ⟨c, hc, by rw [← hitem]⟩

theorem loadCostBreakdown_constructor_throws :
    loadCostBreakdown (some (transformCostBreakdown (some
        [{ category := some "constructor", items := some [{ total := some 5 }] }])))
      = .error "TypeError: Cannot read properties of undefined" := by
  simp +decide [loadCostBreakdown, transformCostBreakdown, groupByCategory, jsOr, jsOrStr,
    objectPrototypeKeys]

/-- C27 as amended: when no submitted category is stored under a name inherited
from Object.prototype, the load returns a breakdown in which the sum of all item
totals equals the sum before flattening, the regrouped categories have distinct
names, and for every name the total of the regrouped category of that name
equals the combined total of the submitted categories stored under that name,
which is the category name, or Uncategorized when the name is missing or
empty. -/
theorem roundTrip_preserves_totals (submitted : List ReqCategory)
    (hnames : ∀ c ∈ submitted, jsOrStr c.category "Uncategorized" ∉ objectPrototypeKeys) :
    ∃ loaded : List Category,
      loadCostBreakdown (some (transformCostBreakdown (some submitted))) = .ok loaded
      ∧ (loaded.map getCategoryTotal).sum
        = (submitted.map (fun c =>
            ((c.items.getD []).map (fun item => item.total.getD 0)).sum)).sum
      ∧ (∀ name : String,
          ((loaded.filter (fun c => c.category == some name)).map getCategoryTotal).sum
            = ((submitted.filter (fun c => jsOrStr c.category "Uncategorized" == name)).map
                (fun c => ((c.items.getD []).map (fun item => item.total.getD 0)).sum)).sum)
      ∧ (∀ name : String, (loaded.filter (fun c => c.category == some name)).length ≤ 1) := by
  have hkeys : ∀ e ∈ transformCostBreakdown (some submitted),
      e.category ∉ objectPrototypeKeys := by
    intro e he
    obtain ⟨c, hc, hcat⟩ := transformCostBreakdown_category submitted e he
    rw [hcat]
    exact hnames c hc
  obtain ⟨loaded, hload⟩ := loadCostBreakdown_ok _ hkeys
  refine ⟨loaded, hload, ?_⟩
  unfold loadCostBreakdown at hload
  cases hrun : groupByCategory (transformCostBreakdown (some submitted)) [] with
  | error message => simp [hrun] at hload
  | ok groups =>
    simp only [hrun] at hload
    injection hload with hload
    have hs := groupByCategory_sums (transformCostBreakdown (some submitted)) [] groups
      (by intro g hg; cases hg) (by intro k; simp) hrun
    have hkeyEq : ∀ (name : String), ∀ g ∈ groups,
        (g.2.category == some name) = (g.1 == name) := by
      intro name g hg
      rw [hs.1 g hg]
      by_cases h : g.1 = name
      · simp [h]
      · simp [h]
    refine ⟨?_, ?_, ?_⟩
    · rw [← hload, objectValues_sum groups getCategoryTotal]
      have h := hs.2.2 (fun _ => true)
      simp only [List.filter_true, List.filter_nil, List.map_nil, List.sum_nil, zero_add] at h
      rw [h, transformCostBreakdown_costs]
      simp
    · intro name
      rw [sum_map_filter, ← hload,
        objectValues_sum groups
          (fun c => if (c.category == some name) = true then getCategoryTotal c else 0)]
      have hcongr : groups.map (fun g =>
            if (g.2.category == some name) = true then getCategoryTotal g.2 else 0)
          = groups.map (fun g => if (g.1 == name) = true then getCategoryTotal g.2 else 0) := by
        apply List.map_congr_left
        intro g hg
        rw [hkeyEq name g hg]
      rw [hcongr, ← sum_map_filter (fun g : String × Category => g.1 == name)
        (fun g => getCategoryTotal g.2)]
      have h := hs.2.2 (fun k => k == name)
      simp only [List.filter_nil, List.map_nil, List.sum_nil, zero_add] at h
      rw [h, flattened_sum_by_name]
    · intro name
      obtain ⟨l, hperm, hl⟩ := objectValues_perm groups
      rw [← hload, hl, ← List.countP_eq_length_filter, List.countP_map]
      rw [hperm.countP_eq]
      have hcount : groups.countP ((fun c : Category => c.category == some name) ∘
            fun g : String × Category => g.2)
          = groups.countP (fun g => g.1 == name) := by
        apply List.countP_congr
        intro g hg
        simp only [Function.comp]
        rw [hkeyEq name g hg]
      rw [hcount, List.countP_eq_length_filter]
      exact hs.2.1 name

/-- Witness for C27 as amended: the breakdown with an unnamed category and a
category named Uncategorized uses no inherited name, so it loads, and the loaded
breakdown keeps the submitted money. -/
theorem roundTrip_preserves_totals_witness :
    (∀ c ∈ unnamedAndUncategorized,
        jsOrStr c.category "Uncategorized" ∉ objectPrototypeKeys)
      ∧ ∃ loaded : List Category,
        loadCostBreakdown (some (transformCostBreakdown (some unnamedAndUncategorized)))
            = .ok loaded
        ∧ (loaded.map getCategoryTotal).sum
          = (unnamedAndUncategorized.map (fun c =>
              ((c.items.getD []).map (fun item => item.total.getD 0)).sum)).sum
        ∧ (∀ name : String,
            ((loaded.filter (fun c => c.category == some name)).map getCategoryTotal).sum
              = ((unnamedAndUncategorized.filter
                    (fun c => jsOrStr c.category "Uncategorized" == name)).map
                  (fun c => ((c.items.getD []).map (fun item => item.total.getD 0)).sum)).sum)
        ∧ (∀ name : String,
            (loaded.filter (fun c => c.category == some name)).length ≤ 1) :=
  ⟨by simp +decide [unnamedAndUncategorized, jsOrStr, objectPrototypeKeys],
   roundTrip_preserves_totals unnamedAndUncategorized
     (by simp +decide [unnamedAndUncategorized, jsOrStr, objectPrototypeKeys])⟩

/-! ## Rounding to doubles -/

theorem roundHalfEven_intCast (n : ℤ) : roundHalfEven (n : ℚ) = n := by
  simp [roundHalfEven]

theorem roundHalfEven_sub_le (x : ℚ) : |(roundHalfEven x : ℚ) - x| ≤ 1 / 2 := by
  have h1 := Int.floor_le x
  have h2 := Int.lt_floor_add_one x
  unfold roundHalfEven
  split_ifs with ha hb hc
  · rw [abs_le]; constructor <;> linarith
  · rw [abs_le]; push_cast; constructor <;> linarith
  · rw [abs_le]; constructor <;> linarith
  · rw [abs_le]; push_cast; constructor <;> linarith

theorem roundHalfEven_of_abs_lt (x : ℚ) (m : ℤ) (h : |x - m| < 1 / 2) :
    roundHalfEven x = m := by
  rw [abs_lt] at h
  obtain ⟨hlo, hhi⟩ := h
  by_cases hx : (m : ℚ) ≤ x
  · have hf : ⌊x⌋ = m := by
      rw [Int.floor_eq_iff]; constructor <;> linarith
    have : x - (m : ℚ) < 1 / 2 := by linarith
    simp only [roundHalfEven, hf]
    rw [if_pos this]
  · push_neg at hx
    have hf : ⌊x⌋ = m - 1 := by
      rw [Int.floor_eq_iff]; push_cast; constructor <;> linarith
    have h1 : ¬ (x - ((m : ℚ) - 1) < 1 / 2) := by linarith
    have h2 : 1 / 2 < x - ((m : ℚ) - 1) := by linarith
    simp only [roundHalfEven, hf]
    push_cast
    rw [if_neg h1, if_pos h2]
    ring

theorem roundHalfEven_tie (m : ℤ) :
    roundHalfEven ((m : ℚ) + 1 / 2) = if m % 2 = 0 then m else m + 1 := by
  have hf : ⌊(m : ℚ) + 1 / 2⌋ = m := by
    rw [Int.floor_eq_iff]; constructor <;> linarith
  have h1 : ¬ ((m : ℚ) + 1 / 2 - (m : ℚ) < 1 / 2) := by simp
  have h2 : ¬ ((1 : ℚ) / 2 < (m : ℚ) + 1 / 2 - (m : ℚ)) := by simp
  simp only [roundHalfEven, hf]
  rw [if_neg h1, if_neg h2]

theorem log_two_eq (x : ℚ) (e : ℤ) (h1 : (2 : ℚ) ^ e ≤ x) (h2 : x < 2 ^ (e + 1)) :
    Int.log 2 x = e := by
  have hx : 0 < x := lt_of_lt_of_le (by positivity) h1
  have ha : e ≤ Int.log 2 x := by
    rw [← Int.zpow_le_iff_le_log (by norm_num) hx]
    simpa using h1
  have hb : Int.log 2 x < e + 1 := by
    rw [← Int.lt_zpow_iff_log_lt (by norm_num) hx]
    simpa using h2
  omega

theorem ulpExponent_eq (x : ℚ) (k : ℤ) (hk : -1074 ≤ k)
    (h1 : (2 : ℚ) ^ (k + 52) ≤ |x|) (h2 : |x| < 2 ^ (k + 53)) : ulpExponent x = k := by
  have h := log_two_eq |x| (k + 52) h1 (by simpa [add_assoc] using h2)
  unfold ulpExponent
  rw [h]
  omega

theorem toDouble_zero : toDouble 0 = 0 := by
  simp [toDouble, roundHalfEven]

theorem toDouble_eval (x : ℚ) (k m : ℤ) (hk : -1074 ≤ k)
    (h1 : (2 : ℚ) ^ (k + 52) ≤ |x|) (h2 : |x| < 2 ^ (k + 53))
    (hm : roundHalfEven (x / 2 ^ k) = m) : toDouble x = m * 2 ^ k := by
  unfold toDouble
  rw [ulpExponent_eq x k hk h1 h2, hm]

theorem toDouble_sub_le (x : ℚ) (hx : (2 : ℚ) ^ (-1022 : ℤ) ≤ |x|) :
    |toDouble x - x| ≤ |x| * 2 ^ (-53 : ℤ) := by
  have hxpos : 0 < |x| := lt_of_lt_of_le (by positivity) hx
  have hL : (2 : ℚ) ^ Int.log 2 |x| ≤ |x| := by
    simpa using Int.zpow_log_le_self (b := 2) (by norm_num) hxpos
  have hLge : (-1022 : ℤ) ≤ Int.log 2 |x| := by
    rw [← Int.zpow_le_iff_le_log (by norm_num) hxpos]
    simpa using hx
  have hk : ulpExponent x = Int.log 2 |x| - 52 := by
    unfold ulpExponent
    rw [max_eq_left hLge]
  have hpos : (0 : ℚ) < 2 ^ (Int.log 2 |x| - 52) := by positivity
  have hsplit : (2 : ℚ) ^ (Int.log 2 |x| - 52) = 2 ^ Int.log 2 |x| * 2 ^ (-52 : ℤ) := by
    rw [← zpow_add₀ (by norm_num : (2 : ℚ) ≠ 0)]
    congr 1
  have hrw : toDouble x - x
      = ((roundHalfEven (x / 2 ^ (Int.log 2 |x| - 52)) : ℚ) - x / 2 ^ (Int.log 2 |x| - 52))
        * 2 ^ (Int.log 2 |x| - 52) := by
    unfold toDouble
    rw [hk]
    field_simp
  rw [hrw, abs_mul, abs_of_pos hpos]
  have herr := roundHalfEven_sub_le (x / 2 ^ (Int.log 2 |x| - 52))
  have h1 : |(roundHalfEven (x / 2 ^ (Int.log 2 |x| - 52)) : ℚ) - x / 2 ^ (Int.log 2 |x| - 52)|
      * 2 ^ (Int.log 2 |x| - 52) ≤ 1 / 2 * 2 ^ (Int.log 2 |x| - 52) :=
    mul_le_mul_of_nonneg_right herr hpos.le
  have h2 : (1 : ℚ) / 2 * 2 ^ (Int.log 2 |x| - 52) = 2 ^ Int.log 2 |x| * 2 ^ (-53 : ℤ) := by
    rw [hsplit]
    norm_num
    ring
  have h3 : (2 : ℚ) ^ Int.log 2 |x| * 2 ^ (-53 : ℤ) ≤ |x| * 2 ^ (-53 : ℤ) :=
    mul_le_mul_of_nonneg_right hL (by positivity)
  linarith

theorem toDouble_representable (m k : ℤ) (hm : |m| ≤ 2 ^ 53) (hk : -1074 ≤ k) :
    toDouble ((m : ℚ) * 2 ^ k) = (m : ℚ) * 2 ^ k := by
  by_cases hm0 : m = 0
  · simp [hm0, toDouble_zero]
  have h2k : (0 : ℚ) < 2 ^ k := by positivity
  have h53 : (2 : ℚ) ^ (53 : ℤ) = 2 ^ (53 : ℕ) := by norm_num
  have habs : |(m : ℚ) * 2 ^ k| = |(m : ℚ)| * 2 ^ k := by
    rw [abs_mul, abs_of_pos h2k]
  have hmpos : (0 : ℚ) < |(m : ℚ)| := by
    rw [abs_pos]
    exact_mod_cast hm0
  have hxpos : 0 < |(m : ℚ) * 2 ^ k| := by
    rw [habs]; positivity
  have hmQ : |(m : ℚ)| ≤ 2 ^ (53 : ℤ) := by
    have : ((|m| : ℤ) : ℚ) ≤ ((2 ^ 53 : ℤ) : ℚ) := by exact_mod_cast hm
    rw [h53]
    simpa using this
  have hL1 : (2 : ℚ) ^ Int.log 2 |(m : ℚ) * 2 ^ k| ≤ |(m : ℚ) * 2 ^ k| := by
    simpa using Int.zpow_log_le_self (b := 2) (by norm_num) hxpos
  have hup : |(m : ℚ) * 2 ^ k| ≤ 2 ^ (53 + k) := by
    rw [habs, zpow_add₀ (by norm_num : (2 : ℚ) ≠ 0)]
    exact mul_le_mul_of_nonneg_right hmQ h2k.le
  have hLle : Int.log 2 |(m : ℚ) * 2 ^ k| ≤ 53 + k := by
    by_contra hcon
    push_neg at hcon
    have : (2 : ℚ) ^ (53 + k + 1) ≤ |(m : ℚ) * 2 ^ k| := by
      have := (Int.zpow_le_iff_le_log (b := 2) (by norm_num) hxpos (x := 53 + k + 1)).mpr
        (by omega)
      simpa using this
    have hlt : (2 : ℚ) ^ (53 + k) < 2 ^ (53 + k + 1) := by
      rw [zpow_add_one₀ (by norm_num : (2 : ℚ) ≠ 0)]
      have : (0 : ℚ) < 2 ^ (53 + k) := by positivity
      linarith
    linarith
  have htd : toDouble ((m : ℚ) * 2 ^ k)
      = (roundHalfEven ((m : ℚ) * 2 ^ k / 2 ^ ulpExponent ((m : ℚ) * 2 ^ k)) : ℚ)
        * 2 ^ ulpExponent ((m : ℚ) * 2 ^ k) := rfl
  have hjdef : ulpExponent ((m : ℚ) * 2 ^ k)
      = max (Int.log 2 |(m : ℚ) * 2 ^ k|) (-1022) - 52 := rfl
  generalize ulpExponent ((m : ℚ) * 2 ^ k) = j at htd hjdef
  rw [htd]
  by_cases hcase : Int.log 2 |(m : ℚ) * 2 ^ k| ≤ 52 + k
  · have hj : j ≤ k := by omega
    obtain ⟨d, hd⟩ : ∃ d : ℕ, k = j + d := ⟨(k - j).toNat, by omega⟩
    have hpow : (2 : ℚ) ^ k = 2 ^ j * 2 ^ d := by
      rw [hd, zpow_add₀ (by norm_num : (2 : ℚ) ≠ 0), zpow_natCast]
    have hdiv : (m : ℚ) * 2 ^ k / 2 ^ j = ((m * 2 ^ d : ℤ) : ℚ) := by
      rw [hpow]
      push_cast
      field_simp
      ring
    rw [hdiv, roundHalfEven_intCast, hpow]
    push_cast
    ring
  · have hLeq : Int.log 2 |(m : ℚ) * 2 ^ k| = 53 + k := by omega
    have hge : (2 : ℚ) ^ (53 + k) ≤ |(m : ℚ)| * 2 ^ k := by
      rw [← habs, ← hLeq]
      exact hL1
    have hm53 : (2 : ℚ) ^ (53 : ℤ) ≤ |(m : ℚ)| := by
      rw [zpow_add₀ (by norm_num : (2 : ℚ) ≠ 0)] at hge
      exact le_of_mul_le_mul_right hge h2k
    have hmabs : |m| = 2 ^ 53 := by
      have : ((2 ^ 53 : ℤ) : ℚ) ≤ ((|m| : ℤ) : ℚ) := by
        rw [h53] at hm53
        push_cast
        norm_num at hm53 ⊢
        exact hm53
      have : (2 ^ 53 : ℤ) ≤ |m| := by exact_mod_cast this
      omega
    have hj : j = k + 1 := by omega
    obtain ⟨n, hn⟩ : ∃ n : ℤ, m = 2 * n := by
      rcases abs_eq (by norm_num : (0 : ℤ) ≤ 2 ^ 53) |>.mp hmabs with h | h
      · exact ⟨2 ^ 52, by rw [h]; norm_num⟩
      · exact ⟨-2 ^ 52, by rw [h]; norm_num⟩
    have hdiv : (m : ℚ) * 2 ^ k / 2 ^ (k + 1) = (n : ℚ) := by
      rw [hn, zpow_add_one₀ (by norm_num : (2 : ℚ) ≠ 0)]
      push_cast
      field_simp
      ring
    rw [hj, hdiv, roundHalfEven_intCast, hn, zpow_add_one₀ (by norm_num : (2 : ℚ) ≠ 0)]
    push_cast
    ring

theorem toDouble_intCast (n : ℤ) (hn : |n| ≤ 2 ^ 53) : toDouble (n : ℚ) = n := by
  have h := toDouble_representable n 0 hn (by norm_num)
  simpa using h

theorem percent_error (c t : ℤ) (ht : 0 < t) (ht53 : t ≤ 2 ^ 53) (hc : |c| ≤ 2 ^ 40) :
    |fmul (fdiv c t) 100 - 100 * (c : ℚ) / t| < 1 / (2 * (t : ℚ)) := by
  have htQ : (0 : ℚ) < t := by exact_mod_cast ht
  by_cases hc0 : c = 0
  · simp [hc0, fdiv, fmul, toDouble_zero]
    positivity
  have hu : (2 : ℚ) ^ (-53 : ℤ) = 1 / 9007199254740992 := by norm_num
  have hmin : (2 : ℚ) ^ (-1022 : ℤ) ≤ 1 / 18014398509481984 := by
    have h1 : (2 : ℚ) ^ (-1022 : ℤ) ≤ 2 ^ (-54 : ℤ) :=
      zpow_le_zpow_right₀ (by norm_num) (by norm_num)
    have h2 : (2 : ℚ) ^ (-54 : ℤ) = 1 / 18014398509481984 := by norm_num
    linarith
  have hcQ : (1 : ℚ) ≤ |(c : ℚ)| := by
    have : (1 : ℤ) ≤ |c| := Int.one_le_abs hc0
    exact_mod_cast this
  have hcQ2 : |(c : ℚ)| ≤ 1099511627776 := by
    have : ((|c| : ℤ) : ℚ) ≤ ((2 ^ 40 : ℤ) : ℚ) := by exact_mod_cast hc
    push_cast at this
    exact this
  have htQ2 : (t : ℚ) ≤ 9007199254740992 := by
    have : ((t : ℤ) : ℚ) ≤ ((2 ^ 53 : ℤ) : ℚ) := by exact_mod_cast ht53
    push_cast at this
    exact this
  have hx : |(c : ℚ) / t| = |(c : ℚ)| / t := by
    rw [abs_div, abs_of_pos htQ]
  have hxlow : 1 / 9007199254740992 ≤ |(c : ℚ) / t| := by
    rw [hx, le_div_iff₀ htQ]
    linarith
  have hq := toDouble_sub_le ((c : ℚ) / t) (by linarith)
  rw [hu] at hq
  have hqabs : |toDouble ((c : ℚ) / t)| ≤ |(c : ℚ) / t| + |(c : ℚ) / t| * (1 / 9007199254740992) := by
    have := abs_sub_abs_le_abs_sub (toDouble ((c : ℚ) / t)) ((c : ℚ) / t)
    linarith
  have hqlow : |(c : ℚ) / t| - |(c : ℚ) / t| * (1 / 9007199254740992) ≤ |toDouble ((c : ℚ) / t)| := by
    have := abs_sub_abs_le_abs_sub ((c : ℚ) / t) (toDouble ((c : ℚ) / t))
    rw [abs_sub_comm] at this
    linarith
  have hy : |toDouble ((c : ℚ) / t) * 100| = |toDouble ((c : ℚ) / t)| * 100 := by
    rw [abs_mul]
    norm_num
  have hv := toDouble_sub_le (toDouble ((c : ℚ) / t) * 100) (by rw [hy]; linarith)
  rw [hu, hy] at hv
  have hxup : |(c : ℚ) / t| * (2 * (t : ℚ)) ≤ 2199023255552 := by
    rw [hx]
    have : |(c : ℚ)| / t * (2 * (t : ℚ)) = 2 * |(c : ℚ)| := by
      field_simp
      ring
    rw [this]
    linarith
  have hsplit : fmul (fdiv c t) 100 - 100 * (c : ℚ) / t
      = (toDouble (toDouble ((c : ℚ) / t) * 100) - toDouble ((c : ℚ) / t) * 100)
        + 100 * (toDouble ((c : ℚ) / t) - (c : ℚ) / t) := by
    unfold fmul fdiv
    ring
  rw [hsplit]
  have htri := abs_add (toDouble (toDouble ((c : ℚ) / t) * 100) - toDouble ((c : ℚ) / t) * 100)
    (100 * (toDouble ((c : ℚ) / t) - (c : ℚ) / t))
  have h100 : |100 * (toDouble ((c : ℚ) / t) - (c : ℚ) / t)|
      = 100 * |toDouble ((c : ℚ) / t) - (c : ℚ) / t| := by
    rw [abs_mul]
    norm_num
  rw [h100] at htri
  have hbound : |(c : ℚ) / t| * (400 / 9007199254740992) < 1 / (2 * (t : ℚ)) := by
    rw [lt_div_iff₀ (by positivity)]
    nlinarith [abs_nonneg ((c : ℚ) / t)]
  have hxnn := abs_nonneg ((c : ℚ) / t)
  nlinarith

theorem mathRound_near (c t : ℤ) (ht : 0 < t) (v : ℚ)
    (hv : |v - 100 * (c : ℚ) / t| < 1 / (2 * (t : ℚ))) :
    (mathRound v = mathRound (100 * (c : ℚ) / t)
        ∨ mathRound v = mathRound (100 * (c : ℚ) / t) - 1)
      ∧ ((∀ n : ℤ, 100 * (c : ℚ) / t ≠ n + 1 / 2)
        → mathRound v = mathRound (100 * (c : ℚ) / t)) := by
  have htQ : (0 : ℚ) < t := by exact_mod_cast ht
  have h2t : (0 : ℚ) < 2 * t := by positivity
  rw [abs_lt] at hv
  obtain ⟨hlo, hhi⟩ := hv
  have hR1 : ((mathRound (100 * (c : ℚ) / t) : ℤ) : ℚ) ≤ 100 * (c : ℚ) / t + 1 / 2 :=
    Int.floor_le _
  have hR2 : 100 * (c : ℚ) / t + 1 / 2 < (mathRound (100 * (c : ℚ) / t) : ℤ) + 1 :=
    Int.lt_floor_add_one _
  generalize mathRound (100 * (c : ℚ) / t) = R at hR1 hR2 ⊢
  have hE : 100 * (c : ℚ) / t + 1 / 2 = ((200 * c + t : ℤ) : ℚ) / (2 * t) := by
    push_cast
    field_simp
    ring
  have hsmall : 1 / (2 * (t : ℚ)) ≤ 1 / 2 := by
    rw [div_le_div_iff₀ h2t (by norm_num)]
    have : (1 : ℚ) ≤ t := by exact_mod_cast ht
    linarith
  have hupInt : 200 * c + t + 1 ≤ (R + 1) * (2 * t) := by
    have : ((200 * c + t : ℤ) : ℚ) < (((R + 1) * (2 * t) : ℤ) : ℚ) := by
      rw [hE, div_lt_iff₀ h2t] at hR2
      push_cast at hR2 ⊢
      linarith
    have : 200 * c + t < (R + 1) * (2 * t) := by exact_mod_cast this
    omega
  have hup : 100 * (c : ℚ) / t + 1 / 2 + 1 / (2 * (t : ℚ)) ≤ (R : ℚ) + 1 := by
    have h1 : (((200 * c + t + 1 : ℤ) : ℚ)) ≤ (((R + 1) * (2 * t) : ℤ) : ℚ) := by
      exact_mod_cast hupInt
    rw [hE, ← add_div, div_le_iff₀ h2t]
    push_cast at h1 ⊢
    linarith
  have hfloor_lt : mathRound v < R + 1 := by
    unfold mathRound
    rw [Int.floor_lt]
    push_cast
    linarith
  have hfloor_ge : R - 1 ≤ mathRound v := by
    unfold mathRound
    rw [Int.le_floor]
    push_cast
    linarith
  refine ⟨by omega, ?_⟩
  intro hnt
  have hne : 100 * (c : ℚ) / t + 1 / 2 ≠ R := by
    intro h
    apply hnt (R - 1)
    push_cast
    linarith
  have hloInt : R * (2 * t) + 1 ≤ 200 * c + t := by
    have hlt : (R : ℚ) < 100 * (c : ℚ) / t + 1 / 2 := lt_of_le_of_ne hR1 (Ne.symm hne)
    have : (((R * (2 * t) : ℤ)) : ℚ) < ((200 * c + t : ℤ) : ℚ) := by
      rw [hE, lt_div_iff₀ h2t] at hlt
      push_cast at hlt ⊢
      linarith
    have : R * (2 * t) < 200 * c + t := by exact_mod_cast this
    omega
  have hlow : (R : ℚ) + 1 / (2 * (t : ℚ)) ≤ 100 * (c : ℚ) / t + 1 / 2 := by
    have h1 : (((R * (2 * t) + 1 : ℤ)) : ℚ) ≤ ((200 * c + t : ℤ) : ℚ) := by
      exact_mod_cast hloInt
    rw [hE, le_div_iff₀ h2t]
    push_cast at h1 ⊢
    have : 1 / (2 * (t : ℚ)) * (2 * t) = 1 := by field_simp
    nlinarith
  have hge : R ≤ mathRound v := by
    unfold mathRound
    rw [Int.le_floor]
    linarith
  omega

theorem mathRound_percent (c t : ℤ) (ht : 0 < t) (ht53 : t ≤ 2 ^ 53) (hc : |c| ≤ 2 ^ 40) :
    (mathRound (fmul (fdiv c t) 100) = mathRound (100 * (c : ℚ) / t)
        ∨ mathRound (fmul (fdiv c t) 100) = mathRound (100 * (c : ℚ) / t) - 1)
      ∧ ((∀ n : ℤ, 100 * (c : ℚ) / t ≠ n + 1 / 2)
        → mathRound (fmul (fdiv c t) 100) = mathRound (100 * (c : ℚ) / t)) :=
  mathRound_near c t ht _ (percent_error c t ht ht53 hc)

theorem toDouble_eval_near (x : ℚ) (k m : ℤ) (hk : -1074 ≤ k)
    (h1 : (2 : ℚ) ^ (k + 52) ≤ |x|) (h2 : |x| < 2 ^ (k + 53))
    (hm : |x / 2 ^ k - m| < 1 / 2) : toDouble x = m * 2 ^ k :=
  toDouble_eval x k m hk h1 h2 (roundHalfEven_of_abs_lt _ m hm)

theorem toDouble_eval_tie (x : ℚ) (k n : ℤ) (hk : -1074 ≤ k)
    (h1 : (2 : ℚ) ^ (k + 52) ≤ |x|) (h2 : |x| < 2 ^ (k + 53))
    (hx : x / 2 ^ k = n + 1 / 2) :
    toDouble x = ((if n % 2 = 0 then n else n + 1 : ℤ) : ℚ) * 2 ^ k := by
  apply toDouble_eval x k _ hk h1 h2
  rw [hx]
  exact roundHalfEven_tie n

/-! ## Sums of whole numbers in double precision -/

theorem toDouble_one_tenth : toDouble (1 / 10) = 7205759403792794 * 2 ^ (-56 : ℤ) := by
  have h := toDouble_eval_near (1 / 10) (-56) 7205759403792794 (by norm_num)
    (by rw [abs_of_pos (by norm_num)]; norm_num)
    (by rw [abs_of_pos (by norm_num)]; norm_num)
    (by rw [abs_lt]; constructor <;> norm_num)
  exact_mod_cast h

theorem toDouble_two_tenths : toDouble (2 / 10) = 7205759403792794 * 2 ^ (-55 : ℤ) := by
  have h := toDouble_eval_near (2 / 10) (-55) 7205759403792794 (by norm_num)
    (by rw [abs_of_pos (by norm_num)]; norm_num)
    (by rw [abs_of_pos (by norm_num)]; norm_num)
    (by rw [abs_lt]; constructor <;> norm_num)
  exact_mod_cast h

theorem toDouble_three_tenths : toDouble (3 / 10) = 5404319552844595 * 2 ^ (-54 : ℤ) := by
  have h := toDouble_eval_near (3 / 10) (-54) 5404319552844595 (by norm_num)
    (by rw [abs_of_pos (by norm_num)]; norm_num)
    (by rw [abs_of_pos (by norm_num)]; norm_num)
    (by rw [abs_lt]; constructor <;> norm_num)
  exact_mod_cast h

theorem foldl_fadd_whole {α : Type} (f : α → ℚ) (l : List α) (a : ℤ)
    (hf : ∀ x ∈ l, ∃ n : ℤ, f x = n)
    (hb : |(a : ℚ)| + (l.map (fun x => |f x|)).sum ≤ 2 ^ 53) :
    l.foldl (fun sum x => fadd sum (f x)) (a : ℚ) = a + (l.map f).sum := by
  induction l generalizing a with
  | nil => simp
  | cons x xs ih =>
    obtain ⟨n, hn⟩ := hf x (List.mem_cons_self _ _)
    have hrest : 0 ≤ (xs.map (fun x => |f x|)).sum := by
      apply List.sum_nonneg
      intro y hy
      obtain ⟨z, _, hz⟩ := List.mem_map.mp hy
      rw [← hz]
      exact abs_nonneg _
    simp only [List.map_cons, List.sum_cons] at hb
    have habs : |((a + n : ℤ) : ℚ)| ≤ |(a : ℚ)| + |f x| := by
      push_cast
      rw [← hn]
      exact abs_add _ _
    have hint : |a + n| ≤ 2 ^ 53 := by
      have h1 : |((a + n : ℤ) : ℚ)| ≤ 2 ^ 53 := by linarith
      have h2 : ((|a + n| : ℤ) : ℚ) ≤ ((2 ^ 53 : ℤ) : ℚ) := by
        push_cast
        simpa using h1
      exact_mod_cast h2
    have hstep : fadd (a : ℚ) (f x) = ((a + n : ℤ) : ℚ) := by
      unfold fadd
      rw [hn, ← Int.cast_add]
      exact toDouble_intCast _ hint
    simp only [List.foldl_cons, List.map_cons, List.sum_cons]
    rw [hstep, ih (a + n) (fun y hy => hf y (List.mem_cons_of_mem _ hy)) (by linarith)]
    push_cast
    rw [hn]
    ring

theorem foldl_items_flatMap (g : ℚ → LineItem → ℚ) (costBreakdown : List Category) (a : ℚ) :
    costBreakdown.foldl (fun total category => category.items.foldl g total) a
      = (costBreakdown.flatMap (fun category => category.items)).foldl g a := by
  induction costBreakdown generalizing a with
  | nil => rfl
  | cons c cs ih => simp [List.flatMap_cons, List.foldl_append, ih]

theorem sum_flatMap_items (h : LineItem → ℚ) (costBreakdown : List Category) :
    ((costBreakdown.flatMap (fun category => category.items)).map h).sum
      = (costBreakdown.map (fun category => (category.items.map h).sum)).sum := by
  induction costBreakdown with
  | nil => rfl
  | cons c cs ih => simp [List.flatMap_cons, List.map_append, List.sum_append, ih]

theorem sum_items_le_sum_flatMap (h : LineItem → ℚ) (hnn : ∀ item, 0 ≤ h item)
    (costBreakdown : List Category) (category : Category) (hmem : category ∈ costBreakdown) :
    (category.items.map h).sum
      ≤ ((costBreakdown.flatMap (fun category => category.items)).map h).sum := by
  have hsum : ∀ l : List LineItem, 0 ≤ (l.map h).sum := by
    intro l
    apply List.sum_nonneg
    intro y hy
    obtain ⟨z, _, hz⟩ := List.mem_map.mp hy
    rw [← hz]
    exact hnn z
  induction costBreakdown with
  | nil => cases hmem
  | cons c cs ih =>
    simp only [List.flatMap_cons, List.map_append, List.sum_append]
    rcases List.mem_cons.mp hmem with heq | htail
    · rw [heq]
      have := hsum (cs.flatMap (fun category => category.items))
      linarith
    · have := ih htail
      have := hsum c.items
      linarith

theorem getCategoryTotalDouble_whole (category : Category)
    (hwhole : ∀ item ∈ category.items, ∃ n : ℤ, item.total.getD 0 = n)
    (hbound : (category.items.map (fun item => |item.total.getD 0|)).sum ≤ 2 ^ 53) :
    getCategoryTotalDouble category = (category.items.map (fun item => item.total.getD 0)).sum := by
  unfold getCategoryTotalDouble
  have h := foldl_fadd_whole (fun item : LineItem => jsOr item.total 0) category.items 0
    (by simpa [jsOr_zero] using hwhole) (by simpa [jsOr_zero] using hbound)
  simpa [jsOr_zero] using h

theorem calculateTotalsDouble_totalCost_whole (costBreakdown : List Category) (contingency : ℚ)
    (hwhole : ∀ category ∈ costBreakdown, ∀ item ∈ category.items,
      ∃ n : ℤ, item.total.getD 0 = n)
    (hbound : ((costBreakdown.flatMap (fun category => category.items)).map
      (fun item => |item.total.getD 0|)).sum ≤ 2 ^ 53) :
    (calculateTotalsDouble costBreakdown contingency).totalCost
      = ((costBreakdown.flatMap (fun category => category.items)).map
          (fun item => item.total.getD 0)).sum := by
  simp only [calculateTotalsDouble]
  rw [foldl_items_flatMap (fun total item => fadd total (jsOr item.total 0))]
  have hflat : ∀ item ∈ costBreakdown.flatMap (fun category => category.items),
      ∃ n : ℤ, jsOr item.total 0 = n := by
    intro item hitem
    obtain ⟨c, hc, hin⟩ := List.mem_flatMap.mp hitem
    simpa [jsOr_zero] using hwhole c hc item hin
  have h := foldl_fadd_whole (fun item : LineItem => jsOr item.total 0)
    (costBreakdown.flatMap (fun category => category.items)) 0 hflat
    (by simpa [jsOr_zero] using hbound)
  simpa [jsOr_zero] using h

theorem fadd_decimalTotals :
    fadd 0 (7205759403792794 * 2 ^ (-56 : ℤ)) = 7205759403792794 * 2 ^ (-56 : ℤ)
      ∧ fadd (7205759403792794 * 2 ^ (-56 : ℤ)) (7205759403792794 * 2 ^ (-55 : ℤ))
        = 5404319552844596 * 2 ^ (-54 : ℤ)
      ∧ fadd (5404319552844596 * 2 ^ (-54 : ℤ)) (5404319552844595 * 2 ^ (-54 : ℤ))
        = 5404319552844596 * 2 ^ (-53 : ℤ)
      ∧ fadd 0 (7205759403792794 * 2 ^ (-55 : ℤ)) = 7205759403792794 * 2 ^ (-55 : ℤ)
      ∧ fadd (7205759403792794 * 2 ^ (-55 : ℤ)) (5404319552844595 * 2 ^ (-54 : ℤ)) = 1 / 2
      ∧ fadd (7205759403792794 * 2 ^ (-56 : ℤ)) (1 / 2) = 5404319552844595 * 2 ^ (-53 : ℤ) := by
  refine ⟨?_, ?_, ?_, ?_, ?_, ?_⟩
  · have h := toDouble_representable 7205759403792794 (-56) (by norm_num) (by norm_num)
    unfold fadd
    rw [zero_add]
    exact_mod_cast h
  · have h := toDouble_eval_tie
      (7205759403792794 * 2 ^ (-56 : ℤ) + 7205759403792794 * 2 ^ (-55 : ℤ)) (-54)
      5404319552844595 (by norm_num)
      (by rw [abs_of_pos (by norm_num)]; norm_num)
      (by rw [abs_of_pos (by norm_num)]; norm_num)
      (by norm_num)
    unfold fadd
    rw [h]
    norm_num
  · have h := toDouble_eval_tie
      (5404319552844596 * 2 ^ (-54 : ℤ) + 5404319552844595 * 2 ^ (-54 : ℤ)) (-53)
      5404319552844595 (by norm_num)
      (by rw [abs_of_pos (by norm_num)]; norm_num)
      (by rw [abs_of_pos (by norm_num)]; norm_num)
      (by norm_num)
    unfold fadd
    rw [h]
    norm_num
  · have h := toDouble_representable 7205759403792794 (-55) (by norm_num) (by norm_num)
    unfold fadd
    rw [zero_add]
    exact_mod_cast h
  · have h := toDouble_eval_near
      (7205759403792794 * 2 ^ (-55 : ℤ) + 5404319552844595 * 2 ^ (-54 : ℤ)) (-53)
      4503599627370496 (by norm_num)
      (by rw [abs_of_pos (by norm_num)]; norm_num)
      (by rw [abs_of_pos (by norm_num)]; norm_num)
      (by rw [abs_lt]; constructor <;> norm_num)
    unfold fadd
    rw [h]
    norm_num
  · have h := toDouble_eval_near
      (7205759403792794 * 2 ^ (-56 : ℤ) + 1 / 2) (-53)
      5404319552844595 (by norm_num)
      (by rw [abs_of_pos (by norm_num)]; norm_num)
      (by rw [abs_of_pos (by norm_num)]; norm_num)
      (by rw [abs_lt]; constructor <;> norm_num)
    unfold fadd
    rw [h]
    norm_num

/-- C1 fails as stated: for the item totals 0.1 in one category and 0.2, 0.3 in
another, `calculateTotals` adds 0.1 + 0.2 + 0.3 from left to right and gets
0.6000000000000001, while the category totals are 0.1 and 0.5, whose sum as a
double is 0.6 and whose exact sum is neither of the two. -/
theorem calculateTotalsDouble_order_counterexample :
    (calculateTotalsDouble decimalTotals 0).totalCost = 5404319552844596 * 2 ^ (-53 : ℤ)
      ∧ decimalTotals.map getCategoryTotalDouble = [7205759403792794 * 2 ^ (-56 : ℤ), 1 / 2]
      ∧ fadd (7205759403792794 * 2 ^ (-56 : ℤ)) (1 / 2) = 5404319552844595 * 2 ^ (-53 : ℤ)
      ∧ (calculateTotalsDouble decimalTotals 0).totalCost
        ≠ (decimalTotals.map getCategoryTotalDouble).sum := by
  have hj1 : jsOr (some (7205759403792794 * 2 ^ (-56 : ℤ))) 0
      = 7205759403792794 * 2 ^ (-56 : ℤ) := by
    norm_num [jsOr]
  have hj2 : jsOr (some (7205759403792794 * 2 ^ (-55 : ℤ))) 0
      = 7205759403792794 * 2 ^ (-55 : ℤ) := by
    norm_num [jsOr]
  have hj3 : jsOr (some (5404319552844595 * 2 ^ (-54 : ℤ))) 0
      = 5404319552844595 * 2 ^ (-54 : ℤ) := by
    norm_num [jsOr]
  have hf := fadd_decimalTotals
  have htotal : (calculateTotalsDouble decimalTotals 0).totalCost
      = 5404319552844596 * 2 ^ (-53 : ℤ) := by
    simp only [calculateTotalsDouble, decimalTotals, List.foldl_cons, List.foldl_nil,
      toDouble_one_tenth, toDouble_two_tenths, toDouble_three_tenths, hj1, hj2, hj3]
    rw [hf.1, hf.2.1, hf.2.2.1]
  have hcats : decimalTotals.map getCategoryTotalDouble
      = [7205759403792794 * 2 ^ (-56 : ℤ), 1 / 2] := by
    simp only [getCategoryTotalDouble, decimalTotals, List.map_cons, List.map_nil,
      List.foldl_cons, List.foldl_nil,
      toDouble_one_tenth, toDouble_two_tenths, toDouble_three_tenths, hj1, hj2, hj3]
    rw [hf.1, hf.2.2.2.1, hf.2.2.2.2.1]
  refine ⟨htotal, hcats, hf.2.2.2.2.2, ?_⟩
  rw [htotal, hcats]
  norm_num

/-- C1 as amended: for a breakdown whose item totals are whole numbers, a missing
total counted as 0, with absolute values summing to at most 2^53, the total cost
computed by `calculateTotals` is the sum over the categories of
`getCategoryTotal`, and the total of each category is the sum of the totals of
its items; a category without items has total 0. -/
theorem calculateTotalsDouble_whole_totals (costBreakdown : List Category) (contingency : ℚ)
    (hwhole : ∀ category ∈ costBreakdown, ∀ item ∈ category.items,
      ∃ n : ℤ, item.total.getD 0 = n)
    (hbound : ((costBreakdown.flatMap (fun category => category.items)).map
      (fun item => |item.total.getD 0|)).sum ≤ 2 ^ 53) :
    (calculateTotalsDouble costBreakdown contingency).totalCost
        = (costBreakdown.map getCategoryTotalDouble).sum
      ∧ (∀ category ∈ costBreakdown,
          getCategoryTotalDouble category
            = (category.items.map (fun item => item.total.getD 0)).sum)
      ∧ (∀ (id : Option Nat) (name : Option String),
          getCategoryTotalDouble { id := id, category := name, items := [] } = 0) := by
  have hcat : ∀ category ∈ costBreakdown,
      getCategoryTotalDouble category
        = (category.items.map (fun item => item.total.getD 0)).sum := by
    intro category hmem
    apply getCategoryTotalDouble_whole category (hwhole category hmem)
    have := sum_items_le_sum_flatMap (fun item => |item.total.getD 0|)
      (fun item => abs_nonneg _) costBreakdown category hmem
    linarith
  refine ⟨?_, hcat, ?_⟩
  · rw [calculateTotalsDouble_totalCost_whole costBreakdown contingency hwhole hbound,
      sum_flatMap_items]
    congr 1
    apply List.map_congr_left
    intro category hmem
    exact (hcat category hmem).symm
  · intro id name
    simp [getCategoryTotalDouble]

/-- Witness for C1 as amended: the breakdown of scenario A, whose only item has
total 500. -/
theorem calculateTotalsDouble_whole_totals_witness :
    (∀ category ∈ scenarioA, ∀ item ∈ category.items, ∃ n : ℤ, item.total.getD 0 = n)
      ∧ ((scenarioA.flatMap (fun category => category.items)).map
          (fun item => |item.total.getD 0|)).sum ≤ 2 ^ 53
      ∧ (calculateTotalsDouble scenarioA 10).totalCost
        = (scenarioA.map getCategoryTotalDouble).sum
      ∧ (∀ category ∈ scenarioA,
          getCategoryTotalDouble category
            = (category.items.map (fun item => item.total.getD 0)).sum) := by
  have hwhole : ∀ category ∈ scenarioA, ∀ item ∈ category.items,
      ∃ n : ℤ, item.total.getD 0 = n := by
    intro category hc item hitem
    simp only [scenarioA, List.mem_singleton] at hc
    subst hc
    simp only [List.mem_singleton] at hitem
    subst hitem
    exact ⟨500, by norm_num⟩
  have hbound : ((scenarioA.flatMap (fun category => category.items)).map
      (fun item => |item.total.getD 0|)).sum ≤ 2 ^ 53 := by
    norm_num [scenarioA]
  have h := calculateTotalsDouble_whole_totals scenarioA 10 hwhole hbound
  exact ⟨hwhole, hbound, h.1, h.2.1⟩

/-! ## The final cost in double precision -/

theorem toDouble_rel (x : ℚ) (h : x = 0 ∨ 1 / 200 ≤ x) :
    |toDouble x - x| ≤ x * (1 / 9007199254740992) := by
  rcases h with h | h
  · rw [h, toDouble_zero]
    norm_num
  · have hpos : 0 < x := by linarith
    have hmin : (2 : ℚ) ^ (-1022 : ℤ) ≤ |x| := by
      have h1 : (2 : ℚ) ^ (-1022 : ℤ) ≤ 2 ^ (-8 : ℤ) :=
        zpow_le_zpow_right₀ (by norm_num) (by norm_num)
      have h2 : (2 : ℚ) ^ (-8 : ℤ) ≤ x := by
        have : (2 : ℚ) ^ (-8 : ℤ) = 1 / 256 := by norm_num
        rw [this]
        linarith
      rw [abs_of_pos hpos]
      exact le_trans h1 h2
    have hu : (2 : ℚ) ^ (-53 : ℤ) = 1 / 9007199254740992 := by norm_num
    have := toDouble_sub_le x hmin
    rw [hu, abs_of_pos hpos] at this
    exact this

theorem client_finalCost_error (S p : ℕ) (hp : p ≤ 100) (hS : S ≤ 2 ^ 46) :
    fmul S p = (S : ℚ) * p
      ∧ |fadd S (fdiv (fmul S p) 100) - ((S : ℚ) + S * p / 100)|
        ≤ ((S : ℚ) + S * p / 100) * 2 ^ (-51 : ℤ)
      ∧ (∀ q : ℕ, S * p = 100 * q
        → fdiv (fmul S p) 100 = q ∧ fadd S (fdiv (fmul S p) 100) = (S : ℚ) + q) := by
  have hSp : S * p ≤ 2 ^ 53 := by
    calc S * p ≤ 2 ^ 46 * 100 := Nat.mul_le_mul hS hp
      _ ≤ 2 ^ 53 := by norm_num
  have hmul : fmul S p = (S : ℚ) * p := by
    unfold fmul
    have h := toDouble_intCast ((S * p : ℕ) : ℤ) (by
      rw [abs_of_nonneg (by positivity)]
      exact_mod_cast hSp)
    push_cast at h
    exact h
  have hSnn : (0 : ℚ) ≤ S := by positivity
  have hpnn : (0 : ℚ) ≤ p := by positivity
  refine ⟨hmul, ?_, ?_⟩
  · rw [hmul]
    have hu : (2 : ℚ) ^ (-51 : ℤ) = 4 / 9007199254740992 := by norm_num
    rw [hu]
    have hQ : (S : ℚ) * p / 100 = 0 ∨ 1 / 200 ≤ (S : ℚ) * p / 100 := by
      rcases Nat.eq_zero_or_pos (S * p) with h0 | hpos
      · left
        have : ((S * p : ℕ) : ℚ) = 0 := by exact_mod_cast h0
        push_cast at this
        rw [this]
        norm_num
      · right
        have : (1 : ℚ) ≤ ((S * p : ℕ) : ℚ) := by exact_mod_cast hpos
        push_cast at this
        linarith
    have hQnn : (0 : ℚ) ≤ (S : ℚ) * p / 100 := by positivity
    have hA := toDouble_rel ((S : ℚ) * p / 100) hQ
    rw [abs_le] at hA
    have hSA : (S : ℚ) + toDouble ((S : ℚ) * p / 100) = 0
        ∨ 1 / 200 ≤ (S : ℚ) + toDouble ((S : ℚ) * p / 100) := by
      rcases Nat.eq_zero_or_pos S with h0 | hpos
      · left
        simp [h0, toDouble_zero]
      · right
        have : (1 : ℚ) ≤ (S : ℚ) := by exact_mod_cast hpos
        linarith [hA.1]
    have hF := toDouble_rel ((S : ℚ) + toDouble ((S : ℚ) * p / 100)) hSA
    rw [abs_le] at hF
    unfold fadd fdiv
    rw [abs_le]
    constructor <;> linarith [hA.1, hA.2, hF.1, hF.2]
  · intro q hq
    have hqQ : (S : ℚ) * p = 100 * q := by exact_mod_cast hq
    have hqle : q ≤ 2 ^ 53 := by omega
    have hdiv : fdiv (fmul S p) 100 = q := by
      rw [hmul, hqQ]
      unfold fdiv
      have h := toDouble_intCast (q : ℤ) (by
        rw [abs_of_nonneg (by positivity)]
        exact_mod_cast hqle)
      have hx : (100 : ℚ) * q / 100 = ((q : ℤ) : ℚ) := by
        push_cast
        ring
      rw [hx, h]
      simp
    refine ⟨hdiv, ?_⟩
    rw [hdiv]
    unfold fadd
    have hle : S + q ≤ 2 ^ 53 := by
      have : q ≤ S := by
        have : 100 * q ≤ S * 100 := by
          rw [← hq]
          exact Nat.mul_le_mul_left S hp
        omega
      have : S ≤ 2 ^ 46 := hS
      have h46 : (2 : ℕ) ^ 46 + 2 ^ 46 ≤ 2 ^ 53 := by norm_num
      omega
    have h := toDouble_intCast ((S + q : ℕ) : ℤ) (by
      rw [abs_of_nonneg (by positivity)]
      exact_mod_cast hle)
    push_cast at h
    exact h

theorem hook_finalCost_error (S p : ℕ) (hp : p ≤ 100) (hS : S ≤ 2 ^ 46) :
    |fadd S (fmul S (fdiv p 100)) - ((S : ℚ) + S * p / 100)|
        ≤ ((S : ℚ) + S * p / 100) * 2 ^ (-51 : ℤ)
      ∧ (p = 0 → fadd S (fmul S (fdiv p 100)) = S) := by
  have hSint : toDouble (S : ℚ) = S := by
    have h := toDouble_intCast (S : ℤ) (by
      rw [abs_of_nonneg (by positivity)]
      have : S ≤ 2 ^ 53 := le_trans hS (by norm_num)
      exact_mod_cast this)
    exact_mod_cast h
  have hSnn : (0 : ℚ) ≤ S := by positivity
  have hpnn : (0 : ℚ) ≤ p := by positivity
  have hp100 : (p : ℚ) ≤ 100 := by exact_mod_cast hp
  constructor
  · have hu : (2 : ℚ) ^ (-51 : ℤ) = 4 / 9007199254740992 := by norm_num
    rw [hu]
    have hP : (p : ℚ) / 100 = 0 ∨ 1 / 100 ≤ (p : ℚ) / 100 := by
      rcases Nat.eq_zero_or_pos p with h0 | hpos
      · left
        simp [h0]
      · right
        have : (1 : ℚ) ≤ (p : ℚ) := by exact_mod_cast hpos
        linarith
    have ha := toDouble_rel ((p : ℚ) / 100) (hP.imp id (fun h => by linarith))
    rw [abs_le] at ha
    have hPnn : (0 : ℚ) ≤ (p : ℚ) / 100 := by positivity
    have hann : 0 ≤ toDouble ((p : ℚ) / 100) := by linarith [ha.1]
    have hSa1 : (S : ℚ) * toDouble ((p : ℚ) / 100)
        ≤ (S : ℚ) * p / 100 + (S : ℚ) * p / 100 * (1 / 9007199254740992) := by
      have := mul_le_mul_of_nonneg_left
        (show toDouble ((p : ℚ) / 100) ≤ (p : ℚ) / 100 + (p : ℚ) / 100 * (1 / 9007199254740992)
          by linarith [ha.2]) hSnn
      linarith
    have hSa2 : (S : ℚ) * p / 100 - (S : ℚ) * p / 100 * (1 / 9007199254740992)
        ≤ (S : ℚ) * toDouble ((p : ℚ) / 100) := by
      have := mul_le_mul_of_nonneg_left
        (show (p : ℚ) / 100 - (p : ℚ) / 100 * (1 / 9007199254740992) ≤ toDouble ((p : ℚ) / 100)
          by linarith [ha.1]) hSnn
      linarith
    have hSPnn : (0 : ℚ) ≤ (S : ℚ) * p / 100 := by positivity
    have hSA : (S : ℚ) * toDouble ((p : ℚ) / 100) = 0
        ∨ 1 / 200 ≤ (S : ℚ) * toDouble ((p : ℚ) / 100) := by
      rcases Nat.eq_zero_or_pos S with h0 | hpos
      · left
        simp [h0]
      · rcases hP with hP0 | hPpos
        · left
          rw [hP0, toDouble_zero]
          ring
        · right
          have h1 : (1 : ℚ) ≤ (S : ℚ) := by exact_mod_cast hpos
          have h2 : 1 / 200 ≤ toDouble ((p : ℚ) / 100) := by linarith [ha.1]
          calc (1 : ℚ) / 200 = 1 * (1 / 200) := by ring
            _ ≤ (S : ℚ) * toDouble ((p : ℚ) / 100) :=
              mul_le_mul h1 h2 (by norm_num) hSnn
    have hB := toDouble_rel ((S : ℚ) * toDouble ((p : ℚ) / 100)) hSA
    rw [abs_le] at hB
    have hSB : (S : ℚ) + toDouble ((S : ℚ) * toDouble ((p : ℚ) / 100)) = 0
        ∨ 1 / 200 ≤ (S : ℚ) + toDouble ((S : ℚ) * toDouble ((p : ℚ) / 100)) := by
      rcases Nat.eq_zero_or_pos S with h0 | hpos
      · left
        simp [h0, toDouble_zero]
      · right
        have h1 : (1 : ℚ) ≤ (S : ℚ) := by exact_mod_cast hpos
        have : 0 ≤ (S : ℚ) * toDouble ((p : ℚ) / 100) := mul_nonneg hSnn hann
        linarith [hB.1]
    have hF := toDouble_rel ((S : ℚ) + toDouble ((S : ℚ) * toDouble ((p : ℚ) / 100))) hSB
    rw [abs_le] at hF
    unfold fadd fmul fdiv
    rw [abs_le]
    constructor <;> linarith [hB.1, hB.2, hF.1, hF.2]
  · intro h0
    unfold fadd fmul fdiv
    simp [h0, toDouble_zero, hSint]

theorem preSaveDouble_totals (ctx : SaveContext) (this : Estimation)
    (hmod : ctx.isModified "costBreakdown" = true ∨ ctx.isModified "contingency" = true) :
    (preSaveDouble ctx this).totalCost
        = some (this.costBreakdown.foldl (fun sum item => fadd sum (jsOr item.estimatedCost 0)) 0)
      ∧ (preSaveDouble ctx this).finalCost
        = some (fadd
            (this.costBreakdown.foldl (fun sum item => fadd sum (jsOr item.estimatedCost 0)) 0)
            (fmul
              (this.costBreakdown.foldl (fun sum item => fadd sum (jsOr item.estimatedCost 0)) 0)
              (fdiv this.contingency 100))) := by
  have hg : (ctx.isModified "costBreakdown" || ctx.isModified "contingency") = true := by
    rcases hmod with h | h <;> simp [h]
  constructor
  · unfold preSaveDouble
    simp only [hg, if_true]
    split_ifs <;> rfl
  · unfold preSaveDouble
    simp only [hg, if_true]
    split_ifs <;> rfl

theorem sum_whole_abs {α : Type} (f : α → ℚ) (l : List α)
    (hf : ∀ x ∈ l, ∃ n : ℕ, f x = n) :
    (∀ x ∈ l, ∃ n : ℤ, f x = n) ∧ (l.map (fun x => |f x|)).sum = (l.map f).sum := by
  constructor
  · intro x hx
    obtain ⟨n, hn⟩ := hf x hx
    exact ⟨n, by rw [hn]; simp⟩
  · congr 1
    apply List.map_congr_left
    intro x hx
    obtain ⟨n, hn⟩ := hf x hx
    rw [hn]
    exact abs_of_nonneg (by positivity)

theorem finalCost_three_at_nineteen :
    fdiv 19 100 = 6845471433603154 * 2 ^ (-55 : ℤ)
      ∧ fmul 3 (6845471433603154 * 2 ^ (-55 : ℤ)) = 5134103575202366 * 2 ^ (-53 : ℤ)
      ∧ fadd 3 (5134103575202366 * 2 ^ (-53 : ℤ)) = 8038925334856336 * 2 ^ (-51 : ℤ)
      ∧ fdiv 57 100 = 5134103575202365 * 2 ^ (-53 : ℤ)
      ∧ fadd 3 (5134103575202365 * 2 ^ (-53 : ℤ)) = 8038925334856335 * 2 ^ (-51 : ℤ) := by
  refine ⟨?_, ?_, ?_, ?_, ?_⟩
  · have h := toDouble_eval_near (19 / 100) (-55) 6845471433603154 (by norm_num)
      (by rw [abs_of_pos (by norm_num)]; norm_num)
      (by rw [abs_of_pos (by norm_num)]; norm_num)
      (by rw [abs_lt]; constructor <;> norm_num)
    unfold fdiv
    exact_mod_cast h
  · have h := toDouble_eval_tie (3 * (6845471433603154 * 2 ^ (-55 : ℤ))) (-53)
      5134103575202365 (by norm_num)
      (by rw [abs_of_pos (by norm_num)]; norm_num)
      (by rw [abs_of_pos (by norm_num)]; norm_num)
      (by norm_num)
    unfold fmul
    rw [h]
    norm_num
  · have h := toDouble_eval_tie (3 + 5134103575202366 * 2 ^ (-53 : ℤ)) (-51)
      8038925334856335 (by norm_num)
      (by rw [abs_of_pos (by norm_num)]; norm_num)
      (by rw [abs_of_pos (by norm_num)]; norm_num)
      (by norm_num)
    unfold fadd
    rw [h]
    norm_num
  · have h := toDouble_eval_near (57 / 100) (-53) 5134103575202365 (by norm_num)
      (by rw [abs_of_pos (by norm_num)]; norm_num)
      (by rw [abs_of_pos (by norm_num)]; norm_num)
      (by rw [abs_lt]; constructor <;> norm_num)
    unfold fdiv
    exact_mod_cast h
  · have h := toDouble_eval_near (3 + 5134103575202365 * 2 ^ (-53 : ℤ)) (-51)
      8038925334856335 (by norm_num)
      (by rw [abs_of_pos (by norm_num)]; norm_num)
      (by rw [abs_of_pos (by norm_num)]; norm_num)
      (by rw [abs_lt]; constructor <;> norm_num)
    unfold fadd
    exact_mod_cast h

theorem fadd_zero_whole (n : ℕ) (hn : n ≤ 2 ^ 53) : fadd 0 (n : ℚ) = n := by
  unfold fadd
  rw [zero_add]
  have h := toDouble_intCast (n : ℤ) (by
    rw [abs_of_nonneg (by positivity)]
    exact_mod_cast hn)
  exact_mod_cast h

/-- C2 fails as stated: for a subtotal of 3 and a contingency of 19 percent the
save hook stores the final cost 3.5700000000000003 and the client computes
3.57 (the double nearest to 357/100); both have total cost 3, the two final
costs differ, and neither is 3 + 3 * 19 / 100. -/
theorem finalCost_double_counterexample :
    (preSaveDouble newDocContext storedThreeAtNineteen).totalCost = some 3
      ∧ (preSaveDouble newDocContext storedThreeAtNineteen).finalCost
        = some (8038925334856336 * 2 ^ (-51 : ℤ))
      ∧ (calculateTotalsDouble singleItemOfThree 19).totalCost = 3
      ∧ (calculateTotalsDouble singleItemOfThree 19).finalCost
        = 8038925334856335 * 2 ^ (-51 : ℤ)
      ∧ (8038925334856336 * 2 ^ (-51 : ℤ) : ℚ) ≠ 3 + 3 * 19 / 100
      ∧ (8038925334856335 * 2 ^ (-51 : ℤ) : ℚ) ≠ 3 + 3 * 19 / 100 := by
  have hmod : newDocContext.isModified "costBreakdown" = true
      ∨ newDocContext.isModified "contingency" = true := by
    left
    simp [newDocContext, constructorPaths]
  have h := preSaveDouble_totals newDocContext storedThreeAtNineteen hmod
  have hc := finalCost_three_at_nineteen
  have h3 : fadd 0 3 = 3 := by
    have := fadd_zero_whole 3 (by norm_num)
    exact_mod_cast this
  have hj : jsOr (some 3) 0 = 3 := by norm_num [jsOr]
  have hm : fmul 3 19 = 57 := by
    have := (client_finalCost_error 3 19 (by norm_num) (by norm_num)).1
    norm_num at this
    exact this
  refine ⟨?_, ?_, ?_, ?_, by norm_num, by norm_num⟩
  · rw [h.1]
    simp only [storedThreeAtNineteen, List.foldl_cons, List.foldl_nil, hj, h3]
  · rw [h.2]
    simp only [storedThreeAtNineteen, List.foldl_cons, List.foldl_nil, hj, h3]
    rw [hc.1, hc.2.1, hc.2.2.1]
  · simp only [calculateTotalsDouble, singleItemOfThree, List.foldl_cons, List.foldl_nil, hj, h3]
  · simp only [calculateTotalsDouble, singleItemOfThree, List.foldl_cons, List.foldl_nil, hj, h3]
    rw [hm, hc.2.2.2.1, hc.2.2.2.2]

theorem finalCost_scenarioA_hook :
    fdiv 10 100 = 7205759403792794 * 2 ^ (-56 : ℤ)
      ∧ fmul 500 (7205759403792794 * 2 ^ (-56 : ℤ)) = 50
      ∧ fadd 500 50 = 550 := by
  refine ⟨?_, ?_, ?_⟩
  · have h := toDouble_eval_near (10 / 100) (-56) 7205759403792794 (by norm_num)
      (by rw [abs_of_pos (by norm_num)]; norm_num)
      (by rw [abs_of_pos (by norm_num)]; norm_num)
      (by rw [abs_lt]; constructor <;> norm_num)
    unfold fdiv
    exact_mod_cast h
  · have h := toDouble_eval_near (500 * (7205759403792794 * 2 ^ (-56 : ℤ))) (-47)
      7036874417766400 (by norm_num)
      (by rw [abs_of_pos (by norm_num)]; norm_num)
      (by rw [abs_of_pos (by norm_num)]; norm_num)
      (by rw [abs_lt]; constructor <;> norm_num)
    unfold fmul
    rw [h]
    norm_num
  · have h := toDouble_intCast 550 (by norm_num)
    unfold fadd
    norm_num at h ⊢
    exact h

/-- C2 as amended: for whole-number item totals with subtotal S at most 2^46 and
a whole-number contingency p between 0 and 100, the client and the save hook
both have total cost S and a final cost within (S + S * p / 100) / 2^51 of
S + S * p / 100; the final cost is S when p is 0, and the client's contingency
amount and final cost are exact when S * p / 100 is a whole number; scenario A
gives 500, 50 and 550 on the client and 500 and 550 in the hook. -/
theorem finalCost_double_error (costBreakdown : List Category) (ctx : SaveContext)
    (this : Estimation) (S T p : ℕ) (hp : p ≤ 100)
    (hitems : ∀ category ∈ costBreakdown, ∀ item ∈ category.items,
      ∃ n : ℕ, item.total.getD 0 = n)
    (hS : ((costBreakdown.flatMap (fun category => category.items)).map
      (fun item => item.total.getD 0)).sum = S)
    (hS46 : S ≤ 2 ^ 46)
    (hmod : ctx.isModified "costBreakdown" = true ∨ ctx.isModified "contingency" = true)
    (hentries : ∀ entry ∈ this.costBreakdown, ∃ n : ℕ, entry.estimatedCost.getD 0 = n)
    (hT : (this.costBreakdown.map (fun entry => entry.estimatedCost.getD 0)).sum = T)
    (hT46 : T ≤ 2 ^ 46)
    (hcontingency : this.contingency = p) :
    ((calculateTotalsDouble costBreakdown p).totalCost = S
      ∧ |(calculateTotalsDouble costBreakdown p).finalCost - ((S : ℚ) + S * p / 100)|
        ≤ ((S : ℚ) + S * p / 100) * 2 ^ (-51 : ℤ)
      ∧ (∀ q : ℕ, S * p = 100 * q
        → (calculateTotalsDouble costBreakdown p).contingencyAmount = q
          ∧ (calculateTotalsDouble costBreakdown p).finalCost = (S : ℚ) + q)
      ∧ (p = 0 → (calculateTotalsDouble costBreakdown p).finalCost = S))
    ∧ ((preSaveDouble ctx this).totalCost = some (T : ℚ)
      ∧ ∃ final : ℚ, (preSaveDouble ctx this).finalCost = some final
        ∧ |final - ((T : ℚ) + T * p / 100)| ≤ ((T : ℚ) + T * p / 100) * 2 ^ (-51 : ℤ)
        ∧ (p = 0 → final = T))
    ∧ ((calculateTotalsDouble scenarioA 10).totalCost = 500
      ∧ (calculateTotalsDouble scenarioA 10).contingencyAmount = 50
      ∧ (calculateTotalsDouble scenarioA 10).finalCost = 550
      ∧ (preSaveDouble newDocContext storedScenarioA).totalCost = some 500
      ∧ (preSaveDouble newDocContext storedScenarioA).finalCost = some 550) := by
  have h500 : fadd 0 500 = 500 := by
    have := fadd_zero_whole 500 (by norm_num)
    exact_mod_cast this
  have hj500 : jsOr (some 500) 0 = 500 := by norm_num [jsOr]
  refine ⟨?_, ?_, ?_⟩
  · have hflat : ∀ item ∈ costBreakdown.flatMap (fun category => category.items),
        ∃ n : ℕ, item.total.getD 0 = n := by
      intro item hitem
      obtain ⟨c, hc, hin⟩ := List.mem_flatMap.mp hitem
      exact hitems c hc item hin
    have habs := sum_whole_abs (fun item : LineItem => item.total.getD 0) _ hflat
    have htotal : (calculateTotalsDouble costBreakdown p).totalCost = S := by
      rw [calculateTotalsDouble_totalCost_whole costBreakdown p
        (fun c hc item hin => (sum_whole_abs (fun item : LineItem => item.total.getD 0)
          c.items (hitems c hc)).1 item hin)
        (by
          rw [habs.2, hS]
          have : (S : ℚ) ≤ 2 ^ 46 := by exact_mod_cast hS46
          have h46 : (2 : ℚ) ^ 46 ≤ 2 ^ 53 := by norm_num
          linarith), hS]
    have hfinal : (calculateTotalsDouble costBreakdown p).finalCost
        = fadd S (fdiv (fmul S p) 100) := by
      rw [← htotal]
      rfl
    have hcont : (calculateTotalsDouble costBreakdown p).contingencyAmount
        = fdiv (fmul S p) 100 := by
      rw [← htotal]
      rfl
    have herr := client_finalCost_error S p hp hS46
    refine ⟨htotal, ?_, ?_, ?_⟩
    · rw [hfinal]
      exact herr.2.1
    · intro q hq
      rw [hfinal, hcont]
      exact herr.2.2 q hq
    · intro h0
      rw [hfinal]
      have := (herr.2.2 0 (by rw [h0]; simp)).2
      simpa using this
  · have htot := preSaveDouble_totals ctx this hmod
    have habs := sum_whole_abs (fun entry : CostEntry => entry.estimatedCost.getD 0)
      this.costBreakdown hentries
    have hsub : this.costBreakdown.foldl (fun sum item => fadd sum (jsOr item.estimatedCost 0)) 0
        = (T : ℚ) := by
      have h := foldl_fadd_whole (fun entry : CostEntry => jsOr entry.estimatedCost 0)
        this.costBreakdown 0
        (by simpa [jsOr_zero] using habs.1)
        (by
          have h2 := habs.2
          simp only [jsOr_zero]
          rw [h2, hT]
          have : (T : ℚ) ≤ 2 ^ 46 := by exact_mod_cast hT46
          have h46 : (2 : ℚ) ^ 46 ≤ 2 ^ 53 := by norm_num
          simp
          linarith)
      simp only [jsOr_zero] at h ⊢
      rw [hT] at h
      simpa using h
    have herr := hook_finalCost_error T p hp hT46
    refine ⟨?_, fadd T (fmul T (fdiv p 100)), ?_, herr.1, herr.2⟩
    · rw [htot.1, hsub]
    · rw [htot.2, hsub, hcontingency]
  · have hmod : newDocContext.isModified "costBreakdown" = true
        ∨ newDocContext.isModified "contingency" = true := by
      left
      simp [newDocContext, constructorPaths]
    have h := preSaveDouble_totals newDocContext storedScenarioA hmod
    have hc := client_finalCost_error 500 10 (by norm_num) (by norm_num)
    have hq := hc.2.2 50 (by norm_num)
    have hk := finalCost_scenarioA_hook
    have htotal : (calculateTotalsDouble scenarioA 10).totalCost = 500 := by
      simp only [calculateTotalsDouble, scenarioA, List.foldl_cons, List.foldl_nil, hj500, h500]
    have hcont : (calculateTotalsDouble scenarioA 10).contingencyAmount
        = fdiv (fmul 500 10) 100 := by
      rw [← htotal]
      rfl
    have hfinal : (calculateTotalsDouble scenarioA 10).finalCost
        = fadd 500 (fdiv (fmul 500 10) 100) := by
      rw [← htotal]
      rfl
    refine ⟨htotal, ?_, ?_, ?_, ?_⟩
    · rw [hcont]
      have := hq.1
      norm_num at this ⊢
      exact this
    · rw [hfinal]
      have := hq.2
      norm_num at this ⊢
      exact this
    · rw [h.1]
      simp only [storedScenarioA, List.foldl_cons, List.foldl_nil, hj500, h500]
    · rw [h.2]
      simp only [storedScenarioA, List.foldl_cons, List.foldl_nil, hj500, h500]
      rw [hk.1, hk.2.1, hk.2.2]

/-- Witness for C2 as amended: the breakdown of scenario A with a contingency of
10 percent on the client and its stored form saved as a new document. -/
theorem finalCost_double_error_witness :
    (calculateTotalsDouble scenarioA (10 : ℕ)).totalCost = (500 : ℕ)
      ∧ (calculateTotalsDouble scenarioA (10 : ℕ)).finalCost = ((500 : ℕ) : ℚ) + (50 : ℕ)
      ∧ (preSaveDouble newDocContext storedScenarioA).totalCost = some ((500 : ℕ) : ℚ) := by
  have hmod : newDocContext.isModified "costBreakdown" = true
      ∨ newDocContext.isModified "contingency" = true := by
    left
    simp [newDocContext, constructorPaths]
  have h := finalCost_double_error scenarioA newDocContext storedScenarioA 500 500 10
    (by norm_num)
    (by
      intro category hc item hitem
      simp only [scenarioA, List.mem_singleton] at hc
      subst hc
      simp only [List.mem_singleton] at hitem
      subst hitem
      exact ⟨500, by norm_num⟩)
    (by norm_num [scenarioA])
    (by norm_num)
    hmod
    (by
      intro entry hentry
      simp only [storedScenarioA, List.mem_singleton] at hentry
      subst hentry
      exact ⟨500, by norm_num⟩)
    (by norm_num [storedScenarioA])
    (by norm_num)
    (by norm_num [storedScenarioA])
  exact ⟨h.1.1, (h.1.2.2.1 50 (by norm_num)).2, h.2.1.1⟩

/-! ## Rounded percentages in double precision -/

theorem preSaveDouble_progress (ctx : SaveContext) (this : Estimation)
    (hguard : ctx.isModified "timeline" = true ∨ ctx.isNew = true) :
    (preSaveDouble ctx this).progress
      = if (timelinePhases this).length = 0 then 0
        else ((mathRound
          (fmul (fdiv
            (((timelinePhases this).filter (fun phase => phase.status == "completed")).length : ℚ)
            ((timelinePhases this).length : ℚ)) 100) : ℤ) : ℚ) := by
  have hg : (ctx.isModified "timeline" || ctx.isNew) = true := by
    rcases hguard with h | h <;> simp [h]
  unfold preSaveDouble
  simp only [hg, if_true]
  by_cases hm : (ctx.isModified "costBreakdown" || ctx.isModified "contingency") = true
  · by_cases hl : (timelinePhases this).length = 0
    · simp [hm, hl, timelinePhases] at *
      simp [hl]
    · have hpos : 0 < (timelinePhases this).length := Nat.pos_of_ne_zero hl
      simp [hm, hl, timelinePhases] at *
      simp [hl, hpos]
  · by_cases hl : (timelinePhases this).length = 0
    · simp [hm, hl, timelinePhases] at *
      simp [hl]
    · have hpos : 0 < (timelinePhases this).length := Nat.pos_of_ne_zero hl
      simp [hm, hl, timelinePhases] at *
      simp [hl, hpos]

theorem percent_twenty_three_of_forty :
    fdiv 23 40 = 5179139571476070 * 2 ^ (-53 : ℤ)
      ∧ fmul (5179139571476070 * 2 ^ (-53 : ℤ)) 100 = 8092405580431359 * 2 ^ (-47 : ℤ)
      ∧ mathRound (8092405580431359 * 2 ^ (-47 : ℤ)) = 57
      ∧ mathRound (100 * 23 / 40) = 58 := by
  refine ⟨?_, ?_, ?_, ?_⟩
  · have h := toDouble_eval_near (23 / 40) (-53) 5179139571476070 (by norm_num)
      (by rw [abs_of_pos (by norm_num)]; norm_num)
      (by rw [abs_of_pos (by norm_num)]; norm_num)
      (by rw [abs_lt]; constructor <;> norm_num)
    unfold fdiv
    exact_mod_cast h
  · have h := toDouble_eval_near (5179139571476070 * 2 ^ (-53 : ℤ) * 100) (-47)
      8092405580431359 (by norm_num)
      (by rw [abs_of_pos (by norm_num)]; norm_num)
      (by rw [abs_of_pos (by norm_num)]; norm_num)
      (by rw [abs_lt]; constructor <;> norm_num)
    unfold fmul
    exact_mod_cast h
  · unfold mathRound
    rw [Int.floor_eq_iff]
    constructor <;> norm_num
  · unfold mathRound
    rw [Int.floor_eq_iff]
    constructor <;> norm_num

theorem twentyThreeOfForty_counts :
    (twentyThreeOfForty.filter (fun phase => phase.status == "completed")).length = 23
      ∧ twentyThreeOfForty.length = 40 := by
  constructor
  · decide
  · decide

/-- C5 fails as stated: for 40 phases of which 23 are completed the hook computes
(23 / 40) * 100 in doubles, which is 57.49999999999999, and stores the progress
57, while round(100 * 23 / 40) = round(57.5) is 58. -/
theorem preSaveDouble_progress_counterexample :
    (preSaveDouble newDocContext
        { estimationScenarioB with timeline := some { phases := some twentyThreeOfForty } }).progress
        = 57
      ∧ mathRound (100 * ((twentyThreeOfForty.filter
            (fun phase => phase.status == "completed")).length : ℚ)
          / (twentyThreeOfForty.length : ℚ)) = 58 := by
  have hguard : newDocContext.isModified "timeline" = true ∨ newDocContext.isNew = true :=
    Or.inr rfl
  have hc := twentyThreeOfForty_counts
  have hp := percent_twenty_three_of_forty
  constructor
  · rw [preSaveDouble_progress newDocContext _ hguard]
    simp only [timelinePhases, Option.getD_some, hc.1, hc.2]
    norm_num
    rw [hp.1, hp.2.1, hp.2.2.1]
    norm_num
  · rw [hc.1, hc.2]
    have := hp.2.2.2
    norm_num at this ⊢
    exact this

theorem mathRound_percent_count (c t : ℕ) (ht : 0 < t) (hct : c ≤ t) (ht32 : t < 2 ^ 32) :
    (mathRound (fmul (fdiv (c : ℚ) (t : ℚ)) 100) = mathRound (100 * (c : ℚ) / t)
        ∨ mathRound (fmul (fdiv (c : ℚ) (t : ℚ)) 100) = mathRound (100 * (c : ℚ) / t) - 1)
      ∧ ((∀ n : ℤ, 100 * (c : ℚ) / t ≠ n + 1 / 2)
        → mathRound (fmul (fdiv (c : ℚ) (t : ℚ)) 100) = mathRound (100 * (c : ℚ) / t)) := by
  have h := mathRound_percent (c : ℤ) (t : ℤ) (by exact_mod_cast ht)
    (by
      have : t ≤ 2 ^ 53 := le_trans (le_of_lt ht32) (by norm_num)
      exact_mod_cast this)
    (by
      rw [abs_of_nonneg (by positivity)]
      have : c ≤ 2 ^ 40 := le_trans hct (le_trans (le_of_lt ht32) (by norm_num))
      exact_mod_cast this)
  simpa using h

/-- C5 as amended: when the save hook recomputes the progress (the document is
new or its timeline is modified) for a non-empty list of fewer than 2^32 phases,
the progress is round(100 * completed / total), round being the nearest integer
with a tie going up, unless 100 * completed / total lies exactly halfway between
two integers, in which case it is that value or one less; an empty or absent
phase list gives progress 0; the phases completed, planned, completed give 67. -/
theorem preSaveDouble_progress_round (ctx : SaveContext) (this : Estimation)
    (hguard : ctx.isModified "timeline" = true ∨ ctx.isNew = true)
    (hlength : (timelinePhases this).length < 2 ^ 32) :
    ((timelinePhases this).length ≠ 0
        → ((preSaveDouble ctx this).progress
              = ((mathRound (100 * (((timelinePhases this).filter
                    (fun phase => phase.status == "completed")).length : ℚ)
                  / ((timelinePhases this).length : ℚ)) : ℤ) : ℚ)
            ∨ (preSaveDouble ctx this).progress
              = ((mathRound (100 * (((timelinePhases this).filter
                    (fun phase => phase.status == "completed")).length : ℚ)
                  / ((timelinePhases this).length : ℚ)) - 1 : ℤ) : ℚ))
          ∧ ((∀ n : ℤ, 100 * (((timelinePhases this).filter
                    (fun phase => phase.status == "completed")).length : ℚ)
                  / ((timelinePhases this).length : ℚ) ≠ n + 1 / 2)
            → (preSaveDouble ctx this).progress
              = ((mathRound (100 * (((timelinePhases this).filter
                    (fun phase => phase.status == "completed")).length : ℚ)
                  / ((timelinePhases this).length : ℚ)) : ℤ) : ℚ)))
      ∧ (preSaveDouble ctx { this with timeline := none }).progress = 0
      ∧ (∀ d : ℚ,
          (preSaveDouble ctx
            { this with timeline := some { phases := none, totalDuration := d } }).progress = 0)
      ∧ (∀ d : ℚ,
          (preSaveDouble ctx
            { this with timeline := some { phases := some [], totalDuration := d } }).progress = 0)
      ∧ (preSaveDouble ctx { this with timeline := some { phases := some scenarioB } }).progress
        = 67 := by
  refine ⟨?_, ?_, ?_, ?_, ?_⟩
  · intro hne
    have hpos : 0 < (timelinePhases this).length := Nat.pos_of_ne_zero hne
    have h := mathRound_percent_count
      ((timelinePhases this).filter (fun phase => phase.status == "completed")).length
      (timelinePhases this).length hpos (List.length_filter_le _ _) hlength
    rw [preSaveDouble_progress ctx this hguard]
    simp only [hne, if_false]
    constructor
    · rcases h.1 with h1 | h1
      · left
        rw [h1]
      · right
        rw [h1]
    · intro hnt
      rw [h.2 hnt]
  · rw [preSaveDouble_progress ctx _ hguard]
    simp [timelinePhases]
  · intro d
    rw [preSaveDouble_progress ctx _ hguard]
    simp [timelinePhases]
  · intro d
    rw [preSaveDouble_progress ctx _ hguard]
    simp [timelinePhases]
  · rw [preSaveDouble_progress ctx _ hguard]
    have hcount : (scenarioB.filter (fun phase => phase.status == "completed")).length = 2
        ∧ scenarioB.length = 3 := by
      constructor <;> decide
    simp only [timelinePhases, Option.getD_some, hcount.1, hcount.2]
    have h := (mathRound_percent_count 2 3 (by norm_num) (by norm_num) (by norm_num)).2 (by
      intro n hn
      have h2 : (400 : ℚ) = ((6 * n + 3 : ℤ) : ℚ) := by
        push_cast
        norm_num at hn
        linarith
      have h3 : (400 : ℤ) = 6 * n + 3 := by exact_mod_cast h2
      omega)
    have hr : mathRound (100 * ((2 : ℕ) : ℚ) / ((3 : ℕ) : ℚ)) = 67 := by
      unfold mathRound
      rw [Int.floor_eq_iff]
      constructor <;> norm_num
    rw [hr] at h
    norm_num at h ⊢
    rw [h]
    norm_num

/-- Witness for C5 as amended: scenario B saved as a new document; 200 / 3 is not
halfway between two integers, so the progress is round(200 / 3). -/
theorem preSaveDouble_progress_round_witness :
    (newDocContext.isModified "timeline" = true ∨ newDocContext.isNew = true)
      ∧ (timelinePhases estimationScenarioB).length < 2 ^ 32
      ∧ (timelinePhases estimationScenarioB).length ≠ 0
      ∧ ((preSaveDouble newDocContext estimationScenarioB).progress
            = ((mathRound (100 * (((timelinePhases estimationScenarioB).filter
                  (fun phase => phase.status == "completed")).length : ℚ)
                / ((timelinePhases estimationScenarioB).length : ℚ)) : ℤ) : ℚ)
          ∨ (preSaveDouble newDocContext estimationScenarioB).progress
            = ((mathRound (100 * (((timelinePhases estimationScenarioB).filter
                  (fun phase => phase.status == "completed")).length : ℚ)
                / ((timelinePhases estimationScenarioB).length : ℚ)) - 1 : ℤ) : ℚ)) := by
  have hguard : newDocContext.isModified "timeline" = true ∨ newDocContext.isNew = true :=
    Or.inr rfl
  have hlength : (timelinePhases estimationScenarioB).length < 2 ^ 32 := by
    simp [timelinePhases, estimationScenarioB, scenarioB]
  have hne : (timelinePhases estimationScenarioB).length ≠ 0 := by
    simp [timelinePhases, estimationScenarioB, scenarioB]
  exact ⟨hguard, hlength, hne,
    ((preSaveDouble_progress_round newDocContext estimationScenarioB hguard hlength).1 hne).1⟩

theorem percent_twenty_nine_of_two_hundred :
    fsub 200 171 = 29
      ∧ fdiv 29 200 = 5224175567749775 * 2 ^ (-55 : ℤ)
      ∧ fmul (5224175567749775 * 2 ^ (-55 : ℤ)) 100 = 8162774324609023 * 2 ^ (-49 : ℤ)
      ∧ mathRound (8162774324609023 * 2 ^ (-49 : ℤ)) = 14
      ∧ mathRound (100 * (200 - 171) / 200) = 15 := by
  refine ⟨?_, ?_, ?_, ?_, ?_⟩
  · have h := toDouble_intCast 29 (by norm_num)
    unfold fsub
    norm_num at h ⊢
    exact h
  · have h := toDouble_eval_near (29 / 200) (-55) 5224175567749775 (by norm_num)
      (by rw [abs_of_pos (by norm_num)]; norm_num)
      (by rw [abs_of_pos (by norm_num)]; norm_num)
      (by rw [abs_lt]; constructor <;> norm_num)
    unfold fdiv
    exact_mod_cast h
  · have h := toDouble_eval_near (5224175567749775 * 2 ^ (-55 : ℤ) * 100) (-49)
      8162774324609023 (by norm_num)
      (by rw [abs_of_pos (by norm_num)]; norm_num)
      (by rw [abs_of_pos (by norm_num)]; norm_num)
      (by rw [abs_lt]; constructor <;> norm_num)
    unfold fmul
    exact_mod_cast h
  · unfold mathRound
    rw [Int.floor_eq_iff]
    constructor <;> norm_num
  · unfold mathRound
    rw [Int.floor_eq_iff]
    constructor <;> norm_num

/-- C8 fails as stated: for an estimation with final cost 200 and total cost 171
the report gives profit 29 and margin 14, the double (29 / 200) * 100 being
14.499999999999998, while 29 / 200 * 100 = 14.5 rounds to 15. -/
theorem calculateFinancialReportDouble_margin_counterexample :
    (calculateFinancialReportDouble [] [marginAtTie] sampleDate sampleDate).projectProfitability.map
        (fun entry => (entry.revenue, entry.cost, entry.profit, entry.margin))
      = [(200, 171, 29, 14)]
    ∧ mathRound (100 * (200 - 171) / 200) = 15 := by
  have hp := percent_twenty_nine_of_two_hundred
  have hj1 : jsOr (some 200) 0 = 200 := by norm_num [jsOr]
  have hj2 : jsOr (some 171) 0 = 171 := by norm_num [jsOr]
  refine ⟨?_, hp.2.2.2.2⟩
  simp only [calculateFinancialReportDouble, marginAtTie, List.map_cons, List.map_nil, hj1, hj2,
    hp.1, hp.2.1, hp.2.2.1]
  have h14 := hp.2.2.2.1
  norm_num at h14 ⊢
  exact h14

theorem fsub_whole (r c : ℤ) (hr : |r| ≤ 2 ^ 39) (hc : |c| ≤ 2 ^ 39) :
    fsub (r : ℚ) (c : ℚ) = ((r - c : ℤ) : ℚ) ∧ |r - c| ≤ 2 ^ 40 := by
  have hle : |r - c| ≤ 2 ^ 40 := by
    have := abs_sub r c
    have h2 : (2 : ℤ) ^ 39 + 2 ^ 39 = 2 ^ 40 := by norm_num
    omega
  refine ⟨?_, hle⟩
  unfold fsub
  rw [← Int.cast_sub]
  exact toDouble_intCast _ (le_trans hle (by norm_num))

/-- C8 as amended: for estimations whose final cost R and total cost C are whole
numbers of absolute value at most 2^39 (a missing cost counted as 0), the
financial report lists for each estimation the profit R - C; the margin is 0
when R is not positive; when R is positive the margin is
round(100 * (R - C) / R), round being the nearest integer with a tie going up,
unless that quotient lies exactly halfway between two integers, in which case
the margin is that value or one less; final cost 1000 and total cost 800 give
profit 200 and margin 20. -/
theorem calculateFinancialReportDouble_profitability (projects : List Project)
    (estimations : List Estimation) (startDate endDate : JsDate)
    (hwhole : ∀ e ∈ estimations, ∃ r c : ℤ,
      e.finalCost.getD 0 = r ∧ e.totalCost.getD 0 = c ∧ |r| ≤ 2 ^ 39 ∧ |c| ≤ 2 ^ 39) :
    List.Forall₂
        (fun (e : Estimation) (entry : ProfitabilityEntry) =>
          entry.projectName = e.projectName
            ∧ entry.revenue = e.finalCost.getD 0
            ∧ entry.cost = e.totalCost.getD 0
            ∧ entry.profit = e.finalCost.getD 0 - e.totalCost.getD 0
            ∧ (e.finalCost.getD 0 ≤ 0 → entry.margin = 0)
            ∧ (0 < e.finalCost.getD 0
              → (entry.margin
                    = mathRound (100 * (e.finalCost.getD 0 - e.totalCost.getD 0)
                        / e.finalCost.getD 0)
                  ∨ entry.margin
                    = mathRound (100 * (e.finalCost.getD 0 - e.totalCost.getD 0)
                        / e.finalCost.getD 0) - 1)
                ∧ ((∀ n : ℤ, 100 * (e.finalCost.getD 0 - e.totalCost.getD 0)
                      / e.finalCost.getD 0 ≠ n + 1 / 2)
                  → entry.margin
                    = mathRound (100 * (e.finalCost.getD 0 - e.totalCost.getD 0)
                        / e.finalCost.getD 0))))
        estimations
        (calculateFinancialReportDouble projects estimations startDate endDate).projectProfitability
      ∧ (calculateFinancialReportDouble projects [scenarioD] startDate
            endDate).projectProfitability.map
          (fun entry => (entry.profit, entry.margin))
        = [(200, 20)] := by
  have hgen : ∀ e : Estimation, (∃ r c : ℤ,
      e.finalCost.getD 0 = r ∧ e.totalCost.getD 0 = c ∧ |r| ≤ 2 ^ 39 ∧ |c| ≤ 2 ^ 39)
      → fsub (jsOr e.finalCost 0) (jsOr e.totalCost 0) = e.finalCost.getD 0 - e.totalCost.getD 0
        ∧ (e.finalCost.getD 0 ≤ 0
          → mathRound (if jsOr e.finalCost 0 > 0
              then fmul (fdiv (fsub (jsOr e.finalCost 0) (jsOr e.totalCost 0))
                (jsOr e.finalCost 0)) 100
              else 0) = 0)
        ∧ (0 < e.finalCost.getD 0
          → (mathRound (if jsOr e.finalCost 0 > 0
                then fmul (fdiv (fsub (jsOr e.finalCost 0) (jsOr e.totalCost 0))
                  (jsOr e.finalCost 0)) 100
                else 0)
                = mathRound (100 * (e.finalCost.getD 0 - e.totalCost.getD 0)
                    / e.finalCost.getD 0)
              ∨ mathRound (if jsOr e.finalCost 0 > 0
                then fmul (fdiv (fsub (jsOr e.finalCost 0) (jsOr e.totalCost 0))
                  (jsOr e.finalCost 0)) 100
                else 0)
                = mathRound (100 * (e.finalCost.getD 0 - e.totalCost.getD 0)
                    / e.finalCost.getD 0) - 1)
            ∧ ((∀ n : ℤ, 100 * (e.finalCost.getD 0 - e.totalCost.getD 0)
                  / e.finalCost.getD 0 ≠ n + 1 / 2)
              → mathRound (if jsOr e.finalCost 0 > 0
                then fmul (fdiv (fsub (jsOr e.finalCost 0) (jsOr e.totalCost 0))
                  (jsOr e.finalCost 0)) 100
                else 0)
                = mathRound (100 * (e.finalCost.getD 0 - e.totalCost.getD 0)
                    / e.finalCost.getD 0))) := by
    intro e hex
    obtain ⟨r, c, hr, hc, hr39, hc39⟩ := hex
    have hsub := fsub_whole r c hr39 hc39
    simp only [jsOr_zero, hr, hc]
    refine ⟨?_, ?_, ?_⟩
    · rw [hsub.1]
      push_cast
      ring
    · intro hle
      have : ¬ ((r : ℚ) > 0) := by linarith
      simp [this, mathRound]
      norm_num
    · intro hpos
      have hposInt : 0 < r := by exact_mod_cast hpos
      have hr53 : r ≤ 2 ^ 53 := by
        have := le_abs_self r
        have h2 : (2 : ℤ) ^ 39 ≤ 2 ^ 53 := by norm_num
        omega
      have h := mathRound_percent (r - c) r hposInt hr53 hsub.2
      simp only [gt_iff_lt, hpos, if_true, hsub.1]
      push_cast at h ⊢
      exact h
  constructor
  · simp only [calculateFinancialReportDouble]
    rw [List.forall₂_map_right_iff, List.forall₂_same]
    intro e he
    have h := hgen e (hwhole e he)
    exact ⟨rfl, by simp [jsOr_zero], by simp [jsOr_zero], h.1, h.2.1, h.2.2⟩
  · have h := hgen scenarioD ⟨1000, 800, by norm_num [scenarioD], by norm_num [scenarioD],
      by norm_num, by norm_num⟩
    have hnt := (h.2.2 (by norm_num [scenarioD])).2 (by
      intro n hn
      norm_num [scenarioD] at hn
      have h2 : (40 : ℚ) = ((2 * n + 1 : ℤ) : ℚ) := by
        push_cast
        linarith
      have h3 : (40 : ℤ) = 2 * n + 1 := by exact_mod_cast h2
      omega)
    have hr : mathRound (100 * (scenarioD.finalCost.getD 0 - scenarioD.totalCost.getD 0)
        / scenarioD.finalCost.getD 0) = 20 := by
      unfold mathRound
      rw [Int.floor_eq_iff]
      constructor <;> norm_num [scenarioD]
    simp only [calculateFinancialReportDouble, List.map_cons, List.map_nil]
    rw [hnt, hr, h.1]
    norm_num [scenarioD]

/-- Witness for C8 as amended: scenario D, with whole-number costs 1000 and 800,
yields profit 200 and margin 20. -/
theorem calculateFinancialReportDouble_profitability_witness :
    (∀ e ∈ [scenarioD], ∃ r c : ℤ,
        e.finalCost.getD 0 = r ∧ e.totalCost.getD 0 = c ∧ |r| ≤ 2 ^ 39 ∧ |c| ≤ 2 ^ 39)
      ∧ (calculateFinancialReportDouble [] [scenarioD] sampleDate
            sampleDate).projectProfitability.map
          (fun entry => (entry.profit, entry.margin))
        = [(200, 20)] := by
  have hwhole : ∀ e ∈ [scenarioD], ∃ r c : ℤ,
      e.finalCost.getD 0 = r ∧ e.totalCost.getD 0 = c ∧ |r| ≤ 2 ^ 39 ∧ |c| ≤ 2 ^ 39 := by
    intro e he
    simp only [List.mem_singleton] at he
    subst he
    exact ⟨1000, 800, by norm_num [scenarioD], by norm_num [scenarioD], by norm_num,
      by norm_num⟩
  exact ⟨hwhole, (calculateFinancialReportDouble_profitability [] [scenarioD] sampleDate
    sampleDate hwhole).2⟩

theorem calculateProjectsReportDouble_projectStatus (projectIdText : Estimation → Option String)
    (projects : List Project) (estimations : List Estimation) :
    (calculateProjectsReportDouble projectIdText projects estimations).projectStatus
      = [ { status := "Completed"
            count := projects.countP (fun p => decide (toLowerCase p.status = "completed"))
            percentage :=
              if projects.countP (fun p => decide (toLowerCase p.status = "completed"))
                  + projects.countP (fun p => decide (toLowerCase p.status = "in progress"))
                  + projects.countP (fun p => decide (toLowerCase p.status = "planning")) > 0
              then mathRound (fmul (fdiv
                ((projects.countP (fun p => decide (toLowerCase p.status = "completed")) : ℕ) : ℚ)
                ((projects.countP (fun p => decide (toLowerCase p.status = "completed"))
                  + projects.countP (fun p => decide (toLowerCase p.status = "in progress"))
                  + projects.countP (fun p => decide (toLowerCase p.status = "planning")) : ℕ) : ℚ))
                100)
              else 0 },
          { status := "In Progress"
            count := projects.countP (fun p => decide (toLowerCase p.status = "in progress"))
            percentage :=
              if projects.countP (fun p => decide (toLowerCase p.status = "completed"))
                  + projects.countP (fun p => decide (toLowerCase p.status = "in progress"))
                  + projects.countP (fun p => decide (toLowerCase p.status = "planning")) > 0
              then mathRound (fmul (fdiv
                ((projects.countP (fun p => decide (toLowerCase p.status = "in progress")) : ℕ) : ℚ)
                ((projects.countP (fun p => decide (toLowerCase p.status = "completed"))
                  + projects.countP (fun p => decide (toLowerCase p.status = "in progress"))
                  + projects.countP (fun p => decide (toLowerCase p.status = "planning")) : ℕ) : ℚ))
                100)
              else 0 },
          { status := "Planning"
            count := projects.countP (fun p => decide (toLowerCase p.status = "planning"))
            percentage :=
              if projects.countP (fun p => decide (toLowerCase p.status = "completed"))
                  + projects.countP (fun p => decide (toLowerCase p.status = "in progress"))
                  + projects.countP (fun p => decide (toLowerCase p.status = "planning")) > 0
              then mathRound (fmul (fdiv
                ((projects.countP (fun p => decide (toLowerCase p.status = "planning")) : ℕ) : ℚ)
                ((projects.countP (fun p => decide (toLowerCase p.status = "completed"))
                  + projects.countP (fun p => decide (toLowerCase p.status = "in progress"))
                  + projects.countP (fun p => decide (toLowerCase p.status = "planning")) : ℕ) : ℚ))
                100)
              else 0 } ] := by
  simp only [calculateProjectsReportDouble, foldl_countStatus_three]
  simp only [List.map_cons, List.map_nil, List.foldl_cons, List.foldl_nil, Nat.zero_add,
    Nat.add_zero]

theorem percent_one_of_one : mathRound (fmul (fdiv 1 1) 100) = 100
    ∧ mathRound (fmul (fdiv 0 1) 100) = 0
    ∧ mathRound (100 * 1 / 2) = 50 := by
  have h1 : fdiv 1 1 = 1 := by
    have h := toDouble_intCast 1 (by norm_num)
    unfold fdiv
    norm_num at h ⊢
    exact h
  have h0 : fdiv 0 1 = 0 := by
    unfold fdiv
    norm_num [toDouble_zero]
  have h100 : fmul 1 100 = 100 := by
    have h := toDouble_intCast 100 (by norm_num)
    unfold fmul
    norm_num at h ⊢
    exact h
  have h00 : fmul 0 100 = 0 := by
    unfold fmul
    norm_num [toDouble_zero]
  refine ⟨?_, ?_, ?_⟩
  · rw [h1, h100]
    norm_num [mathRound]
  · rw [h0, h00]
    norm_num [mathRound]
  · unfold mathRound
    rw [Int.floor_eq_iff]
    constructor <;> norm_num

theorem twentyThreeOfFortyProjects_counts :
    twentyThreeOfFortyProjects.countP (fun p => decide (toLowerCase p.status = "completed")) = 23
      ∧ twentyThreeOfFortyProjects.countP
          (fun p => decide (toLowerCase p.status = "in progress")) = 0
      ∧ twentyThreeOfFortyProjects.countP
          (fun p => decide (toLowerCase p.status = "planning")) = 17
      ∧ twentyThreeOfFortyProjects.length = 40 := by
  refine ⟨?_, ?_, ?_, ?_⟩ <;> decide

/-- C10 fails as stated: for a completed project and a project on hold the entry
Completed has percentage 100, while 100 times its count over the number of
projects rounds to 50; and for 23 completed projects and 17 in planning the
entry Completed has percentage 57, the double (23 / 40) * 100 being
57.49999999999999, while round(100 * 23 / 40) is 58. -/
theorem calculateProjectsReportDouble_percentage_counterexample :
    ((calculateProjectsReportDouble populatedProjectIdText completedAndOnHold []).projectStatus.map
          (fun s => (s.status, s.count, s.percentage))
        = [("Completed", 1, 100), ("In Progress", 0, 0), ("Planning", 0, 0)]
      ∧ mathRound (100 * 1 / (completedAndOnHold.length : ℚ)) = 50)
    ∧ (((calculateProjectsReportDouble populatedProjectIdText twentyThreeOfFortyProjects
            []).projectStatus.map (fun s => (s.status, s.count, s.percentage))).head?
        = some ("Completed", 23, 57)
      ∧ mathRound (100 * 23 / (twentyThreeOfFortyProjects.length : ℚ)) = 58) := by
  have h1 := percent_one_of_one
  have hp := percent_twenty_three_of_forty
  have hc := twentyThreeOfFortyProjects_counts
  have hcounts : completedAndOnHold.countP (fun p => decide (toLowerCase p.status = "completed"))
        = 1
      ∧ completedAndOnHold.countP (fun p => decide (toLowerCase p.status = "in progress")) = 0
      ∧ completedAndOnHold.countP (fun p => decide (toLowerCase p.status = "planning")) = 0 := by
    refine ⟨?_, ?_, ?_⟩ <;> decide
  refine ⟨⟨?_, ?_⟩, ?_, ?_⟩
  · rw [calculateProjectsReportDouble_projectStatus]
    simp only [hcounts.1, hcounts.2.1, hcounts.2.2]
    norm_num
    exact ⟨h1.1, h1.2.1⟩
  · have : (completedAndOnHold.length : ℚ) = 2 := by
      norm_num [completedAndOnHold]
    rw [this]
    exact h1.2.2
  · rw [calculateProjectsReportDouble_projectStatus]
    simp only [hc.1, hc.2.1, hc.2.2.1]
    norm_num
    rw [hp.1, hp.2.1]
    exact hp.2.2.1
  · rw [hc.2.2.2]
    have := hp.2.2.2
    norm_num at this ⊢
    exact this

theorem mathRound_percent_share (c T n : ℕ) (hc : c ≤ n) (hT : T ≤ 3 * n) (hpos : 0 < T)
    (hn : n < 2 ^ 32) :
    (mathRound (fmul (fdiv (c : ℚ) (T : ℚ)) 100) = mathRound (100 * (c : ℚ) / T)
        ∨ mathRound (fmul (fdiv (c : ℚ) (T : ℚ)) 100) = mathRound (100 * (c : ℚ) / T) - 1)
      ∧ ((∀ k : ℤ, 100 * (c : ℚ) / T ≠ k + 1 / 2)
        → mathRound (fmul (fdiv (c : ℚ) (T : ℚ)) 100) = mathRound (100 * (c : ℚ) / T)) := by
  have h := mathRound_percent (c : ℤ) (T : ℤ) (by exact_mod_cast hpos)
    (by
      have h1 : (3 : ℕ) * 2 ^ 32 ≤ 2 ^ 53 := by norm_num
      have : T ≤ 2 ^ 53 := by omega
      exact_mod_cast this)
    (by
      rw [abs_of_nonneg (by positivity)]
      have h1 : (2 : ℕ) ^ 32 ≤ 2 ^ 40 := by norm_num
      have : c ≤ 2 ^ 40 := by omega
      exact_mod_cast this)
  simpa using h

/-- C10 as amended: for fewer than 2^32 projects, each status entry has percentage
round(100 * count / T), where T is the sum of the counts of the three entries
(projects counted under none of them are left out) and round is the nearest
integer with a tie going up, unless 100 * count / T lies exactly halfway between
two integers, in which case the percentage is that value or one less; the
percentage is 0 when T is 0, in particular for the empty list of projects. -/
theorem calculateProjectsReportDouble_percentages (projectIdText : Estimation → Option String)
    (projects : List Project) (estimations : List Estimation)
    (hlength : projects.length < 2 ^ 32) :
    (∀ s ∈ (calculateProjectsReportDouble projectIdText projects estimations).projectStatus,
        (((calculateProjectsReportDouble projectIdText projects estimations).projectStatus.map
              (fun t => t.count)).sum = 0
          → s.percentage = 0)
        ∧ (((calculateProjectsReportDouble projectIdText projects estimations).projectStatus.map
              (fun t => t.count)).sum ≠ 0
          → (s.percentage
                = mathRound (100 * (s.count : ℚ)
                    / ((((calculateProjectsReportDouble projectIdText projects
                        estimations).projectStatus.map (fun t => t.count)).sum : ℕ) : ℚ))
              ∨ s.percentage
                = mathRound (100 * (s.count : ℚ)
                    / ((((calculateProjectsReportDouble projectIdText projects
                        estimations).projectStatus.map (fun t => t.count)).sum : ℕ) : ℚ)) - 1)
            ∧ ((∀ k : ℤ, 100 * (s.count : ℚ)
                    / ((((calculateProjectsReportDouble projectIdText projects
                        estimations).projectStatus.map (fun t => t.count)).sum : ℕ) : ℚ)
                  ≠ k + 1 / 2)
              → s.percentage
                = mathRound (100 * (s.count : ℚ)
                    / ((((calculateProjectsReportDouble projectIdText projects
                        estimations).projectStatus.map (fun t => t.count)).sum : ℕ) : ℚ)))))
      ∧ (calculateProjectsReportDouble projectIdText [] estimations).projectStatus.map
          (fun s => s.percentage)
        = [0, 0, 0] := by
  constructor
  · rw [calculateProjectsReportDouble_projectStatus]
    generalize hc1 : projects.countP (fun p => decide (toLowerCase p.status = "completed")) = c1
    generalize hc2 : projects.countP (fun p => decide (toLowerCase p.status = "in progress")) = c2
    generalize hc3 : projects.countP (fun p => decide (toLowerCase p.status = "planning")) = c3
    have h1 : c1 ≤ projects.length := by rw [← hc1]; exact List.countP_le_length _
    have h2 : c2 ≤ projects.length := by rw [← hc2]; exact List.countP_le_length _
    have h3 : c3 ≤ projects.length := by rw [← hc3]; exact List.countP_le_length _
    simp only [List.map_cons, List.map_nil, List.sum_cons, List.sum_nil, Nat.add_zero,
      Nat.add_assoc]
    generalize hTdef : c1 + (c2 + c3) = T
    intro s hs
    have hT : T ≤ 3 * projects.length := by omega
    simp only [List.mem_cons, List.mem_singleton, List.not_mem_nil, or_false] at hs
    constructor
    · intro hzero
      have hnot : ¬ (T > 0) := by omega
      rcases hs with hs | hs | hs <;> (rw [hs]; simp only [hnot, if_false])
    · intro hne
      have hpos : 0 < T := Nat.pos_of_ne_zero hne
      have hgt : T > 0 := hpos
      rcases hs with hs | hs | hs
      · rw [hs]
        simp only [hgt, if_true]
        exact mathRound_percent_share c1 T projects.length h1 hT hpos hlength
      · rw [hs]
        simp only [hgt, if_true]
        exact mathRound_percent_share c2 T projects.length h2 hT hpos hlength
      · rw [hs]
        simp only [hgt, if_true]
        exact mathRound_percent_share c3 T projects.length h3 hT hpos hlength
  · rw [calculateProjectsReportDouble_projectStatus]
    simp

/-- Witness for C10 as amended: the six sample projects, of which five are
counted, three completed and two in planning. -/
theorem calculateProjectsReportDouble_percentages_witness :
    sixProjects.length < 2 ^ 32
      ∧ ∀ s ∈ (calculateProjectsReportDouble populatedProjectIdText sixProjects []).projectStatus,
        ((calculateProjectsReportDouble populatedProjectIdText sixProjects []).projectStatus.map
            (fun t => t.count)).sum ≠ 0
        → (s.percentage
              = mathRound (100 * (s.count : ℚ)
                  / ((((calculateProjectsReportDouble populatedProjectIdText sixProjects
                      []).projectStatus.map (fun t => t.count)).sum : ℕ) : ℚ))
            ∨ s.percentage
              = mathRound (100 * (s.count : ℚ)
                  / ((((calculateProjectsReportDouble populatedProjectIdText sixProjects
                      []).projectStatus.map (fun t => t.count)).sum : ℕ) : ℚ)) - 1) := by
  have hlength : sixProjects.length < 2 ^ 32 := by
    norm_num [sixProjects]
  refine ⟨hlength, ?_⟩
  intro s hs hne
  exact (((calculateProjectsReportDouble_percentages populatedProjectIdText sixProjects []
    hlength).1 s hs).2 hne).1

/-! ## Items without pair data -/

theorem updatedItem_fields (item : LineItem) (edit : ItemEdit) :
    (updatedItem item edit).hours = (applyEdit item edit).hours
      ∧ (updatedItem item edit).quantity = (applyEdit item edit).quantity
      ∧ (updatedItem item edit).months = (applyEdit item edit).months := by
  unfold updatedItem
  split_ifs <;> exact ⟨rfl, rfl, rfl⟩

theorem editorItem_branch_field (item : LineItem) (h : EditorItem item) :
    item.hours.isSome = true ∨ item.quantity.isSome = true ∨ item.months.isSome = true := by
  induction h with
  | added now => right; left; rfl
  | loaded entry => left; rfl
  | edited item edit _ hedit ih =>
    have hf := updatedItem_fields item edit
    rw [hf.1, hf.2.1, hf.2.2]
    cases edit with
    | name value => exact ih
    | hours value =>
      cases value with
      | none => simp [inputEdit] at hedit
      | some v => left; rfl
    | rate value => exact ih
    | quantity value =>
      cases value with
      | none => simp [inputEdit] at hedit
      | some v => right; left; rfl
    | unitCost value => exact ih
    | months value =>
      cases value with
      | none => simp [inputEdit] at hedit
      | some v => right; right; rfl
    | monthlyCost value => exact ih
    | total value => exact ih
    | other => exact ih

/-- C19: for every item that the editor can hold (created by `addItem`, built by
`loadEstimation`, or returned by `updateItem` for an edit of an input), if after
the edit none of the three field pairs has both of its values different from 0
(a missing value counted as 0), the total of the item after `updateItem` is 0,
whatever total the item carried before. -/
theorem updatedItem_total_zero (item : LineItem) (hitem : EditorItem item) (edit : ItemEdit)
    (hhours : (applyEdit item edit).hours.getD 0 = 0 ∨ (applyEdit item edit).rate.getD 0 = 0)
    (hquantity : (applyEdit item edit).quantity.getD 0 = 0
      ∨ (applyEdit item edit).unitCost.getD 0 = 0)
    (hmonths : (applyEdit item edit).months.getD 0 = 0
      ∨ (applyEdit item edit).monthlyCost.getD 0 = 0) :
    (updatedItem item edit).total = some 0 := by
  have hbranch := editorItem_branch_field item hitem
  have hzero : ∀ a b : ℚ, a = 0 ∨ b = 0 → a * b = 0 := by
    intro a b h
    rcases h with h | h <;> simp [h]
  unfold updatedItem
  by_cases hh : item.hours.isSome = true
  · simp only [hh, if_true, jsOr_zero]
    rw [hzero _ _ hhours]
  · by_cases hq : item.quantity.isSome = true
    · simp only [hh, hq, if_true, jsOr_zero]
      simp [hzero _ _ hquantity]
    · have hm : item.months.isSome = true := by
        rcases hbranch with h | h | h
        · exact absurd h hh
        · exact absurd h hq
        · exact h
      simp only [hh, hq, hm, if_true, jsOr_zero]
      simp [hzero _ _ hmonths]

/-- Witness for C19: the item loaded from the stored entry of 500 has all six
fields 0 and total 500; after its name is edited its total is 0. -/
theorem updatedItem_total_zero_witness :
    (loadedItem { category := "Labor", estimatedCost := some 500, description := some "Dev" }).total
        = some 500
      ∧ (updatedItem
          (loadedItem { category := "Labor", estimatedCost := some 500, description := some "Dev" })
          (.name (some "Design"))).total = some 0 := by
  constructor
  · simp [loadedItem, jsOr]
  · apply updatedItem_total_zero _ (EditorItem.loaded _)
    · left
      simp [applyEdit, loadedItem, jsOr]
    · left
      simp [applyEdit, loadedItem, jsOr]
    · left
      simp [applyEdit, loadedItem, jsOr]

/-! ## The estimation routes from the request on -/

theorem deleteEstimationRoute_cases (db : Db) (userId id : String) :
    (findById db id = none
        → deleteEstimationRoute db userId id = (.failure 404 "Estimation not found", db))
      ∧ (∀ e, findById db id = some e → e.userId ≠ userId
          → deleteEstimationRoute db userId id = (.failure 403 "Access denied", db))
      ∧ (∀ status data, (deleteEstimationRoute db userId id).1 = .success status data
          → ∃ e, findById db id = some e ∧ e.userId = userId) := by
  refine ⟨?_, ?_, ?_⟩
  · intro h
    simp [deleteEstimationRoute, h]
  · intro e h hne
    simp [deleteEstimationRoute, h, hne]
  · intro status data h
    cases hfound : findById db id with
    | none => simp [deleteEstimationRoute, hfound] at h
    | some e =>
      by_cases hown : e.userId = userId
      · exact ⟨e, rfl, hown⟩
      · simp [deleteEstimationRoute, hfound, hown] at h

theorem putEstimationRoute_cases (db : Db) (userId id : String) (body : EstimationBody) :
    (findById db id = none
        → putEstimationRoute db userId id body = (.failure 404 "Estimation not found", db))
      ∧ (∀ e, findById db id = some e → e.userId ≠ userId
          → putEstimationRoute db userId id body = (.failure 403 "Access denied", db))
      ∧ (∀ status data, (putEstimationRoute db userId id body).1 = .success status data
          → ∃ e, findById db id = some e ∧ e.userId = userId) := by
  have hput := putEstimation_cases userId (findById db id) body
  refine ⟨?_, ?_, ?_⟩
  · intro h
    simp [putEstimationRoute, hput.1 h]
  · intro e h hne
    simp [putEstimationRoute, hput.2.1 e h hne]
  · intro status data h
    cases hres : putEstimation userId (findById db id) body with
    | failure st err => simp [putEstimationRoute, hres] at h
    | success st updated => exact hput.2.2 st updated hres

/-- C22 fails as stated: no estimation has the id e1 in the stored collections
without estimations, and the get, update and delete routes answer 500, not 404,
because the text e1 cannot be cast to an ObjectId and `findById` throws. -/
theorem estimation_requests_malformed_id :
    findById emptyDb "e1" = none
      ∧ getEstimationRequest castsNothingElse (fun _ => true) emptyDb "u1" "e1"
        = (.failure 500 "Failed to fetch estimation", emptyDb)
      ∧ putEstimationRequest castsNothingElse emptyDb "u1" "e1" updateBodyForeignTotals
        = (.failure 500 "Failed to update estimation", emptyDb)
      ∧ deleteEstimationRequest castsNothingElse emptyDb "u1" "e1"
        = (.failure 500 "Failed to delete estimation", emptyDb) := by
  have hcast : castsToObjectId castsNothingElse "e1" = false := by decide
  refine ⟨rfl, ?_, ?_, ?_⟩
  · simp [getEstimationRequest, hcast]
  · simp [putEstimationRequest, hcast]
  · simp [deleteEstimationRequest, hcast]

/-- C22 as amended: for the get, update and delete routes on an estimation id:
when the id cannot be cast to an ObjectId the response is 500; when it can be
cast and no estimation has that id the response is 404 Estimation not found;
when the estimation found belongs to another user the response is 403 Access
denied, except that the get route answers 500 when the user document of the
owner is not stored; in all these cases the stored collections are unchanged;
and a success response is given only when the estimation exists and the
requester is its owner. -/
theorem estimation_requests_check_owner (castsOther userExists : String → Bool) (db : Db)
    (userId id : String) (body : EstimationBody) :
    (castsToObjectId castsOther id = false
        → getEstimationRequest castsOther userExists db userId id
            = (.failure 500 "Failed to fetch estimation", db)
          ∧ putEstimationRequest castsOther db userId id body
            = (.failure 500 "Failed to update estimation", db)
          ∧ deleteEstimationRequest castsOther db userId id
            = (.failure 500 "Failed to delete estimation", db))
      ∧ (castsToObjectId castsOther id = true → findById db id = none
        → getEstimationRequest castsOther userExists db userId id
            = (.failure 404 "Estimation not found", db)
          ∧ putEstimationRequest castsOther db userId id body
            = (.failure 404 "Estimation not found", db)
          ∧ deleteEstimationRequest castsOther db userId id
            = (.failure 404 "Estimation not found", db))
      ∧ (castsToObjectId castsOther id = true
        → ∀ e, findById db id = some e → e.userId ≠ userId
        → (userExists e.userId = true
            → getEstimationRequest castsOther userExists db userId id
              = (.failure 403 "Access denied", db))
          ∧ (userExists e.userId = false
            → getEstimationRequest castsOther userExists db userId id
              = (.failure 500 "Failed to fetch estimation", db))
          ∧ putEstimationRequest castsOther db userId id body
            = (.failure 403 "Access denied", db)
          ∧ deleteEstimationRequest castsOther db userId id
            = (.failure 403 "Access denied", db))
      ∧ (∀ status data,
          (getEstimationRequest castsOther userExists db userId id).1 = .success status data
          → findById db id = some data ∧ data.userId = userId)
      ∧ (∀ status data,
          (putEstimationRequest castsOther db userId id body).1 = .success status data
          → ∃ e, findById db id = some e ∧ e.userId = userId)
      ∧ (∀ status data,
          (deleteEstimationRequest castsOther db userId id).1 = .success status data
          → ∃ e, findById db id = some e ∧ e.userId = userId) := by
  have hput := putEstimationRoute_cases db userId id body
  have hdel := deleteEstimationRoute_cases db userId id
  refine ⟨?_, ?_, ?_, ?_, ?_, ?_⟩
  · intro hcast
    simp [getEstimationRequest, putEstimationRequest, deleteEstimationRequest, hcast]
  · intro hcast hnone
    refine ⟨?_, ?_, ?_⟩
    · simp [getEstimationRequest, hcast, hnone]
    · simp [putEstimationRequest, hcast, hput.1 hnone]
    · simp [deleteEstimationRequest, hcast, hdel.1 hnone]
  · intro hcast e hsome hne
    refine ⟨?_, ?_, ?_, ?_⟩
    · intro hexists
      simp [getEstimationRequest, hcast, hsome, hexists, hne]
    · intro hmissing
      simp [getEstimationRequest, hcast, hsome, hmissing]
    · simp [putEstimationRequest, hcast, hput.2.1 e hsome hne]
    · simp [deleteEstimationRequest, hcast, hdel.2.1 e hsome hne]
  · intro status data h
    by_cases hcast : castsToObjectId castsOther id = true
    · cases hfound : findById db id with
      | none => simp [getEstimationRequest, hcast, hfound] at h
      | some e =>
        by_cases hexists : userExists e.userId = true
        · by_cases hown : e.userId = userId
          · have hexists2 : userExists userId = true := by rw [← hown]; exact hexists
            simp [getEstimationRequest, hcast, hfound, hown, hexists2] at h
            rw [← h.2]
            exact ⟨rfl, hown⟩
          · simp [getEstimationRequest, hcast, hfound, hexists, hown] at h
        · simp [getEstimationRequest, hcast, hfound, hexists] at h
    · simp [getEstimationRequest, hcast] at h
  · intro status data h
    by_cases hcast : castsToObjectId castsOther id = true
    · simp only [putEstimationRequest, hcast, if_true] at h
      exact hput.2.2 status data h
    · simp [putEstimationRequest, hcast] at h
  · intro status data h
    by_cases hcast : castsToObjectId castsOther id = true
    · simp only [deleteEstimationRequest, hcast, if_true] at h
      exact hdel.2.2 status data h
    · simp [deleteEstimationRequest, hcast] at h

/-- Witness for C22 as amended: user u2 asks for, updates and deletes the
estimation of user u1 whose id is 24 hexadecimal digits, and gets 403 each time,
the stored collections being unchanged. -/
theorem estimation_requests_check_owner_witness :
    castsToObjectId castsNothingElse "64b7f0c2a1d3e4f5a6b7c8d9" = true
      ∧ findById hexIdDb "64b7f0c2a1d3e4f5a6b7c8d9" = some storedEstimationHexId
      ∧ storedEstimationHexId.userId ≠ "u2"
      ∧ getEstimationRequest castsNothingElse (fun _ => true) hexIdDb "u2"
          "64b7f0c2a1d3e4f5a6b7c8d9"
        = (.failure 403 "Access denied", hexIdDb)
      ∧ putEstimationRequest castsNothingElse hexIdDb "u2" "64b7f0c2a1d3e4f5a6b7c8d9"
          updateBodyForeignTotals
        = (.failure 403 "Access denied", hexIdDb)
      ∧ deleteEstimationRequest castsNothingElse hexIdDb "u2" "64b7f0c2a1d3e4f5a6b7c8d9"
        = (.failure 403 "Access denied", hexIdDb) := by
  have hcast : castsToObjectId castsNothingElse "64b7f0c2a1d3e4f5a6b7c8d9" = true := by decide
  have hfound : findById hexIdDb "64b7f0c2a1d3e4f5a6b7c8d9" = some storedEstimationHexId := by
    simp +decide [findById, hexIdDb, storedEstimationHexId, storedEstimation]
  have hne : storedEstimationHexId.userId ≠ "u2" := by
    simp +decide [storedEstimationHexId, storedEstimation]
  have h := (estimation_requests_check_owner castsNothingElse (fun _ => true) hexIdDb "u2"
    "64b7f0c2a1d3e4f5a6b7c8d9" updateBodyForeignTotals).2.2.1 hcast storedEstimationHexId
    hfound hne
  exact ⟨hcast, hfound, hne, h.1 rfl, h.2.2.1, h.2.2.2⟩

/-! ## Phase statuses and the create route -/

theorem validateEstimation_timeline (e : Estimation) (t : Timeline) :
    validateEstimation { e with timeline := some t }
      = (validateEstimation { e with timeline := none }
        && (t.phases.getD []).all (fun ph =>
          decide (ph.name ≠ "") && decide (0 ≤ ph.duration)
            && decide (ph.status ∈ phaseStatusEnum))) := by
  unfold validateEstimation
  cases hT : (t.phases.getD []).all (fun ph =>
      decide (ph.name ≠ "") && decide (0 ≤ ph.duration)
        && decide (ph.status ∈ phaseStatusEnum))
  · simp only [hT, Bool.and_false, Bool.false_and]
  · simp only [hT, Bool.and_true]

theorem validateEstimation_of_timeline (doc : Estimation) (t : Timeline)
    (h : doc.timeline = some t) :
    validateEstimation doc
      = (validateEstimation { doc with timeline := none }
        && (t.phases.getD []).all (fun ph =>
          decide (ph.name ≠ "") && decide (0 ≤ ph.duration)
            && decide (ph.status ∈ phaseStatusEnum))) := by
  have hdoc : doc = { doc with timeline := some t } := by
    cases doc
    simp only at h
    subst h
    rfl
  have := validateEstimation_timeline doc t
  rw [← hdoc] at this
  exact this

theorem phases_all_valid_of_rel (phases replaced : List Phase)
    (hrel : List.Forall₂
      (fun p q : Phase => q.name = p.name ∧ q.duration = p.duration
        ∧ q.status ∈ phaseStatusEnum ∧ (p.status = "completed" ↔ q.status = "completed"))
      phases replaced)
    (hvalid : phases.all (fun ph =>
      decide (ph.name ≠ "") && decide (0 ≤ ph.duration)
        && decide (ph.status ∈ phaseStatusEnum)) = true) :
    replaced.all (fun ph =>
      decide (ph.name ≠ "") && decide (0 ≤ ph.duration)
        && decide (ph.status ∈ phaseStatusEnum)) = true := by
  induction hrel with
  | nil => rfl
  | @cons p q ps qs hpq _ ih =>
    simp only [List.all_cons, Bool.and_eq_true, decide_eq_true_eq] at hvalid ⊢
    obtain ⟨⟨⟨hn, hd⟩, _⟩, hrest⟩ := hvalid
    refine ⟨⟨⟨?_, ?_⟩, hpq.2.2.1⟩, ?_⟩
    · rw [hpq.1]
      exact hn
    · rw [hpq.2.1]
      exact hd
    · exact ih hrest

/-- C21 fails as stated: a create request whose second phase has the status
on ice, which is outside the enumeration, is rejected by the validators of the
schema before the save hook runs: the route answers 400 and no progress is
computed. -/
theorem postEstimation_unknown_status_rejected :
    (createBodyUnknownStatus.timeline.bind (fun t => t.phases)).map
        (fun phases => phases.map (fun phase => phase.status))
      = some ["completed", "on ice", "completed"]
    ∧ ∃ message, postEstimationDouble "u1" (.ok "p1") sampleDate createBodyUnknownStatus
      = .failure 400 message := by
  constructor
  · rfl
  · refine ⟨"Estimation validation failed", ?_⟩
    simp +decide [postEstimationDouble, createBodyUnknownStatus, createBodySite, validateEstimation,
      newEstimation, scenarioBUnknownStatus, phaseStatusEnum]

/-- C21 as amended: on the create route, the only route that runs the save hook,
a phase whose status lies outside planned, in_progress, completed and delayed
makes the validation fail: the route answers 400 and computes no progress; and
when a request is accepted, replacing the statuses of phases that are not
completed by other statuses of the enumeration that are not completed gives a
request that is accepted with the same progress. -/
theorem postEstimation_phase_statuses (userId projectId projectName : String) (now : JsDate)
    (body : EstimationBody) (t : Timeline)
    (hname : body.projectName = some projectName) (hnonempty : projectName ≠ "")
    (htimeline : body.timeline = some t) :
    ((∃ phase ∈ t.phases.getD [], phase.status ∉ phaseStatusEnum)
        → ∃ message, postEstimationDouble userId (.ok projectId) now body = .failure 400 message)
      ∧ (∀ replaced : List Phase,
          List.Forall₂
            (fun p q : Phase => q.name = p.name ∧ q.duration = p.duration
              ∧ q.status ∈ phaseStatusEnum
              ∧ (p.status = "completed" ↔ q.status = "completed"))
            (t.phases.getD []) replaced
          → ∀ saved, postEstimationDouble userId (.ok projectId) now body = .success 201 saved
          → ∃ saved2,
              postEstimationDouble userId (.ok projectId) now
                  { body with timeline := some { t with phases := some replaced } }
                = .success 201 saved2
              ∧ saved2.progress = saved.progress) := by
  have hguard : newDocContext.isModified "timeline" = true ∨ newDocContext.isNew = true :=
    Or.inr rfl
  have hpost : ∀ b : EstimationBody, b.projectName = some projectName
      → postEstimationDouble userId (.ok projectId) now b
        = if validateEstimation (newEstimation userId projectId projectName now b) then
            .success 201
              (preSaveDouble newDocContext (newEstimation userId projectId projectName now b))
          else .failure 400 "Estimation validation failed" := by
    intro b hb
    simp only [postEstimationDouble, hb, hnonempty, if_false]
    rfl
  have hsplit := validateEstimation_of_timeline
    (newEstimation userId projectId projectName now body) t (by simp [newEstimation, htimeline])
  constructor
  · rintro ⟨phase, hmem, hbad⟩
    refine ⟨"Estimation validation failed", ?_⟩
    have hall : (t.phases.getD []).all (fun ph =>
        decide (ph.name ≠ "") && decide (0 ≤ ph.duration)
          && decide (ph.status ∈ phaseStatusEnum)) = false := by
      rw [List.all_eq_false]
      exact ⟨phase, hmem, by simp [hbad]⟩
    have hfalse : validateEstimation (newEstimation userId projectId projectName now body)
        = false := by
      rw [hsplit, hall, Bool.and_false]
    rw [hpost body hname, hfalse]
    rfl
  · intro replaced hrel saved hsaved
    rw [hpost body hname] at hsaved
    by_cases hv : validateEstimation (newEstimation userId projectId projectName now body) = true
    · simp only [hv, if_true] at hsaved
      have hs : saved = preSaveDouble newDocContext
          (newEstimation userId projectId projectName now body) := by
        injection hsaved with _ h2
        exact h2.symm
      rw [hsplit, Bool.and_eq_true] at hv
      have hv2 := phases_all_valid_of_rel _ _ hrel hv.2
      have hbody2 : ({ body with timeline := some { t with phases := some replaced } }
          : EstimationBody).projectName = some projectName := hname
      have hsplit2 := validateEstimation_of_timeline
        (newEstimation userId projectId projectName now
          { body with timeline := some { t with phases := some replaced } })
        { t with phases := some replaced } (by simp [newEstimation])
      have hnone : ({ newEstimation userId projectId projectName now
            { body with timeline := some { t with phases := some replaced } }
              with timeline := none } : Estimation)
          = { newEstimation userId projectId projectName now body with timeline := none } := rfl
      have hvalid2 : validateEstimation (newEstimation userId projectId projectName now
          { body with timeline := some { t with phases := some replaced } }) = true := by
        rw [hsplit2, hnone, Bool.and_eq_true]
        exact ⟨hv.1, hv2⟩
      refine ⟨preSaveDouble newDocContext (newEstimation userId projectId projectName now
          { body with timeline := some { t with phases := some replaced } }), ?_, ?_⟩
      · rw [hpost _ hbody2]
        simp only [hvalid2, if_true]
      · rw [hs, preSaveDouble_progress newDocContext _ hguard, preSaveDouble_progress newDocContext _ hguard]
        have hcount := filter_completed_length (t.phases.getD []) replaced
          (hrel.imp (fun _ _ h => h.2.2.2))
        have hp1 : timelinePhases (newEstimation userId projectId projectName now body)
            = t.phases.getD [] := by
          simp [timelinePhases, newEstimation, htimeline]
        have hp2 : timelinePhases (newEstimation userId projectId projectName now
            { body with timeline := some { t with phases := some replaced } }) = replaced := by
          simp [timelinePhases, newEstimation]
        rw [hp1, hp2, hcount.1, hcount.2]
    · simp only [hv, if_false] at hsaved
      cases hsaved

/-- Witness for C21 as amended: the create request with the phases of scenario B
is accepted, and so is the request in which the planned phase is delayed, with
the same progress. -/
theorem postEstimation_phase_statuses_witness :
    createBodyScenarioB.projectName = some "Site"
      ∧ createBodyScenarioB.timeline = some { phases := some scenarioB }
      ∧ ∃ saved saved2,
        postEstimationDouble "u1" (.ok "p1") sampleDate createBodyScenarioB = .success 201 saved
          ∧ postEstimationDouble "u1" (.ok "p1") sampleDate
              { createBodyScenarioB with
                timeline := some { ({ phases := some scenarioB } : Timeline) with
                  phases := some scenarioBDelayed } }
            = .success 201 saved2
          ∧ saved2.progress = saved.progress := by
  have hname : createBodyScenarioB.projectName = some "Site" := rfl
  have htimeline : createBodyScenarioB.timeline = some { phases := some scenarioB } := rfl
  have hvalid : validateEstimation
      (newEstimation "u1" "p1" "Site" sampleDate createBodyScenarioB) = true := by
    simp +decide [createBodyScenarioB, createBodySite, validateEstimation, newEstimation,
      transformCostBreakdown, transformResources, jsOr, jsOrStr, estimationStatusEnum,
      riskLevelEnum, scenarioB, phaseStatusEnum]
  have hsaved : postEstimationDouble "u1" (.ok "p1") sampleDate createBodyScenarioB
      = .success 201 (preSaveDouble newDocContext
          (newEstimation "u1" "p1" "Site" sampleDate createBodyScenarioB)) := by
    simp only [postEstimationDouble, hname]
    simp only [hvalid, if_true]
    rfl
  have hrel : List.Forall₂
      (fun p q : Phase => q.name = p.name ∧ q.duration = p.duration
        ∧ q.status ∈ phaseStatusEnum ∧ (p.status = "completed" ↔ q.status = "completed"))
      ((({ phases := some scenarioB } : Timeline).phases).getD []) scenarioBDelayed := by
    simp only [Option.getD_some, scenarioB, scenarioBDelayed]
    refine List.Forall₂.cons ⟨rfl, rfl, by decide, by decide⟩
      (List.Forall₂.cons ⟨rfl, rfl, by decide, by decide⟩
        (List.Forall₂.cons ⟨rfl, rfl, by decide, by decide⟩ List.Forall₂.nil))
  obtain ⟨saved2, h2, hprog⟩ :=
    (postEstimation_phase_statuses "u1" "p1" "Site" sampleDate createBodyScenarioB
      { phases := some scenarioB } hname (by decide) htimeline).2 scenarioBDelayed hrel _ hsaved
  exact ⟨hname, htimeline, _, saved2, hsaved, h2, hprog⟩

/-! ## The CSV text and the worksheet rows -/

theorem excelRows_table_templates (now dateRange : String)
    (projectsReport : ProjectsReport) (resourcesReport : ResourcesReport) :
    ((excelRows now "projects" dateRange (.projects projectsReport)).drop 5).map
          (fun row => row.map Cell.template)
        = (csvRows now "projects" dateRange (.projects projectsReport)).drop 5
      ∧ ((excelRows now "resources" dateRange (.resources resourcesReport)).drop 5).map
          (fun row => row.map Cell.template)
        = (csvRows now "resources" dateRange (.resources resourcesReport)).drop 5 := by
  constructor
  · by_cases hlen : projectsReport.projectStatus.length > 0
    · simp +decide [excelRows, csvRows, ReportData.projectStatus?, Cell.template, hlen,
        jsOrStr_some_empty, Function.comp_def]
    · have hnil : projectsReport.projectStatus = [] := by
        simpa [List.length_eq_zero] using hlen
      simp +decide [excelRows, csvRows, ReportData.projectStatus?, Cell.template, hnil]
  · by_cases hlen : resourcesReport.teamPerformance.length > 0
    · simp +decide [excelRows, csvRows, ReportData.teamPerformance?, Cell.template, hlen,
        jsOrStr_some_empty, Function.comp_def]
    · have hnil : resourcesReport.teamPerformance = [] := by
        simpa [List.length_eq_zero] using hlen
      simp +decide [excelRows, csvRows, ReportData.teamPerformance?, Cell.template, hnil]

theorem string_foldl_append (l : List String) (a : String) :
    l.foldl (fun r s => r ++ s) a = a ++ l.foldl (fun r s => r ++ s) "" := by
  induction l generalizing a with
  | nil => simp
  | cons x xs ih =>
    simp only [List.foldl_cons]
    rw [ih, ih ("" ++ x)]
    simp [String.append_assoc]

theorem string_join_cons (x : String) (l : List String) :
    String.join (x :: l) = x ++ String.join l := by
  unfold String.join
  simp only [List.foldl_cons]
  rw [string_foldl_append]
  simp

theorem string_join_append (l₁ l₂ : List String) :
    String.join (l₁ ++ l₂) = String.join l₁ ++ String.join l₂ := by
  induction l₁ with
  | nil => simp [String.join]
  | cons x xs ih => simp [string_join_cons, ih, String.append_assoc]

theorem csv_heading_text (numStr : ℚ → String) (title now reportType dateRange : String) :
    String.join
        (([ [[.text title]],
            [[.text "Generated"], [.text now]],
            [[.text "Report Type"], [.text reportType]],
            [[.text "Date Range"], [.text dateRange]],
            [] ] : List (List (List Piece))).map
          (fun row => ",".intercalate (row.map (renderTemplate numStr)) ++ "\n"))
      = title ++ "\n" ++ "Generated," ++ now ++ "\n" ++ "Report Type," ++ reportType ++ "\n"
        ++ "Date Range," ++ dateRange ++ "\n" ++ "\n" := by
  rw [String.ext_iff]
  simp [string_join_cons, renderTemplate, String.intercalate, String.intercalate.go,
    String.join, String.data_append]

theorem generateCSVReport_split (numStr : ℚ → String) (now reportType dateRange : String)
    (data : ReportData) :
    generateCSVReport numStr now reportType dateRange data
      = String.join (((csvRows now reportType dateRange data).take 5).map
          (fun row => ",".intercalate (row.map (renderTemplate numStr)) ++ "\n"))
        ++ String.join (((csvRows now reportType dateRange data).drop 5).map
          (fun row => ",".intercalate (row.map (renderTemplate numStr)) ++ "\n")) := by
  unfold generateCSVReport
  rw [← string_join_append, ← List.map_append, List.take_append_drop]

theorem csvRows_take_five (now dateRange : String) (projectsReport : ProjectsReport)
    (resourcesReport : ResourcesReport) :
    (csvRows now "projects" dateRange (.projects projectsReport)).take 5
        = [ [[.text "Projects Report"]],
            [[.text "Generated"], [.text now]],
            [[.text "Report Type"], [.text "projects"]],
            [[.text "Date Range"], [.text dateRange]],
            [] ]
      ∧ (csvRows now "resources" dateRange (.resources resourcesReport)).take 5
        = [ [[.text "Resources Report"]],
            [[.text "Generated"], [.text now]],
            [[.text "Report Type"], [.text "resources"]],
            [[.text "Date Range"], [.text dateRange]],
            [] ] := by
  constructor
  · simp +decide [csvRows]
  · simp +decide [csvRows]

/-- C16 as amended: for the report types projects and resources, with report
data of that type, the CSV text consists of its five heading lines followed by
the rows of the worksheet after the first five (the section title, the column
titles and one row per entry), each written as the texts of its cells joined by
commas and ended by a line break. -/
theorem generateCSVReport_table_from_excelRows (numStr : ℚ → String) (now dateRange : String)
    (projectsReport : ProjectsReport) (resourcesReport : ResourcesReport) :
    generateCSVReport numStr now "projects" dateRange (.projects projectsReport)
        = "Projects Report" ++ "\n" ++ "Generated," ++ now ++ "\n" ++ "Report Type,"
            ++ "projects" ++ "\n" ++ "Date Range," ++ dateRange ++ "\n" ++ "\n"
          ++ String.join
            (((excelRows now "projects" dateRange (.projects projectsReport)).drop 5).map
              (fun row =>
                ",".intercalate (row.map (fun cell => renderTemplate numStr cell.template))
                  ++ "\n"))
      ∧ generateCSVReport numStr now "resources" dateRange (.resources resourcesReport)
        = "Resources Report" ++ "\n" ++ "Generated," ++ now ++ "\n" ++ "Report Type,"
            ++ "resources" ++ "\n" ++ "Date Range," ++ dateRange ++ "\n" ++ "\n"
          ++ String.join
            (((excelRows now "resources" dateRange (.resources resourcesReport)).drop 5).map
              (fun row =>
                ",".intercalate (row.map (fun cell => renderTemplate numStr cell.template))
                  ++ "\n")) := by
  have htab := excelRows_table_templates now dateRange projectsReport resourcesReport
  have htake := csvRows_take_five now dateRange projectsReport resourcesReport
  constructor
  · rw [generateCSVReport_split, htake.1, csv_heading_text, ← htab.1, List.map_map]
    simp only [Function.comp_def, List.map_map]
  · rw [generateCSVReport_split, htake.2, csv_heading_text, ← htab.2, List.map_map]
    simp only [Function.comp_def, List.map_map]

/-- C16 fails as stated: for the projects report the CSV text begins with the
line Projects Report, a single cell, while the first row of the worksheet holds
the two cells Report Type and projects. -/
theorem excelRows_ne_csv_lines :
    (∃ rest : String,
        generateCSVReport failingXlsxEnv.numStr failingXlsxEnv.now "projects" "30days"
            sampleProjectsData
          = "Projects Report" ++ "\n" ++ rest)
      ∧ (excelRows failingXlsxEnv.now "projects" "30days" sampleProjectsData).head?
        = some [.str [.text "Report Type"], .str [.text "projects"]] := by
  constructor
  · refine ⟨"Generated," ++ failingXlsxEnv.now ++ "\n" ++ "Report Type," ++ "projects" ++ "\n"
      ++ "Date Range," ++ "30days" ++ "\n" ++ "\n"
      ++ String.join (((csvRows failingXlsxEnv.now "projects" "30days" sampleProjectsData).drop
          5).map
        (fun row => ",".intercalate (row.map (renderTemplate failingXlsxEnv.numStr)) ++ "\n")),
      ?_⟩
    rw [generateCSVReport_split]
    have htake := (csvRows_take_five failingXlsxEnv.now "30days"
      (calculateProjectsReport sixProjects []) ⟨[], []⟩).1
    have hdata : sampleProjectsData = .projects (calculateProjectsReport sixProjects []) := rfl
    rw [hdata, htake, csv_heading_text]
    simp only [String.append_assoc]
  · simp +decide [excelRows]

end EstimatePro
